import Mathlib

/-!
# gevo: the cell engine (`src/engine.cpp`)

A shallow embedding of `engine.cpp`.

Conventions of the embedding.

* A `Cell&` or `reference_wrapper<Cell>` is the position of the cell in
  `d_cells`; a neighbour list is a list of such positions.
* `uint32_t` genomes are natural numbers below `2 ^ 32`; `~` is taken on 32 bits.
* A `float` is an IEEE 754 binary32 number, held as the rational it denotes; every
  `float` operation rounds its exact result to the nearest such number, ties to even
  (`toFloat`).  The traits `horny`, `aggro`, `mutate` are `k / 32` with `k < 32`,
  `d_age * aggro` has at most 13 significant bits, and the rounded quotient
  `mean_hunger` is only ever compared against small integers, which rounding cannot
  cross, so these values and comparisons are exact and written without `toFloat`.
* `rand()` is a stream of draws handed to the function that consumes it
  (`Draws`); `RAND_MAX` is the constant of `<cstdlib>` and is a parameter.  A test
  `rand() < p * RAND_MAX` converts `RAND_MAX` to `float`, rounds the product, converts
  the draw to `float` and compares (`roll`); for `RAND_MAX = 2147483647` this differs
  from the comparison of the exact values for the draws just below the threshold.
* `int` arithmetic is arithmetic in `Int`: the lattice sizes that fit in memory are
  far from the overflow of `N * N`.
* Reading through a reference that denotes no cell of `d_cells` is undefined in the
  source; here it reads `default` and writing through it does nothing.
-/

namespace Gevo

set_option maxRecDepth 8192

/-! ## bitcount -/

/-- The loop of `bitcount`: `while (g) { g &= g - 1; c += 1; }`, run for at most
`fuel` iterations; `none` when the loop has not ended by then. -/
def bitcountLoop : Nat → Nat → Nat → Option Nat
  | 0, g, c => if g = 0 then some c else none
  | fuel + 1, g, c =>
    if g = 0 then some c else bitcountLoop fuel (g &&& (g - 1)) (c + 1)

/-- The function `bitcount(uint32_t g)`: 32 iterations are enough for a 32-bit
argument (`bitcountLoop_terminates`). -/
def bitcount (g : Nat) : Nat :=
  (bitcountLoop 32 g 0).getD 0

/-- The operator `~` on a `uint32_t`. -/
def not32 (x : Nat) : Nat :=
  4294967295 - x % 4294967296

/-! ## Data model -/

/-- The members of `Cell` that `engine.cpp` uses.  `d_grid` is the grid that is
passed around explicitly. -/
structure Cell where
  d_x : Int
  d_y : Int
  d_alive : Bool
  d_genome : Nat
  d_age : Int
  hunger : Int
  horny : ℚ
  aggro : ℚ
  mutate : ℚ
  d_neighbours : List Nat
  deriving DecidableEq, Inhabited

/-- An entry of `d_revive_queue`. -/
structure ReviveRequest where
  target : Nat
  genome : Nat
  mother : Nat
  deriving DecidableEq, Inhabited

/-- An entry of `d_death_queue`. -/
structure DeathRequest where
  target : Nat
  killer : Nat
  deriving DecidableEq, Inhabited

/-- The members of `CellGrid`.  `d_populus` is the map from genome to count, kept
as an association list. -/
structure CellGrid where
  d_N : Int
  d_cells : List Cell
  d_populus : List (Nat × Nat)
  d_revive_queue : List ReviveRequest
  d_death_queue : List DeathRequest
  deriving DecidableEq, Inhabited

/-- The cell a reference denotes. -/
def CellGrid.cell (G : CellGrid) (c : Nat) : Cell :=
  G.d_cells.getD c default

/-- Assignment through a reference to a cell. -/
def CellGrid.setCell (G : CellGrid) (c : Nat) (v : Cell) : CellGrid :=
  { G with d_cells := G.d_cells.set c v }

/-! ## Cell -/

/-- The method `Cell::die`. -/
def Cell.die (self : Cell) : Cell :=
  { self with d_alive := false }

/-- The method `Cell::revive`. -/
def Cell.revive (self : Cell) (g : Nat) : Cell :=
  { self with
    d_alive := true
    d_genome := g
    d_age := (((g &&& 0x00001f) <<< 3 : Nat) : Int)
    hunger := ((((g &&& 0x0000e0) >>> 5) + 2 : Nat) : Int)
    horny := (((g &&& 0x000f00) >>> 8 : Nat) : ℚ) / 32
    aggro := (((g &&& 0x00f000) >>> 12 : Nat) : ℚ) / 32
    mutate := (((g &&& 0x1f0000) >>> 16 : Nat) : ℚ) / 32 }

/-- The method `Cell::like`. -/
def Cell.like (self c : Cell) : Bool :=
  decide (((bitcount (not32 (self.d_genome ^^^ c.d_genome)) : Nat) : ℚ) < self.mutate)

/-- The method `Cell::attack`. -/
def Cell.attack (self : Cell) : ℚ :=
  (self.d_age : ℚ) * self.aggro

/-! ## Random draws -/

/-- Put `x` in front of position `k` of a list (at the end when `k` is past it). -/
def insertAt {α : Type} : Nat → α → List α → List α
  | 0, x, l => x :: l
  | _ + 1, x, [] => [x]
  | k + 1, x, y :: l => y :: insertAt k x l

/-- The library function `std::random_shuffle`: the draws decide where each element
goes, and every rearrangement of the list is the result of some draws.  The
algorithm itself is not fixed by the language; the result is a rearrangement of the
argument, which is all the engine relies on. -/
def random_shuffle {α : Type} : List Nat → List α → List α
  | _, [] => []
  | ds, x :: xs => insertAt (ds.headD 0 % (xs.length + 1)) x (random_shuffle ds.tail xs)

/-- The values `rand()` returns during one call of `Cell::step`, by the place that
consumes them: the shuffle of the neighbours, the test against `horny`, the test
against `aggro`, the test against `mutate`, and the bits of the mutation. -/
structure Draws where
  shuffle : List Nat
  horny : Nat
  aggro : Nat
  mutate : Nat
  bits : Nat
  deriving DecidableEq, Inhabited

/-! ## The tests against `rand()` -/

/-- The quotient `N / D` rounded to the nearest integer, ties to even. -/
def roundEven (N D : Nat) : Nat :=
  let q := N / D
  let r := N % D
  if 2 * r < D then q
  else if D < 2 * r then q + 1
  else if q % 2 = 0 then q else q + 1

/-- The number of binary digits of `n`, counted with at most `fuel` halvings; `fuel = n`
is enough for every `n`. -/
def bitLen : Nat → Nat → Nat
  | 0, _ => 0
  | fuel + 1, n => if n = 0 then 0 else bitLen fuel (n / 2) + 1

/-- The integer `l` with `2 ^ l ≤ a / b < 2 ^ (l + 1)`, for positive `a` and `b`. -/
def floorLog2 (a b : Nat) : Int :=
  let d : Int := (bitLen a a : Int) - (bitLen b b : Int)
  if (if 0 ≤ d then decide (2 ^ d.toNat * b ≤ a) else decide (b ≤ a * 2 ^ (-d).toNat)) then d
  else d - 1

/-- The conversion to `float` of a value `x ≥ 0`, and the rounding of the exact result
of a `float` operation: the nearest number with 24 significant binary digits, ties to
even.  The exponent range of binary32 is left out: the engine converts `int` values and
multiplies them by a trait `k / 32`, which stays between `2 ^ (-5)` and `2 ^ 31`. -/
def toFloat (x : ℚ) : ℚ :=
  let a := x.num.toNat
  let b := x.den
  if a = 0 then 0
  else
    let e := floorLog2 a b - 23
    if 0 ≤ e then ((roundEven a (b * 2 ^ e.toNat) * 2 ^ e.toNat : Nat) : ℚ)
    else ((roundEven (a * 2 ^ (-e).toNat) b : Nat) : ℚ) / ((2 ^ (-e).toNat : Nat) : ℚ)

/-- The test `rand() < p * RAND_MAX` of `Cell::step` for the draw `draw` and the `float`
trait `p`: `RAND_MAX` is converted to `float`, the product is rounded to `float`, the
draw is converted to `float`, and the two `float` values are compared. -/
def roll (RAND_MAX draw : Nat) (p : ℚ) : Bool :=
  decide (toFloat (draw : ℚ) < toFloat (p * toFloat (RAND_MAX : ℚ)))

/-! ## Request queues -/

/-- The method `CellGrid::request_revive`. -/
def CellGrid.request_revive (G : CellGrid) (target genome mother : Nat) : CellGrid :=
  { G with d_revive_queue := G.d_revive_queue ++ [⟨target, genome, mother⟩] }

/-- The method `CellGrid::request_death`. -/
def CellGrid.request_death (G : CellGrid) (target killer : Nat) : CellGrid :=
  { G with d_death_queue := G.d_death_queue ++ [⟨target, killer⟩] }

/-- The loop `for (auto req : d_revive_queue)` of `process_requests`. -/
def CellGrid.reviveLoop (q : List ReviveRequest) (G : CellGrid) : CellGrid :=
  q.foldl (fun G req => G.setCell req.target ((G.cell req.target).revive req.genome)) G

/-- The loop `for (auto req : d_death_queue)` of `process_requests`. -/
def CellGrid.deathLoop (q : List DeathRequest) (G : CellGrid) : CellGrid :=
  q.foldl (fun G req => G.setCell req.target (G.cell req.target).die) G

/-- The method `CellGrid::process_requests`: the loop over `d_revive_queue`, then
the loop over `d_death_queue`. -/
def CellGrid.process_requests (G : CellGrid) : CellGrid :=
  let G := G.reviveLoop G.d_revive_queue
  let G := { G with d_revive_queue := [] }
  let G := G.deathLoop G.d_death_queue
  { G with d_death_queue := [] }

/-! ## Cell::step -/

/-- The first loop of `Cell::step` over `d_neighbours`: the pair
`(mean_hunger, num_neighbours)`, the latter a `uint8_t`. -/
def hungerLoop (G : CellGrid) (ns : List Nat) (init : ℚ × Nat) : ℚ × Nat :=
  ns.foldl (fun acc n =>
    if (G.cell n).d_alive then (acc.1 + ((G.cell n).hunger : ℚ), (acc.2 + 1) % 256)
    else acc) init

/-- The loop `for (Cell& n : d_neighbours) { if (!like(n)) continue; mate = n; }` of
the cell at `c`.  `mate` is a reference bound to `*this`, so `mate = n` is the copy
assignment `*this = n`: every member of `n` is copied into the stepping cell.  The
loop walks the positions `k, k + 1, ...` of the storage of `d_neighbours`, which
the assignment overwrites in place; `m` positions are left. -/
def mateLoop (c : Nat) : Nat → Nat → CellGrid → CellGrid
  | 0, _, G => G
  | m + 1, k, G =>
    match (G.cell c).d_neighbours[k]? with
    | none => G
    | some n =>
      mateLoop c m (k + 1)
        (if (G.cell c).like (G.cell n) then G.setCell c (G.cell n) else G)

/-- Line 50 of `Cell::step`: `random_shuffle(d_neighbours.begin(), d_neighbours.end())`. -/
def Cell.shuffleNeighbours (G : CellGrid) (c : Nat) (r : Draws) : CellGrid :=
  G.setCell c
    { G.cell c with d_neighbours := random_shuffle r.shuffle (G.cell c).d_neighbours }

/-- Lines 59-71 of `Cell::step`: the value of the test
`mean_hunger > num_neighbours && mean_hunger > hunger` after the loop that sums the
hunger of the cell and of its alive neighbours.  (With 255 alive neighbours the
`uint8_t` counter would wrap to 0 and the `float` quotient would not be a number;
every list the engine builds has 8 entries.) -/
def Cell.starving (G : CellGrid) (c : Nat) : Bool :=
  let acc := hungerLoop G (G.cell c).d_neighbours (((G.cell c).hunger : ℚ), 1)
  let num_neighbours := acc.2
  let mean_hunger := acc.1 / (num_neighbours : ℚ)
  decide (mean_hunger > (num_neighbours : ℚ) ∧ mean_hunger > ((G.cell c).hunger : ℚ))

/-- Lines 80-107 of `Cell::step`: the loop that looks for a free spot.  Its body
runs for the first neighbour that is not alive and returns. -/
def Cell.reproduce (RAND_MAX : Nat) (G : CellGrid) (c : Nat) (r : Draws) : CellGrid :=
  match (G.cell c).d_neighbours.find? (fun n => !(G.cell n).d_alive) with
  | none => G
  | some n =>
    let g := (G.cell c).d_genome
    let mate := c
    let G := mateLoop c (G.cell c).d_neighbours.length 0 G
    let g :=
      if mate ≠ c then
        ((G.cell c).d_genome &&& 0x55555555) ||| ((G.cell n).d_genome &&& 0xaaaaaaaa)
      else g
    let g :=
      if roll RAND_MAX r.mutate (G.cell c).mutate = true then
        g ^^^ (r.bits &&& 0xffffffff)
      else g
    G.request_revive n g c

/-- Lines 111-123 of `Cell::step`: the loop that looks for an opponent.  Its body
runs for the first neighbour that is alive and not liked and returns. -/
def Cell.fight (G : CellGrid) (c : Nat) : CellGrid :=
  match (G.cell c).d_neighbours.find?
      (fun n => !(!(G.cell n).d_alive || (G.cell c).like (G.cell n))) with
  | none => G
  | some n =>
    let ma := (G.cell c).attack
    let na := (G.cell n).attack
    if ma > na then G.request_death n c
    else if ma < na then G.request_death c n
    else G

/-- The method `Cell::step` of the cell at `c`. -/
def Cell.step (RAND_MAX : Nat) (G : CellGrid) (c : Nat) (r : Draws) : CellGrid :=
  let G := Cell.shuffleNeighbours G c r
  if (G.cell c).d_age ≤ 0 then
    G.request_death c c
  else
    let G := G.setCell c { G.cell c with d_age := (G.cell c).d_age - 1 }
    if Cell.starving G c then
      G.request_death c c
    else if roll RAND_MAX r.horny (G.cell c).horny = true then
      Cell.reproduce RAND_MAX G c r
    else if roll RAND_MAX r.aggro (G.cell c).aggro = true then
      Cell.fight G c
    else G

/-! ## CellGrid -/

/-- The constructor `Cell(grid, x, y)`: it sets the coordinates and nothing else;
`junk` stands for the members it leaves indeterminate. -/
def Cell.ctor (junk : Cell) (x y : Int) : Cell :=
  { junk with d_x := x, d_y := y, d_neighbours := [] }

/-- The eight indices into `d_cells` that the constructor of `CellGrid` computes for
the loop variables `i` and `j`, in the order of the `push_back`s. -/
def neighbourIndices (N i j : Int) : List Int :=
  let l := i - 1
  let r := i + 1
  let u := j - 1
  let d := j + 1
  let l := if l < 0 then l + N else l
  let u := if u < 0 then u + N else u
  let r := if r > N then r - N else r
  let d := if d > N then d - N else d
  [l + N * j, r + N * j, i + N * u, i + N * d,
   l + N * u, r + N * u, l + N * d, r + N * d]

/-- The constructor `CellGrid(N)`.  `junk i j` stands for the members that
`Cell(this, i, j)` leaves indeterminate. -/
def CellGrid.ctor (junk : Int → Int → Cell) (N : Int) : CellGrid :=
  let cells := (List.range N.toNat).flatMap fun (i : Nat) =>
    (List.range N.toNat).map fun (j : Nat) => Cell.ctor (junk i j) i j
  let G : CellGrid :=
    { d_N := N, d_cells := cells, d_populus := [], d_revive_queue := [],
      d_death_queue := [] }
  (List.range N.toNat).foldl (fun G (i : Nat) =>
    (List.range N.toNat).foldl (fun G (j : Nat) =>
      G.setCell ((i : Int) + N * (j : Int)).toNat
        { G.cell ((i : Int) + N * (j : Int)).toNat with
          d_neighbours := (neighbourIndices N i j).map Int.toNat }) G) G

/-- The statement `try { d_populus.at(k) += 1; } catch (out_of_range) { d_populus[k] = 1; }`. -/
def populusCount (m : List (Nat × Nat)) (k : Nat) : List (Nat × Nat) :=
  match m.find? (fun p => p.1 == k) with
  | some _ => m.map fun p => if p.1 == k then (p.1, p.2 + 1) else p
  | none => m ++ [(k, 1)]

/-- The loop `for (Cell& c : step_cells)` of `CellGrid::on_live_cells`; the hook
`f(c)` is external and observes only. -/
def CellGrid.stepCells (RAND_MAX : Nat) (draws : Nat → Draws) (step_cells : List Nat)
    (G : CellGrid) : CellGrid :=
  step_cells.foldl (fun G c =>
    let G := Cell.step RAND_MAX G c (draws c)
    { G with d_populus := populusCount G.d_populus (G.cell c).d_genome }) G

/-- One generation with the cells visited in the order `step_cells`: what
`CellGrid::on_live_cells` does once `step_cells` is shuffled. -/
def CellGrid.generation (RAND_MAX : Nat) (G : CellGrid) (step_cells : List Nat)
    (draws : Nat → Draws) : CellGrid :=
  (CellGrid.stepCells RAND_MAX draws step_cells { G with d_populus := [] }).process_requests

/-- The method `CellGrid::on_live_cells`: `order` are the draws of the shuffle of
`step_cells`, `draws c` the draws of the step of the cell at `c`. -/
def CellGrid.on_live_cells (RAND_MAX : Nat) (G : CellGrid) (order : List Nat)
    (draws : Nat → Draws) : CellGrid :=
  G.generation RAND_MAX (random_shuffle order (List.range G.d_cells.length)) draws

/-! ## Reference definitions -/

/-- The number of bit positions `0 .. n - 1` at which `g` has a one. -/
def bitsBelow (n g : Nat) : Nat :=
  (List.range n).countP (fun i => g.testBit i)

/-- The number of bit positions `0 .. 31` at which `a` and `b` agree: the
similarity score as the specification words it. -/
def agreeCount (a b : Nat) : Nat :=
  (List.range 32).countP (fun i => a.testBit i == b.testBit i)

/-- `G'` differs from `G` at most in the cell at `c` and in the queues. -/
def CellGrid.SameBut (c : Nat) (G G' : CellGrid) : Prop :=
  G'.d_cells.length = G.d_cells.length ∧ G'.d_N = G.d_N ∧ G'.d_populus = G.d_populus ∧
    ∀ j, j ≠ c → G'.cell j = G.cell j

/-- The state in which the cell at `c` has shuffled its neighbours and aged by one. -/
def Cell.aged (G : CellGrid) (c : Nat) (r : Draws) : CellGrid :=
  G.setCell c
    { G.cell c with
      d_neighbours := random_shuffle r.shuffle (G.cell c).d_neighbours
      d_age := (G.cell c).d_age - 1 }

/-- The column (or row) before `i` on the torus of size `n`. -/
def wrapPred (n i : Nat) : Nat :=
  if i = 0 then n - 1 else i - 1

/-- The lattice positions `(i', j')` next to `(i, j)` on the torus of size `n`, in the
order of the `push_back`s of the constructor; the cell at lattice position `(i, j)` is
`d_cells[i + N * j]`. -/
def moorePairs (n i j : Nat) : List (Nat × Nat) :=
  [(wrapPred n i, j), (i + 1, j), (i, wrapPred n j), (i, j + 1),
   (wrapPred n i, wrapPred n j), (i + 1, wrapPred n j),
   (wrapPred n i, j + 1), (i + 1, j + 1)]

/-- The neighbourhood as the specification words it: the indices of the cells at
`((i + di) mod N, (j + dj) mod N)` for the eight offsets other than `(0, 0)`, in the
order of the `push_back`s of the constructor. -/
def torusNeighbours (N i j : Int) : List Int :=
  [((-1 : Int), (0 : Int)), (1, 0), (0, -1), (0, 1), (-1, -1), (1, -1), (-1, 1), (1, 1)].map
    fun d => (i + d.1) % N + N * ((j + d.2) % N)

/-- The step of the cell at `c` does not reach the loop that looks for a free spot or
the loop that looks for an opponent: the cell has no age left, or it starves, or both
its test against `horny` and its test against `aggro` fail. -/
def Cell.quiet (RAND_MAX : Nat) (G : CellGrid) (c : Nat) (r : Draws) : Prop :=
  (G.cell c).d_age ≤ 0 ∨ Cell.starving G c = true ∨
    (¬ roll RAND_MAX r.horny (G.cell c).horny = true ∧
     ¬ roll RAND_MAX r.aggro (G.cell c).aggro = true)

/-- The cell at `c` requests its own death by the lifespan check or the starvation
check. -/
def Cell.dies (G : CellGrid) (c : Nat) : Bool :=
  decide ((G.cell c).d_age ≤ 0) || Cell.starving G c

/-- The cell at `c` after a step that ends at the lifespan check, at the starvation
check, or without a request. -/
def Cell.afterQuiet (G : CellGrid) (c : Nat) (r : Draws) : Cell :=
  if (G.cell c).d_age ≤ 0 then
    { G.cell c with d_neighbours := random_shuffle r.shuffle (G.cell c).d_neighbours }
  else
    { G.cell c with
      d_neighbours := random_shuffle r.shuffle (G.cell c).d_neighbours
      d_age := (G.cell c).d_age - 1 }

/-- The state `S` reached from `G` after quiet steps of the cells in `done`. -/
def QuietRun (draws : Nat → Draws) (G S : CellGrid) (done : List Nat) : Prop :=
  S.d_cells.length = G.d_cells.length ∧
  (∀ j, S.cell j = if j ∈ done then Cell.afterQuiet G j (draws j) else G.cell j) ∧
  S.d_revive_queue = G.d_revive_queue ∧
  (∀ X, (∃ d ∈ S.d_death_queue, d.target = X) ↔
    ((∃ d ∈ G.d_death_queue, d.target = X) ∨ (X ∈ done ∧ Cell.dies G X = true)))

/-! ## Example states -/

/-- A cell at `(x, y)` whose members were set by `revive(g)`, with the neighbour
list `ns`. -/
def mkCell (x y : Int) (g : Nat) (ns : List Nat) : Cell :=
  { (Cell.ctor default x y).revive g with d_neighbours := ns }

/-- A grid of one cell that is the target of a revival request and of a death
request. -/
def exBoth : CellGrid :=
  { d_N := 1
    d_cells := [(mkCell 0 0 0 [0, 0, 0, 0, 0, 0, 0, 0]).die]
    d_populus := []
    d_revive_queue := [⟨0, 33, 0⟩]
    d_death_queue := [⟨0, 0⟩] }

/-- The grid `G` after `revive(g)` was called on each cell, with the genomes `gs`
in the order of `d_cells`. -/
def reviveAll (gs : List Nat) (G : CellGrid) : CellGrid :=
  { G with d_cells := (G.d_cells.zip gs).map fun p => p.1.revive p.2 }

/-- The grid `G` after `die()` was called on the cells at `ks`. -/
def killAll (ks : List Nat) (G : CellGrid) : CellGrid :=
  ks.foldl (fun G k => G.setCell k (G.cell k).die) G

/-- The genome `0x10fe1`: age 8, hunger 9, horny 15/32, aggro 0, mutate 1/32. -/
def gA : Nat := 69601

/-- The 32-bit complement of `gA`. -/
def gNotA : Nat := 4294897694

/-- The grid `CellGrid(3)` in which the cell at 0 is alive with genome `gA`, the cell
at 1 is dead with the complement of `gA`, and the other cells are dead with genome 0
and age 0.  The neighbour lists of the cells at 0 and 1 hold cells of the grid only;
the other cells end their step at the lifespan check, before they read theirs. -/
def exMate : CellGrid :=
  killAll [1, 2, 3, 4, 5, 6, 7, 8]
    (reviveAll [gA, gNotA, 0, 0, 0, 0, 0, 0, 0] (CellGrid.ctor (fun _ _ => default) 3))

/-- Draws for `RAND_MAX = 32767`: identity shuffle, the test against `horny` passes
for every positive `horny`, the test against `mutate` fails. -/
def drawsBreed : Draws :=
  { shuffle := [], horny := 0, aggro := 0, mutate := 32767, bits := 0 }

/-- Draws for `RAND_MAX = 32767`: identity shuffle, every test fails. -/
def drawsIdle : Draws :=
  { shuffle := [], horny := 32767, aggro := 32767, mutate := 32767, bits := 0 }

/-- Draws for `RAND_MAX = 32767`: identity shuffle, the test against `horny` fails
and the test against `aggro` passes for every positive `aggro`. -/
def drawsFight : Draws :=
  { shuffle := [], horny := 32767, aggro := 0, mutate := 32767, bits := 0 }

/-- The genome `0xf0e2`: age 16, hunger 9, horny 0, aggro 15/32, mutate 0. -/
def gFighter : Nat := 61666

/-- The grid `CellGrid(3)` in which the cells at 0 and 1 are alive with genome
`gFighter` and the other cells are dead with genome 0 and age 0. -/
def exDuel : CellGrid :=
  killAll [2, 3, 4, 5, 6, 7, 8]
    (reviveAll [gFighter, gFighter, 0, 0, 0, 0, 0, 0, 0]
      (CellGrid.ctor (fun _ _ => default) 3))

/-- Draws for `exDuel`: the test against `aggro` passes for the cell at 0 and fails
for every other cell. -/
def drawsDuel (c : Nat) : Draws :=
  if c = 0 then drawsFight else drawsIdle

/-- The grid `CellGrid(3)` in which the cells at 0 and 1 are alive with the genomes
`0xfe2` and `0xfe3` (hunger 9, horny 15/32, aggro 0, mutate 0; age 16 and 24) and the
other cells are dead with genome 0 and age 0. -/
def exTwins : CellGrid :=
  killAll [2, 3, 4, 5, 6, 7, 8]
    (reviveAll [4066, 4067, 0, 0, 0, 0, 0, 0, 0] (CellGrid.ctor (fun _ _ => default) 3))

/-- The grid `CellGrid(3)` in which every cell is alive with genome 0, so with age 0,
hunger 2 and horny, aggro and mutate 0. -/
def exZero : CellGrid :=
  reviveAll [0, 0, 0, 0, 0, 0, 0, 0, 0] (CellGrid.ctor (fun _ _ => default) 3)

/-- The grid `CellGrid(3)` in which the cell at 0 is alive with genome `gA`, the cell
at 1 is alive with the complement of `gA`, and the other cells are dead with genome 0
and age 0. -/
def exPair : CellGrid :=
  killAll [2, 3, 4, 5, 6, 7, 8]
    (reviveAll [gA, gNotA, 0, 0, 0, 0, 0, 0, 0] (CellGrid.ctor (fun _ _ => default) 3))

/-- The number of entries of `ns` that denote an alive cell. -/
def aliveCount (G : CellGrid) (ns : List Nat) : Nat :=
  ns.countP (fun n => (G.cell n).d_alive)

/-- The sum of the hunger of the entries of `ns` that denote an alive cell. -/
def hungerSum (G : CellGrid) (ns : List Nat) : Int :=
  ((ns.filter (fun n => (G.cell n).d_alive)).map (fun n => (G.cell n).hunger)).sum

/-- The count stored for the genome `g` in the map `m`, zero when `g` is absent. -/
def populusGet (m : List (Nat × Nat)) (g : Nat) : Nat :=
  match m.find? (fun p => p.1 == g) with
  | some p => p.2
  | none => 0

/-- The cells `v` and `w` differ at most in the alive flag. -/
def Cell.TwinOf (v w : Cell) : Prop :=
  { w with d_alive := v.d_alive } = v

/-- The grids `A` and `B` differ at most in the alive flag of the cell at `C`. -/
def CellGrid.Twin (C : Nat) (A B : CellGrid) : Prop :=
  B.d_cells.length = A.d_cells.length ∧ B.d_N = A.d_N ∧ B.d_populus = A.d_populus ∧
  B.d_revive_queue = A.d_revive_queue ∧ B.d_death_queue = A.d_death_queue ∧
  (∀ j, j ≠ C → B.cell j = A.cell j) ∧ Cell.TwinOf (A.cell C) (B.cell C)

/-- The grid `G` with the alive flag of the cell at `C` set to `b`. -/
def CellGrid.setAlive (G : CellGrid) (C : Nat) (b : Bool) : CellGrid :=
  G.setCell C { G.cell C with d_alive := b }

/-- A torus of one cell, which is its own neighbour eight times; the cell is alive with
genome `0xfe2` (age 16, hunger 9, horny 15/32, aggro 0, mutate 0). -/
def exSelf : CellGrid :=
  { d_N := 1
    d_cells := [mkCell 0 0 4066 [0, 0, 0, 0, 0, 0, 0, 0]]
    d_populus := []
    d_revive_queue := []
    d_death_queue := [] }

/-- The grid `CellGrid(3)` in which every cell is dead; the cell at 0 has genome `0xfe2`
(age 16, horny 15/32), the others genome 0. -/
def exGhostBreeder : CellGrid :=
  killAll [0, 1, 2, 3, 4, 5, 6, 7, 8]
    (reviveAll [4066, 0, 0, 0, 0, 0, 0, 0, 0] (CellGrid.ctor (fun _ _ => default) 3))

/-- The grid `CellGrid(3)` in which the cell at 0 is dead with genome `gFighter` (age
16, aggro 15/32), the cell at 1 is alive with genome `0xf0e1` (age 8, aggro 15/32) and
the other cells are dead with genome 0. -/
def exGhostFighter : CellGrid :=
  killAll [0, 2, 3, 4, 5, 6, 7, 8]
    (reviveAll [gFighter, 61665, 0, 0, 0, 0, 0, 0, 0] (CellGrid.ctor (fun _ _ => default) 3))

/-- The grid `CellGrid(3)` in which the cell at 4, the centre, is alive with genome
`0xfe2` (age 16, hunger 9, horny 15/32, aggro 0, mutate 0) and the other cells are dead
with genome 0 and age 0. -/
def exLone : CellGrid :=
  killAll [0, 1, 2, 3, 5, 6, 7, 8]
    (reviveAll [0, 0, 0, 0, 4066, 0, 0, 0, 0] (CellGrid.ctor (fun _ _ => default) 3))

/-- The grid `exLone` in which the dead cell at 3 has genome `0xe2` (age 16, hunger 9,
horny 0, aggro 0, mutate 0), so that it does not request its own death.  The neighbour
lists of the cells at 3 and 4 hold cells of the grid only. -/
def exHeir : CellGrid :=
  killAll [0, 1, 2, 3, 5, 6, 7, 8]
    (reviveAll [0, 0, 0, 226, 4066, 0, 0, 0, 0] (CellGrid.ctor (fun _ _ => default) 3))

/-- The revival request that the step of the cell at `c` enqueues when no neighbour
passes its kinship test, read off the state before the generation: none when the cell
requests its own death or its test against `horny` fails, else the first neighbour in
scan order that is not alive, with the genome of the cell, mutated when the test against
`mutate` passes. -/
def Cell.birth (RAND_MAX : Nat) (G : CellGrid) (c : Nat) (r : Draws) : Option ReviveRequest :=
  if Cell.dies G c = true then none
  else if roll RAND_MAX r.horny (G.cell c).horny = true then
    match (random_shuffle r.shuffle (G.cell c).d_neighbours).find?
        (fun n => !(G.cell n).d_alive) with
    | none => none
    | some n =>
      some ⟨n,
        if roll RAND_MAX r.mutate (G.cell c).mutate = true then
          (G.cell c).d_genome ^^^ (r.bits &&& 0xffffffff)
        else (G.cell c).d_genome, c⟩
  else none

/-- The step of the cell at `c` neither overwrites the cell with a neighbour nor finds
an opponent: the cell has no age left, or it starves, or its test against `horny` passes
and it has no free spot or no neighbour that passes its kinship test, or its test
against `horny` fails and either its test against `aggro` fails or every neighbour is
dead or passes its kinship test. -/
def Cell.calm (RAND_MAX : Nat) (G : CellGrid) (c : Nat) (r : Draws) : Prop :=
  (G.cell c).d_age ≤ 0 ∨ Cell.starving G c = true ∨
    (roll RAND_MAX r.horny (G.cell c).horny = true ∧
      ((∀ n ∈ (G.cell c).d_neighbours, (G.cell n).d_alive = true) ∨
       (∀ n ∈ (G.cell c).d_neighbours, (G.cell c).like (G.cell n) = false))) ∨
    (¬ roll RAND_MAX r.horny (G.cell c).horny = true ∧
      (¬ roll RAND_MAX r.aggro (G.cell c).aggro = true ∨
       (∀ n ∈ (G.cell c).d_neighbours,
         (G.cell n).d_alive = false ∨ (G.cell c).like (G.cell n) = true)))

/-- The revival requests of the cells in `l`, in the order of `l`. -/
def births (RAND_MAX : Nat) (draws : Nat → Draws) (G : CellGrid) (l : List Nat) :
    List ReviveRequest :=
  l.filterMap (fun c => Cell.birth RAND_MAX G c (draws c))

/-- The state `S` reached from `G` after calm steps of the cells in `done`, visited in
the order of `done`. -/
def CalmRun (RAND_MAX : Nat) (draws : Nat → Draws) (G S : CellGrid) (done : List Nat) :
    Prop :=
  S.d_cells.length = G.d_cells.length ∧
  (∀ j, S.cell j = if j ∈ done then Cell.afterQuiet G j (draws j) else G.cell j) ∧
  S.d_revive_queue = G.d_revive_queue ++ births RAND_MAX draws G done ∧
  (∀ X, (∃ d ∈ S.d_death_queue, d.target = X) ↔
    ((∃ d ∈ G.d_death_queue, d.target = X) ∨ (X ∈ done ∧ Cell.dies G X = true)))

/-- Draws for `RAND_MAX = 2147483647`: identity shuffle; the draw for the test against
`horny` is `15 * 2 ^ 26 - 1`, one below the product `15 / 32 * 2 ^ 31` that the `float`
test compares with; the other tests fail. -/
def drawsEdge : Draws :=
  { shuffle := [], horny := 1006632959, aggro := 2147483647, mutate := 2147483647, bits := 0 }

/-- Draws for `RAND_MAX = 2147483647`: identity shuffle; the test against `horny` fails
and the draw for the test against `aggro` is `15 * 2 ^ 26 - 1`. -/
def drawsEdgeAggro : Draws :=
  { shuffle := [], horny := 2147483647, aggro := 1006632959, mutate := 2147483647, bits := 0 }

/-- Draws for `RAND_MAX = 2147483647`: identity shuffle; the draw for the test against
`horny` is `15 * 2 ^ 26 - 1` and the test against `aggro` passes for every positive
`aggro`. -/
def drawsEdgeBoth : Draws :=
  { shuffle := [], horny := 1006632959, aggro := 0, mutate := 2147483647, bits := 0 }

/-- The grid `CellGrid(3)` in which every cell is alive; the cell at 4 has genome
`0xffe2` (age 16, hunger 9, horny 15/32, aggro 15/32, mutate 0), the others `0xf0e1`
(age 8, hunger 9, horny 0, aggro 15/32, mutate 0). -/
def exCrowd : CellGrid :=
  reviveAll [61665, 61665, 61665, 61665, 65506, 61665, 61665, 61665, 61665]
    (CellGrid.ctor (fun _ _ => default) 3)

/-! ## Reading and writing cells -/

theorem length_setCell (G : CellGrid) (c : Nat) (v : Cell) :
    (G.setCell c v).d_cells.length = G.d_cells.length := by
  simp [CellGrid.setCell]

theorem cell_eq_getElem (G : CellGrid) (j : Nat) (h : j < G.d_cells.length) :
    G.cell j = G.d_cells[j] := by
  unfold CellGrid.cell
  simp [List.getD_eq_getElem?_getD, List.getElem?_eq_getElem h]

theorem cell_setCell (G : CellGrid) (c k : Nat) (v : Cell) :
    (G.setCell c v).cell k = if c = k ∧ c < G.d_cells.length then v else G.cell k := by
  unfold CellGrid.cell CellGrid.setCell
  simp only [List.getD_eq_getElem?_getD, List.getElem?_set]
  by_cases h : c = k
  · subst h
    by_cases hc : c < G.d_cells.length
    · simp [hc]
    · simp [hc, List.getElem?_eq_none (Nat.le_of_not_lt hc)]
  · simp [h]

theorem cell_setCell_self (G : CellGrid) (c : Nat) (v : Cell) (h : c < G.d_cells.length) :
    (G.setCell c v).cell c = v := by
  simp [cell_setCell, h]

theorem cell_setCell_ne (G : CellGrid) (c k : Nat) (v : Cell) (h : c ≠ k) :
    (G.setCell c v).cell k = G.cell k := by
  simp [cell_setCell, h]

/-! ## process_requests -/

theorem reviveLoop_cons (r : ReviveRequest) (q : List ReviveRequest) (G : CellGrid) :
    G.reviveLoop (r :: q)
      = (G.setCell r.target ((G.cell r.target).revive r.genome)).reviveLoop q := rfl

theorem deathLoop_cons (r : DeathRequest) (q : List DeathRequest) (G : CellGrid) :
    G.deathLoop (r :: q) = (G.setCell r.target (G.cell r.target).die).deathLoop q := rfl

/-- The loop over `d_revive_queue` writes cells only. -/
theorem reviveLoop_frame (q : List ReviveRequest) (G : CellGrid) :
    (G.reviveLoop q).d_cells.length = G.d_cells.length ∧
    (G.reviveLoop q).d_N = G.d_N ∧
    (G.reviveLoop q).d_populus = G.d_populus ∧
    (G.reviveLoop q).d_revive_queue = G.d_revive_queue ∧
    (G.reviveLoop q).d_death_queue = G.d_death_queue := by
  induction q generalizing G with
  | nil => exact ⟨rfl, rfl, rfl, rfl, rfl⟩
  | cons r q ih =>
    rw [reviveLoop_cons]
    obtain ⟨h1, h2, h3, h4, h5⟩ := ih (G.setCell r.target ((G.cell r.target).revive r.genome))
    exact ⟨by rw [h1, length_setCell], h2, h3, h4, h5⟩

/-- The loop over `d_death_queue` writes cells only. -/
theorem deathLoop_frame (q : List DeathRequest) (G : CellGrid) :
    (G.deathLoop q).d_cells.length = G.d_cells.length ∧
    (G.deathLoop q).d_N = G.d_N ∧
    (G.deathLoop q).d_populus = G.d_populus ∧
    (G.deathLoop q).d_revive_queue = G.d_revive_queue ∧
    (G.deathLoop q).d_death_queue = G.d_death_queue := by
  induction q generalizing G with
  | nil => exact ⟨rfl, rfl, rfl, rfl, rfl⟩
  | cons r q ih =>
    rw [deathLoop_cons]
    obtain ⟨h1, h2, h3, h4, h5⟩ := ih (G.setCell r.target (G.cell r.target).die)
    exact ⟨by rw [h1, length_setCell], h2, h3, h4, h5⟩

/-- A dead cell stays dead through the loop over `d_death_queue`. -/
theorem deathLoop_dead (q : List DeathRequest) (G : CellGrid) (X : Nat)
    (h : (G.cell X).d_alive = false) :
    ((G.deathLoop q).cell X).d_alive = false := by
  induction q generalizing G with
  | nil => exact h
  | cons r q ih =>
    rw [deathLoop_cons]
    apply ih
    rw [cell_setCell]
    split
    · rfl
    · exact h

/-- A target of the loop over `d_death_queue` is dead after it. -/
theorem deathLoop_target (q : List DeathRequest) (G : CellGrid) (X : Nat)
    (hX : X < G.d_cells.length) (h : ∃ d ∈ q, d.target = X) :
    ((G.deathLoop q).cell X).d_alive = false := by
  induction q generalizing G with
  | nil => simp at h
  | cons r q ih =>
    rw [deathLoop_cons]
    by_cases hr : r.target = X
    · apply deathLoop_dead
      rw [hr, cell_setCell_self _ _ _ hX]
      rfl
    · apply ih
      · rw [length_setCell]; exact hX
      · obtain ⟨d, hd, hdX⟩ := h
        rcases List.mem_cons.mp hd with rfl | hd
        · exact absurd hdX hr
        · exact ⟨d, hd, hdX⟩

/-- The state `process_requests` returns, member by member. -/
theorem process_requests_eq (G : CellGrid) :
    G.process_requests =
      { d_N := G.d_N
        d_cells := ((G.reviveLoop G.d_revive_queue).deathLoop G.d_death_queue).d_cells
        d_populus := G.d_populus
        d_revive_queue := []
        d_death_queue := [] } := by
  have hr := reviveLoop_frame G.d_revive_queue G
  have hcells : ∀ (A B : CellGrid) (q : List DeathRequest), A.d_cells = B.d_cells →
      (A.deathLoop q).d_cells = (B.deathLoop q).d_cells := by
    intro A B q
    induction q generalizing A B with
    | nil => exact id
    | cons r q ih =>
      intro h
      rw [deathLoop_cons, deathLoop_cons]
      apply ih
      simp [CellGrid.setCell, CellGrid.cell, h]
  unfold CellGrid.process_requests
  simp only []
  have hd := deathLoop_frame (G.reviveLoop G.d_revive_queue).d_death_queue
    { G.reviveLoop G.d_revive_queue with d_revive_queue := [] }
  rw [CellGrid.mk.injEq]
  refine ⟨?_, ?_, ?_, hd.2.2.2.1, rfl⟩
  · rw [hd.2.1]; exact hr.2.1
  · rw [hr.2.2.2.2]
    exact hcells _ _ _ rfl
  · rw [hd.2.2.1]; exact hr.2.2.1

theorem process_requests_length (G : CellGrid) :
    G.process_requests.d_cells.length = G.d_cells.length := by
  rw [process_requests_eq]
  simp only []
  rw [(deathLoop_frame _ _).1, (reviveLoop_frame _ _).1]

/-- Every target of a death request is dead after `process_requests`, whatever the
revival queue holds. -/
theorem process_requests_dead (G : CellGrid) (X : Nat) (hX : X < G.d_cells.length)
    (h : ∃ d ∈ G.d_death_queue, d.target = X) :
    (G.process_requests.cell X).d_alive = false := by
  have := deathLoop_target G.d_death_queue (G.reviveLoop G.d_revive_queue) X
    (by rw [(reviveLoop_frame _ _).1]; exact hX) h
  rw [process_requests_eq]
  exact this

/-! ## C1: commit ordering -/

/-- C1, as stated, fails: in `exBoth` the only cell is the target of a revival
request and of a death request, and it is dead after `process_requests`. -/
theorem C1_counterexample :
    (∃ d ∈ exBoth.d_death_queue, d.target = 0) ∧
    (∃ r ∈ exBoth.d_revive_queue, r.target = 0) ∧
    0 < exBoth.d_cells.length ∧
    (exBoth.process_requests.cell 0).d_alive = false := by
  refine ⟨⟨⟨0, 0⟩, by simp [exBoth], rfl⟩, ⟨⟨0, 33, 0⟩, by simp [exBoth], rfl⟩, by decide, rfl⟩

/-- C1, amended: `process_requests` applies the revival queue first and the death
queue second, so a cell X that is the target of both a death request and a revival
request is dead after `process_requests` returns, and both queues are empty. -/
theorem C1_process_requests_revive_then_death (G : CellGrid) (X : Nat)
    (hX : X < G.d_cells.length)
    (hd : ∃ d ∈ G.d_death_queue, d.target = X)
    (_hr : ∃ r ∈ G.d_revive_queue, r.target = X) :
    X < G.process_requests.d_cells.length ∧
    (G.process_requests.cell X).d_alive = false ∧
    G.process_requests.d_revive_queue = [] ∧
    G.process_requests.d_death_queue = [] := by
  refine ⟨by rw [process_requests_length]; exact hX, process_requests_dead G X hX hd, ?_, ?_⟩
  · rw [process_requests_eq]
  · rw [process_requests_eq]

/-- C1, amended, at `exBoth`. -/
theorem C1_witness :
    (exBoth.process_requests.cell 0).d_alive = false :=
  (C1_process_requests_revive_then_death exBoth 0 (by decide)
    ⟨⟨0, 0⟩, by simp [exBoth], rfl⟩ ⟨⟨0, 33, 0⟩, by simp [exBoth], rfl⟩).2.1

/-! ## Genome decoding -/

theorem and_mask_shiftRight (g k n : Nat) :
    (g &&& ((2 ^ n - 1) <<< k)) >>> k = (g >>> k) % 2 ^ n := by
  apply Nat.eq_of_testBit_eq
  intro i
  simp only [Nat.testBit_shiftRight, Nat.testBit_and, Nat.testBit_shiftLeft,
    Nat.testBit_two_pow_sub_one, Nat.testBit_mod_two_pow]
  have : k + i - k = i := by omega
  have h2 : k + i ≥ k := by omega
  simp [this, h2, Bool.and_comm]

theorem revive_fields (c : Cell) (g : Nat) :
    (c.revive g).d_age = ((8 * (g % 32) : Nat) : Int) ∧
    (c.revive g).hunger = (((g >>> 5) % 8 + 2 : Nat) : Int) ∧
    (c.revive g).horny = (((g >>> 8) % 16 : Nat) : ℚ) / 32 ∧
    (c.revive g).aggro = (((g >>> 12) % 16 : Nat) : ℚ) / 32 ∧
    (c.revive g).mutate = (((g >>> 16) % 32 : Nat) : ℚ) / 32 := by
  have h0 : g &&& 0x00001f = g % 32 := Nat.and_pow_two_sub_one_eq_mod g 5
  have h1 : (g &&& 0x0000e0) >>> 5 = (g >>> 5) % 8 := and_mask_shiftRight g 5 3
  have h2 : (g &&& 0x000f00) >>> 8 = (g >>> 8) % 16 := and_mask_shiftRight g 8 4
  have h3 : (g &&& 0x00f000) >>> 12 = (g >>> 12) % 16 := and_mask_shiftRight g 12 4
  have h4 : (g &&& 0x1f0000) >>> 16 = (g >>> 16) % 32 := and_mask_shiftRight g 16 5
  refine ⟨?_, ?_, ?_, ?_, ?_⟩
  · show (((g &&& 0x00001f) <<< 3 : Nat) : Int) = _
    rw [h0, Nat.shiftLeft_eq]
    congr 1
    omega
  · show ((((g &&& 0x0000e0) >>> 5) + 2 : Nat) : Int) = _
    rw [h1]
  · show (((g &&& 0x000f00) >>> 8 : Nat) : ℚ) / 32 = _
    rw [h2]
  · show (((g &&& 0x00f000) >>> 12 : Nat) : ℚ) / 32 = _
    rw [h3]
  · show (((g &&& 0x1f0000) >>> 16 : Nat) : ℚ) / 32 = _
    rw [h4]

/-- C5: after `revive(g)` the cell is alive with genome `g`, remaining age
`8 * (g mod 32)`, hunger `((g >> 5) mod 8) + 2`, horny `((g >> 8) mod 16) / 32`, aggro
`((g >> 12) mod 16) / 32` and mutate `((g >> 16) mod 32) / 32` as exact rationals,
each in its range; genomes that agree on their low 21 bits decode to the same
traits. -/
theorem C5_revive_decode (c : Cell) (g : Nat) :
    (c.revive g).d_alive = true ∧ (c.revive g).d_genome = g ∧
    (c.revive g).d_age = 8 * ((g % 32 : Nat) : Int) ∧
    (0 ≤ (c.revive g).d_age ∧ (c.revive g).d_age ≤ 248 ∧ (c.revive g).d_age % 8 = 0) ∧
    (c.revive g).hunger = (((g >>> 5) % 8 : Nat) : Int) + 2 ∧
    (2 ≤ (c.revive g).hunger ∧ (c.revive g).hunger ≤ 9) ∧
    (c.revive g).horny = (((g >>> 8) % 16 : Nat) : ℚ) / 32 ∧
    (0 ≤ (c.revive g).horny ∧ (c.revive g).horny ≤ 15 / 32) ∧
    (c.revive g).aggro = (((g >>> 12) % 16 : Nat) : ℚ) / 32 ∧
    (0 ≤ (c.revive g).aggro ∧ (c.revive g).aggro ≤ 15 / 32) ∧
    (c.revive g).mutate = (((g >>> 16) % 32 : Nat) : ℚ) / 32 ∧
    (0 ≤ (c.revive g).mutate ∧ (c.revive g).mutate ≤ 31 / 32) ∧
    (∀ g2 : Nat, g % 2 ^ 21 = g2 % 2 ^ 21 →
      (c.revive g2).d_age = (c.revive g).d_age ∧
      (c.revive g2).hunger = (c.revive g).hunger ∧
      (c.revive g2).horny = (c.revive g).horny ∧
      (c.revive g2).aggro = (c.revive g).aggro ∧
      (c.revive g2).mutate = (c.revive g).mutate) := by
  obtain ⟨ha, hh, ho, hg, hm⟩ := revive_fields c g
  have b1 : (g >>> 5) % 8 < 8 := Nat.mod_lt _ (by norm_num)
  have b2 : (g >>> 8) % 16 < 16 := Nat.mod_lt _ (by norm_num)
  have b3 : (g >>> 12) % 16 < 16 := Nat.mod_lt _ (by norm_num)
  have b4 : (g >>> 16) % 32 < 32 := Nat.mod_lt _ (by norm_num)
  have q2 : (((g >>> 8) % 16 : Nat) : ℚ) ≤ 15 := by exact_mod_cast Nat.le_of_lt_succ b2
  have q3 : (((g >>> 12) % 16 : Nat) : ℚ) ≤ 15 := by exact_mod_cast Nat.le_of_lt_succ b3
  have q4 : (((g >>> 16) % 32 : Nat) : ℚ) ≤ 31 := by exact_mod_cast Nat.le_of_lt_succ b4
  have p2 : (0 : ℚ) ≤ (((g >>> 8) % 16 : Nat) : ℚ) := Nat.cast_nonneg _
  have p3 : (0 : ℚ) ≤ (((g >>> 12) % 16 : Nat) : ℚ) := Nat.cast_nonneg _
  have p4 : (0 : ℚ) ≤ (((g >>> 16) % 32 : Nat) : ℚ) := Nat.cast_nonneg _
  refine ⟨rfl, rfl, ?_, ?_, ?_, ?_, ho, ?_, hg, ?_, hm, ?_, ?_⟩
  · rw [ha]; push_cast; ring
  · rw [ha]; omega
  · rw [hh]; push_cast; ring
  · rw [hh]; omega
  · rw [ho]; constructor <;> linarith
  · rw [hg]; constructor <;> linarith
  · rw [hm]; constructor <;> linarith
  · intro g2 h
    obtain ⟨ha2, hh2, ho2, hg2, hm2⟩ := revive_fields c g2
    rw [ha, hh, ho, hg, hm, ha2, hh2, ho2, hg2, hm2]
    simp only [Nat.shiftRight_eq_div_pow]
    have e0 : g2 % 32 = g % 32 := by omega
    have e1 : g2 / 2 ^ 5 % 8 = g / 2 ^ 5 % 8 := by omega
    have e2 : g2 / 2 ^ 8 % 16 = g / 2 ^ 8 % 16 := by omega
    have e3 : g2 / 2 ^ 12 % 16 = g / 2 ^ 12 % 16 := by omega
    have e4 : g2 / 2 ^ 16 % 32 = g / 2 ^ 16 % 32 := by omega
    rw [e0, e1, e2, e3, e4]
    exact ⟨rfl, rfl, rfl, rfl, rfl⟩

/-- C5 at the genomes `0x1fffff` and `0xffffffff`, which agree on their low 21 bits. -/
theorem C5_witness :
    ((default : Cell).revive 4294967295).d_age = ((default : Cell).revive 2097151).d_age :=
  ((C5_revive_decode default 2097151).2.2.2.2.2.2.2.2.2.2.2.2 4294967295 (by norm_num)).1

/-! ## bitcount and the similarity score -/

theorem bitsBelow_succ (n g : Nat) :
    bitsBelow (n + 1) g = bitsBelow n (g / 2) + g % 2 := by
  unfold bitsBelow
  rw [List.range_succ_eq_map, List.countP_cons, List.countP_map]
  have : ((fun i => g.testBit i) ∘ Nat.succ) = fun i => (g / 2).testBit i := by
    funext i
    simp [Nat.testBit_succ]
  rw [this]
  congr 1
  rcases Nat.mod_two_eq_zero_or_one g with h | h <;> simp [h]

theorem bitsBelow_clear_lowest (n : Nat) : ∀ g : Nat, 0 < g → g < 2 ^ n →
    bitsBelow n (g &&& (g - 1)) + 1 = bitsBelow n g := by
  induction n with
  | zero => intro g h0 h1; simp at h1; omega
  | succ n ih =>
    intro g h0 h1
    rw [bitsBelow_succ, bitsBelow_succ, Nat.and_div_two]
    rcases Nat.mod_two_eq_zero_or_one g with h | h
    · -- even: g = 2k, k > 0
      have hk : 0 < g / 2 := by omega
      have hk2 : g / 2 < 2 ^ n := by
        rw [Nat.pow_succ] at h1; omega
      have e1 : (g - 1) / 2 = g / 2 - 1 := by omega
      have e2 : (g &&& (g - 1)) % 2 = 0 := by
        rcases Nat.mod_two_eq_zero_or_one (g &&& (g - 1)) with h' | h'
        · exact h'
        · rw [Nat.and_mod_two_eq_one] at h'; omega
      rw [e1, e2, h]
      exact ih (g / 2) hk hk2
    · -- odd
      have e1 : (g - 1) / 2 = g / 2 := by omega
      have e2 : (g &&& (g - 1)) % 2 = 0 := by
        rcases Nat.mod_two_eq_zero_or_one (g &&& (g - 1)) with h' | h'
        · exact h'
        · rw [Nat.and_mod_two_eq_one] at h'; omega
      rw [e1, e2, h, Nat.and_self]

theorem bitcountLoop_eq (fuel : Nat) : ∀ g c : Nat, g < 2 ^ 32 → bitsBelow 32 g ≤ fuel →
    bitcountLoop fuel g c = some (c + bitsBelow 32 g) := by
  induction fuel with
  | zero =>
    intro g c hg hf
    by_cases h0 : g = 0
    · subst h0; simp [bitcountLoop, bitsBelow]
    · have := bitsBelow_clear_lowest 32 g (Nat.pos_of_ne_zero h0) hg
      omega
  | succ fuel ih =>
    intro g c hg hf
    by_cases h0 : g = 0
    · subst h0; simp [bitcountLoop, bitsBelow]
    · have hstep := bitsBelow_clear_lowest 32 g (Nat.pos_of_ne_zero h0) hg
      rw [bitcountLoop]
      simp only [h0, if_false]
      rw [ih (g &&& (g - 1)) (c + 1) (Nat.lt_of_le_of_lt Nat.and_le_left hg) (by omega)]
      congr 1
      omega

theorem bitcountLoop_terminates (g : Nat) (hg : g < 2 ^ 32) :
    bitcountLoop 32 g 0 = some (bitsBelow 32 g) := by
  have := bitcountLoop_eq 32 g 0 hg (by
    unfold bitsBelow
    exact (List.countP_le_length _).trans (by simp))
  simpa using this

theorem not32_lt (x : Nat) : not32 x < 2 ^ 32 := by
  unfold not32; omega

theorem testBit_not32 (x i : Nat) (hx : x < 2 ^ 32) :
    (not32 x).testBit i = (decide (i < 32) && !x.testBit i) := by
  unfold not32
  have h1 : x % 4294967296 = x := Nat.mod_eq_of_lt hx
  have h2 : 4294967295 - x = 2 ^ 32 - (x + 1) := by omega
  rw [h1, h2]
  exact Nat.testBit_two_pow_sub_succ hx i

theorem bitsBelow_not32_xor (a b : Nat) (ha : a < 2 ^ 32) (hb : b < 2 ^ 32) :
    bitsBelow 32 (not32 (a ^^^ b)) = agreeCount a b := by
  unfold bitsBelow agreeCount
  apply List.countP_congr
  intro i hi
  have hi' : i < 32 := List.mem_range.mp hi
  rw [testBit_not32 _ _ (Nat.xor_lt_two_pow ha hb), Nat.testBit_xor]
  simp only [hi', decide_True, Bool.true_and]
  cases a.testBit i <;> cases b.testBit i <;> simp

theorem agreeCount_comm (a b : Nat) : agreeCount a b = agreeCount b a := by
  unfold agreeCount
  apply List.countP_congr
  intro i _
  cases a.testBit i <;> cases b.testBit i <;> simp

theorem agreeCount_le (a b : Nat) : agreeCount a b ≤ 32 := by
  unfold agreeCount
  exact (List.countP_le_length _).trans (by simp)

theorem agreeCount_eq_32 (a b : Nat) (ha : a < 2 ^ 32) (hb : b < 2 ^ 32) :
    agreeCount a b = 32 ↔ a = b := by
  unfold agreeCount
  have hlen : (List.range 32).length = 32 := List.length_range 32
  constructor
  · intro h
    have h := (List.countP_eq_length).mp (h.trans hlen.symm)
    apply Nat.eq_of_testBit_eq
    intro i
    by_cases hi : i < 32
    · have := h i (List.mem_range.mpr hi)
      simpa using this
    · have hi' : 32 ≤ i := Nat.le_of_not_lt hi
      rw [Nat.testBit_lt_two_pow (Nat.lt_of_lt_of_le ha (Nat.pow_le_pow_right (by norm_num) hi')),
        Nat.testBit_lt_two_pow (Nat.lt_of_lt_of_le hb (Nat.pow_le_pow_right (by norm_num) hi'))]
  · intro h
    subst h
    refine ((List.countP_eq_length).mpr ?_).trans hlen
    intro i _
    simp

theorem bitcount_eq (a b : Nat) (ha : a < 2 ^ 32) (hb : b < 2 ^ 32) :
    bitcount (not32 (a ^^^ b)) = agreeCount a b := by
  unfold bitcount
  rw [bitcountLoop_terminates _ (not32_lt _), bitsBelow_not32_xor a b ha hb]
  rfl

/-- C6: for 32-bit `a` and `b` the loop of `bitcount` on `~(a ^ b)` ends within 32
iterations and returns the number of bit positions `0 .. 31` at which `a` and `b`
agree; the score is at most 32, symmetric, and 32 exactly when `a = b`.  The loop ends
within 32 iterations for every 32-bit argument. -/
theorem C6_similarity_score (a b : Nat) (ha : a < 2 ^ 32) (hb : b < 2 ^ 32) :
    bitcountLoop 32 (not32 (a ^^^ b)) 0 = some (agreeCount a b) ∧
    bitcount (not32 (a ^^^ b)) = agreeCount a b ∧
    bitcount (not32 (a ^^^ b)) ≤ 32 ∧
    bitcount (not32 (a ^^^ b)) = bitcount (not32 (b ^^^ a)) ∧
    (bitcount (not32 (a ^^^ b)) = 32 ↔ a = b) ∧
    (∀ g : Nat, g < 2 ^ 32 → bitcountLoop 32 g 0 = some (bitsBelow 32 g)) := by
  have h := bitcount_eq a b ha hb
  refine ⟨?_, h, ?_, ?_, ?_, bitcountLoop_terminates⟩
  · rw [bitcountLoop_terminates _ (not32_lt _), bitsBelow_not32_xor a b ha hb]
  · rw [h]; exact agreeCount_le a b
  · rw [h, bitcount_eq b a hb ha]; exact agreeCount_comm a b
  · rw [h]; exact agreeCount_eq_32 a b ha hb

/-- C6 at `a = 5`, `b = 6`. -/
theorem C6_witness : bitcount (not32 (5 ^^^ 6)) = agreeCount 5 6 :=
  (C6_similarity_score 5 6 (by norm_num) (by norm_num)).2.1


/-! ## What one step writes -/

theorem sameBut_refl (c : Nat) (G : CellGrid) : CellGrid.SameBut c G G :=
  ⟨rfl, rfl, rfl, fun _ _ => rfl⟩

theorem sameBut_trans {c : Nat} {G1 G2 G3 : CellGrid} (h1 : CellGrid.SameBut c G1 G2)
    (h2 : CellGrid.SameBut c G2 G3) : CellGrid.SameBut c G1 G3 :=
  ⟨h2.1.trans h1.1, h2.2.1.trans h1.2.1, h2.2.2.1.trans h1.2.2.1,
    fun j hj => (h2.2.2.2 j hj).trans (h1.2.2.2 j hj)⟩

theorem sameBut_setCell (G : CellGrid) (c : Nat) (v : Cell) :
    CellGrid.SameBut c G (G.setCell c v) :=
  ⟨length_setCell G c v, rfl, rfl, fun j hj => cell_setCell_ne G c j v (Ne.symm hj)⟩

theorem sameBut_request_death (G : CellGrid) (c t k : Nat) :
    CellGrid.SameBut c G (G.request_death t k) :=
  ⟨rfl, rfl, rfl, fun _ _ => rfl⟩

theorem sameBut_request_revive (G : CellGrid) (c t g m : Nat) :
    CellGrid.SameBut c G (G.request_revive t g m) :=
  ⟨rfl, rfl, rfl, fun _ _ => rfl⟩

theorem revive_queue_request_revive (G : CellGrid) (t g m : Nat) :
    (G.request_revive t g m).d_revive_queue = G.d_revive_queue ++ [⟨t, g, m⟩] := rfl

theorem death_queue_request_death (G : CellGrid) (t k : Nat) :
    (G.request_death t k).d_death_queue = G.d_death_queue ++ [⟨t, k⟩] := rfl

theorem mateLoop_frame (c : Nat) (m : Nat) : ∀ (k : Nat) (G : CellGrid),
    CellGrid.SameBut c G (mateLoop c m k G) ∧
    (mateLoop c m k G).d_revive_queue = G.d_revive_queue ∧
    (mateLoop c m k G).d_death_queue = G.d_death_queue := by
  induction m with
  | zero => intro k G; exact ⟨sameBut_refl c G, rfl, rfl⟩
  | succ m ih =>
    intro k G
    rw [mateLoop]
    split
    · exact ⟨sameBut_refl c G, rfl, rfl⟩
    · rename_i n _
      by_cases hl : (G.cell c).like (G.cell n) = true
      · simp only [hl, if_true]
        obtain ⟨h1, h2, h3⟩ := ih (k + 1) (G.setCell c (G.cell n))
        exact ⟨sameBut_trans (sameBut_setCell G c _) h1, h2, h3⟩
      · simp only [hl]
        exact ih (k + 1) G

theorem reproduce_frame (RAND_MAX : Nat) (G : CellGrid) (c : Nat) (r : Draws) :
    CellGrid.SameBut c G (Cell.reproduce RAND_MAX G c r) ∧
    (∃ rs, (Cell.reproduce RAND_MAX G c r).d_revive_queue = G.d_revive_queue ++ rs ∧
      rs.length ≤ 1) ∧
    (Cell.reproduce RAND_MAX G c r).d_death_queue = G.d_death_queue := by
  unfold Cell.reproduce
  split
  · exact ⟨sameBut_refl c G, ⟨[], by simp, by simp⟩, rfl⟩
  · obtain ⟨h1, h2, h3⟩ := mateLoop_frame c (G.cell c).d_neighbours.length 0 G
    simp only []
    exact ⟨sameBut_trans h1 (sameBut_request_revive _ _ _ _ _),
      ⟨_, (revive_queue_request_revive _ _ _ _).trans (congrArg (· ++ _) h2),
        by exact Nat.le_refl 1⟩, h3⟩

theorem fight_frame (G : CellGrid) (c : Nat) :
    CellGrid.SameBut c G (Cell.fight G c) ∧
    (Cell.fight G c).d_revive_queue = G.d_revive_queue ∧
    (∃ ds, (Cell.fight G c).d_death_queue = G.d_death_queue ++ ds ∧ ds.length ≤ 1) := by
  unfold Cell.fight
  split
  · exact ⟨sameBut_refl c G, rfl, ⟨[], by simp, by simp⟩⟩
  · simp only []
    split
    · exact ⟨sameBut_request_death _ _ _ _, rfl, ⟨[_], rfl, by simp⟩⟩
    · split
      · exact ⟨sameBut_request_death _ _ _ _, rfl, ⟨[_], rfl, by simp⟩⟩
      · exact ⟨sameBut_refl c G, rfl, ⟨[], by simp, by simp⟩⟩

theorem step_frame (RAND_MAX : Nat) (G : CellGrid) (c : Nat) (r : Draws) :
    CellGrid.SameBut c G (Cell.step RAND_MAX G c r) ∧
    ∃ rs ds, (Cell.step RAND_MAX G c r).d_revive_queue = G.d_revive_queue ++ rs ∧
      (Cell.step RAND_MAX G c r).d_death_queue = G.d_death_queue ++ ds ∧
      rs.length + ds.length ≤ 1 := by
  have hs : CellGrid.SameBut c G (Cell.shuffleNeighbours G c r) := sameBut_setCell G c _
  have hsr : (Cell.shuffleNeighbours G c r).d_revive_queue = G.d_revive_queue := rfl
  have hsd : (Cell.shuffleNeighbours G c r).d_death_queue = G.d_death_queue := rfl
  unfold Cell.step
  simp only []
  generalize Cell.shuffleNeighbours G c r = G1 at hs hsr hsd ⊢
  split
  · exact ⟨sameBut_trans hs (sameBut_request_death _ _ _ _), [], [⟨c, c⟩],
      by simp [CellGrid.request_death, hsr], by simp [CellGrid.request_death, hsd], by simp⟩
  · have ha : CellGrid.SameBut c G
        (G1.setCell c { G1.cell c with d_age := (G1.cell c).d_age - 1 }) :=
      sameBut_trans hs (sameBut_setCell G1 c _)
    have har : (G1.setCell c { G1.cell c with d_age := (G1.cell c).d_age - 1 }).d_revive_queue
        = G.d_revive_queue := hsr
    have had : (G1.setCell c { G1.cell c with d_age := (G1.cell c).d_age - 1 }).d_death_queue
        = G.d_death_queue := hsd
    generalize G1.setCell c { G1.cell c with d_age := (G1.cell c).d_age - 1 } = G2
      at ha har had ⊢
    split
    · exact ⟨sameBut_trans ha (sameBut_request_death _ _ _ _), [], [⟨c, c⟩],
        by simp [CellGrid.request_death, har], by simp [CellGrid.request_death, had], by simp⟩
    · split
      · obtain ⟨h1, ⟨rs, h2, h2'⟩, h3⟩ := reproduce_frame RAND_MAX G2 c r
        exact ⟨sameBut_trans ha h1, rs, [], by rw [h2, har], by rw [h3, had]; simp, by simpa using h2'⟩
      · split
        · obtain ⟨h1, h2, ⟨ds, h3, h3'⟩⟩ := fight_frame G2 c
          exact ⟨sameBut_trans ha h1, [], ds, by rw [h2, har]; simp, by rw [h3, had], by simpa using h3'⟩
        · exact ⟨ha, [], [], by simp [har], by simp [had], by simp⟩

/-! ## The branches of one step -/

theorem insertAt_perm {α : Type} (k : Nat) (x : α) (l : List α) :
    (insertAt k x l).Perm (x :: l) := by
  induction l generalizing k with
  | nil => cases k <;> exact List.Perm.refl _
  | cons y l ih =>
    cases k with
    | zero => exact List.Perm.refl _
    | succ k => exact ((ih k).cons y).trans (List.Perm.swap x y l)

theorem random_shuffle_perm {α : Type} (l : List α) : ∀ ds : List Nat,
    (random_shuffle ds l).Perm l := by
  induction l with
  | nil => intro ds; cases ds <;> exact List.Perm.refl _
  | cons x xs ih =>
    intro ds
    rw [random_shuffle]
    exact (insertAt_perm _ x _).trans ((ih ds.tail).cons x)

theorem insertAt_length_append {α : Type} (a b : List α) (x : α) :
    insertAt a.length x (a ++ b) = a ++ x :: b := by
  induction a with
  | nil => cases b <;> rfl
  | cons y a ih =>
    show y :: insertAt a.length x (a ++ b) = y :: (a ++ x :: b)
    rw [ih]

/-- Every rearrangement of a list is the result of `random_shuffle` for some draws. -/
theorem random_shuffle_surjective {α : Type} (l : List α) :
    ∀ l' : List α, l'.Perm l → ∃ ds : List Nat, random_shuffle ds l = l' := by
  induction l with
  | nil =>
    intro l' h
    exact ⟨[], by rw [List.Perm.eq_nil h]; rfl⟩
  | cons x xs ih =>
    intro l' h
    have hx : x ∈ l' := h.mem_iff.mpr (List.mem_cons_self x xs)
    obtain ⟨a, b, rfl⟩ := List.append_of_mem hx
    have hab : (a ++ b).Perm xs :=
      (List.perm_cons x).mp ((List.perm_middle.symm).trans h)
    obtain ⟨ds, hds⟩ := ih (a ++ b) hab
    refine ⟨a.length :: ds, ?_⟩
    have hlen : a.length < xs.length + 1 := by
      have := hab.length_eq
      rw [List.length_append] at this
      omega
    rw [random_shuffle]
    simp only [List.headD_cons, List.tail_cons, hds, Nat.mod_eq_of_lt hlen]
    exact insertAt_length_append a b x

theorem cell_default_of_le (G : CellGrid) (c : Nat) (h : G.d_cells.length ≤ c) :
    G.cell c = default := by
  unfold CellGrid.cell
  simp [List.getD_eq_getElem?_getD, List.getElem?_eq_none h]

theorem lt_length_of_age_pos (G : CellGrid) (c : Nat) (h : 0 < (G.cell c).d_age) :
    c < G.d_cells.length := by
  by_contra hc
  rw [cell_default_of_le G c (Nat.le_of_not_lt hc)] at h
  exact absurd h (by decide)

theorem setCell_setCell (G : CellGrid) (c : Nat) (v w : Cell) :
    (G.setCell c v).setCell c w = G.setCell c w := by
  simp [CellGrid.setCell, List.set_set]

theorem hungerLoop_congr (G G' : CellGrid) (ns : List Nat)
    (h : ∀ n, (G'.cell n).d_alive = (G.cell n).d_alive ∧ (G'.cell n).hunger = (G.cell n).hunger) :
    ∀ init, hungerLoop G' ns init = hungerLoop G ns init := by
  unfold hungerLoop
  induction ns with
  | nil => intro init; rfl
  | cons n ns ih =>
    intro init
    simp only [List.foldl_cons, (h n).1, (h n).2]
    exact ih _

theorem hungerLoop_perm (G : CellGrid) {ns ns' : List Nat} (p : ns.Perm ns') (init : ℚ × Nat) :
    hungerLoop G ns init = hungerLoop G ns' init := by
  unfold hungerLoop
  apply List.Perm.foldl_eq' p
  intro x _ y _ z
  by_cases hx : (G.cell x).d_alive = true <;> by_cases hy : (G.cell y).d_alive = true <;>
    simp [hx, hy, add_right_comm]

theorem starving_congr (G G' : CellGrid) (c : Nat)
    (h : ∀ n, (G'.cell n).d_alive = (G.cell n).d_alive ∧ (G'.cell n).hunger = (G.cell n).hunger)
    (p : (G'.cell c).d_neighbours.Perm (G.cell c).d_neighbours) :
    Cell.starving G' c = Cell.starving G c := by
  unfold Cell.starving
  simp only []
  rw [hungerLoop_congr G G' _ h, hungerLoop_perm G p, (h c).2]

theorem step_of_expired (RAND_MAX : Nat) (G : CellGrid) (c : Nat) (r : Draws)
    (h : (G.cell c).d_age ≤ 0) :
    Cell.step RAND_MAX G c r = (Cell.shuffleNeighbours G c r).request_death c c := by
  have h1 : ((Cell.shuffleNeighbours G c r).cell c).d_age ≤ 0 := by
    unfold Cell.shuffleNeighbours
    rw [cell_setCell]
    split
    · exact h
    · exact h
  unfold Cell.step
  simp only [h1, if_true]

theorem aged_cell (G : CellGrid) (c : Nat) (r : Draws) (hc : c < G.d_cells.length) :
    (Cell.aged G c r).cell c =
      { G.cell c with
        d_neighbours := random_shuffle r.shuffle (G.cell c).d_neighbours
        d_age := (G.cell c).d_age - 1 } :=
  cell_setCell_self G c _ hc

theorem aged_traits (G : CellGrid) (c : Nat) (r : Draws) (n : Nat) :
    ((Cell.aged G c r).cell n).d_alive = (G.cell n).d_alive ∧
    ((Cell.aged G c r).cell n).hunger = (G.cell n).hunger ∧
    ((Cell.aged G c r).cell n).d_genome = (G.cell n).d_genome ∧
    ((Cell.aged G c r).cell n).horny = (G.cell n).horny ∧
    ((Cell.aged G c r).cell n).aggro = (G.cell n).aggro ∧
    ((Cell.aged G c r).cell n).mutate = (G.cell n).mutate ∧
    ((Cell.aged G c r).cell n).d_x = (G.cell n).d_x ∧
    ((Cell.aged G c r).cell n).d_y = (G.cell n).d_y := by
  unfold Cell.aged
  rw [cell_setCell]
  split
  · rename_i h; rw [← h.1]; exact ⟨rfl, rfl, rfl, rfl, rfl, rfl, rfl, rfl⟩
  · exact ⟨rfl, rfl, rfl, rfl, rfl, rfl, rfl, rfl⟩

theorem step_of_age_pos (RAND_MAX : Nat) (G : CellGrid) (c : Nat) (r : Draws)
    (h : 0 < (G.cell c).d_age) :
    Cell.step RAND_MAX G c r =
      if Cell.starving G c then (Cell.aged G c r).request_death c c
      else if roll RAND_MAX r.horny (G.cell c).horny = true then
        Cell.reproduce RAND_MAX (Cell.aged G c r) c r
      else if roll RAND_MAX r.aggro (G.cell c).aggro = true then
        Cell.fight (Cell.aged G c r) c
      else Cell.aged G c r := by
  have hc := lt_length_of_age_pos G c h
  have h1 : (Cell.shuffleNeighbours G c r).cell c =
      { G.cell c with d_neighbours := random_shuffle r.shuffle (G.cell c).d_neighbours } :=
    cell_setCell_self G c _ hc
  have h2 : ¬ ((Cell.shuffleNeighbours G c r).cell c).d_age ≤ 0 := by
    rw [h1]; exact not_le.mpr h
  have h3 : (Cell.shuffleNeighbours G c r).setCell c
      { (Cell.shuffleNeighbours G c r).cell c with
        d_age := ((Cell.shuffleNeighbours G c r).cell c).d_age - 1 } = Cell.aged G c r := by
    rw [h1]
    unfold Cell.shuffleNeighbours Cell.aged
    rw [setCell_setCell]
  have h4 : Cell.starving (Cell.aged G c r) c = Cell.starving G c := by
    apply starving_congr
    · intro n; exact ⟨(aged_traits G c r n).1, (aged_traits G c r n).2.1⟩
    · rw [aged_cell G c r hc]
      exact random_shuffle_perm _ _
  unfold Cell.step
  simp only [h2, if_false, h3, h4, (aged_traits G c r c).2.2.2.1, (aged_traits G c r c).2.2.2.2.1]

theorem like_congr {a a' b b' : Cell} (h1 : a'.d_genome = a.d_genome)
    (h2 : a'.mutate = a.mutate) (h3 : b'.d_genome = b.d_genome) : a'.like b' = a.like b := by
  unfold Cell.like
  rw [h1, h2, h3]

theorem aged_like (G : CellGrid) (c : Nat) (r : Draws) (m n : Nat) :
    ((Cell.aged G c r).cell m).like ((Cell.aged G c r).cell n) = (G.cell m).like (G.cell n) :=
  like_congr (aged_traits G c r m).2.2.1 (aged_traits G c r m).2.2.2.2.2.1
    (aged_traits G c r n).2.2.1

theorem aged_queues (G : CellGrid) (c : Nat) (r : Draws) :
    (Cell.aged G c r).d_revive_queue = G.d_revive_queue ∧
    (Cell.aged G c r).d_death_queue = G.d_death_queue := ⟨rfl, rfl⟩

theorem mem_aged_neighbours (G : CellGrid) (c : Nat) (r : Draws) (hc : c < G.d_cells.length)
    (n : Nat) :
    n ∈ ((Cell.aged G c r).cell c).d_neighbours ↔ n ∈ (G.cell c).d_neighbours := by
  rw [aged_cell G c r hc]
  exact (random_shuffle_perm _ _).mem_iff

theorem step_no_branch (RAND_MAX : Nat) (G : CellGrid) (c : Nat) (r : Draws)
    (hage : 0 < (G.cell c).d_age) (hst : Cell.starving G c = false)
    (hrep : roll RAND_MAX r.horny (G.cell c).horny = true →
      ∀ n ∈ (G.cell c).d_neighbours, (G.cell n).d_alive = true)
    (hfight : ¬ roll RAND_MAX r.horny (G.cell c).horny = true →
      roll RAND_MAX r.aggro (G.cell c).aggro = true →
      ∀ n ∈ (G.cell c).d_neighbours,
        (G.cell n).d_alive = false ∨ (G.cell c).like (G.cell n) = true) :
    Cell.step RAND_MAX G c r = Cell.aged G c r := by
  have hc := lt_length_of_age_pos G c hage
  rw [step_of_age_pos RAND_MAX G c r hage]
  simp only [hst, Bool.false_eq_true, if_false]
  by_cases h1 : roll RAND_MAX r.horny (G.cell c).horny = true
  · simp only [h1, if_true]
    have : ((Cell.aged G c r).cell c).d_neighbours.find?
        (fun n => !((Cell.aged G c r).cell n).d_alive) = none := by
      rw [List.find?_eq_none]
      intro n hn
      rw [mem_aged_neighbours G c r hc] at hn
      simp [(aged_traits G c r n).1, hrep h1 n hn]
    unfold Cell.reproduce
    rw [this]
  · simp only [h1, Bool.false_eq_true, if_false]
    by_cases h2 : roll RAND_MAX r.aggro (G.cell c).aggro = true
    · simp only [h2, if_true]
      have : ((Cell.aged G c r).cell c).d_neighbours.find?
          (fun n => !(!((Cell.aged G c r).cell n).d_alive ||
            ((Cell.aged G c r).cell c).like ((Cell.aged G c r).cell n))) = none := by
        rw [List.find?_eq_none]
        intro n hn
        rw [mem_aged_neighbours G c r hc] at hn
        rw [(aged_traits G c r n).1, aged_like]
        rcases hfight h1 h2 n hn with h | h <;> simp [h]
      unfold Cell.fight
      rw [this]
    · simp only [h2, Bool.false_eq_true, if_false]

/-! ## C4: at most one request per step -/

/-- C4: one call of `Cell::step` appends at most one request in total to the two
queues, and it appends none when the cell has age left, does not starve, and neither
the reproduction loop finds a free spot nor the combat loop an opponent. -/
theorem C4_at_most_one_request (RAND_MAX : Nat) (G : CellGrid) (c : Nat) (r : Draws) :
    (∃ rs ds, (Cell.step RAND_MAX G c r).d_revive_queue = G.d_revive_queue ++ rs ∧
      (Cell.step RAND_MAX G c r).d_death_queue = G.d_death_queue ++ ds ∧
      rs.length + ds.length ≤ 1) ∧
    (0 < (G.cell c).d_age → Cell.starving G c = false →
      (roll RAND_MAX r.horny (G.cell c).horny = true →
        ∀ n ∈ (G.cell c).d_neighbours, (G.cell n).d_alive = true) →
      (¬ roll RAND_MAX r.horny (G.cell c).horny = true →
        roll RAND_MAX r.aggro (G.cell c).aggro = true →
        ∀ n ∈ (G.cell c).d_neighbours,
          (G.cell n).d_alive = false ∨ (G.cell c).like (G.cell n) = true) →
      (Cell.step RAND_MAX G c r).d_revive_queue = G.d_revive_queue ∧
      (Cell.step RAND_MAX G c r).d_death_queue = G.d_death_queue) := by
  refine ⟨(step_frame RAND_MAX G c r).2, ?_⟩
  intro hage hst hrep hfight
  rw [step_no_branch RAND_MAX G c r hage hst hrep hfight]
  exact aged_queues G c r

/-! ## The loop over the cells -/

theorem stepCells_nil (RAND_MAX : Nat) (draws : Nat → Draws) (G : CellGrid) :
    CellGrid.stepCells RAND_MAX draws [] G = G := rfl

theorem stepCells_cons (RAND_MAX : Nat) (draws : Nat → Draws) (c : Nat) (l : List Nat)
    (G : CellGrid) :
    CellGrid.stepCells RAND_MAX draws (c :: l) G =
      CellGrid.stepCells RAND_MAX draws l
        { Cell.step RAND_MAX G c (draws c) with
          d_populus := populusCount (Cell.step RAND_MAX G c (draws c)).d_populus
            ((Cell.step RAND_MAX G c (draws c)).cell c).d_genome } := rfl

theorem stepCells_append (RAND_MAX : Nat) (draws : Nat → Draws) (l1 l2 : List Nat)
    (G : CellGrid) :
    CellGrid.stepCells RAND_MAX draws (l1 ++ l2) G =
      CellGrid.stepCells RAND_MAX draws l2 (CellGrid.stepCells RAND_MAX draws l1 G) := by
  unfold CellGrid.stepCells
  rw [List.foldl_append]

/-- The loop over `step_cells` keeps the number of cells, leaves the cells it does not
visit as they are, and only appends to the queues. -/
theorem stepCells_frame (RAND_MAX : Nat) (draws : Nat → Draws) (l : List Nat) :
    ∀ G : CellGrid,
    (CellGrid.stepCells RAND_MAX draws l G).d_cells.length = G.d_cells.length ∧
    (∀ j, j ∉ l → (CellGrid.stepCells RAND_MAX draws l G).cell j = G.cell j) ∧
    (∃ rs, (CellGrid.stepCells RAND_MAX draws l G).d_revive_queue = G.d_revive_queue ++ rs) ∧
    (∃ ds, (CellGrid.stepCells RAND_MAX draws l G).d_death_queue = G.d_death_queue ++ ds) := by
  induction l with
  | nil => intro G; exact ⟨rfl, fun _ _ => rfl, ⟨[], by simp [stepCells_nil]⟩, ⟨[], by simp [stepCells_nil]⟩⟩
  | cons c l ih =>
    intro G
    rw [stepCells_cons]
    obtain ⟨h1, h2, ⟨rs, h3⟩, ⟨ds, h4⟩⟩ := ih
      { Cell.step RAND_MAX G c (draws c) with
        d_populus := populusCount (Cell.step RAND_MAX G c (draws c)).d_populus
          ((Cell.step RAND_MAX G c (draws c)).cell c).d_genome }
    obtain ⟨hf, rs0, ds0, hr0, hd0, _⟩ := step_frame RAND_MAX G c (draws c)
    refine ⟨h1.trans hf.1, ?_, ⟨rs0 ++ rs, ?_⟩, ⟨ds0 ++ ds, ?_⟩⟩
    · intro j hj
      rw [List.mem_cons, not_or] at hj
      rw [h2 j hj.2]
      exact hf.2.2.2 j hj.1
    · rw [h3]; show (Cell.step RAND_MAX G c (draws c)).d_revive_queue ++ rs = _
      rw [hr0, List.append_assoc]
    · rw [h4]; show (Cell.step RAND_MAX G c (draws c)).d_death_queue ++ ds = _
      rw [hd0, List.append_assoc]

/-- A cell whose age has run out is the target of a death request once the loop over
`step_cells` has visited it. -/
theorem stepCells_expired (RAND_MAX : Nat) (draws : Nat → Draws) (X : Nat) (l : List Nat) :
    ∀ G : CellGrid, X ∈ l → (G.cell X).d_age ≤ 0 →
    ∃ d ∈ (CellGrid.stepCells RAND_MAX draws l G).d_death_queue,
      d.target = X ∧ d.killer = X := by
  induction l with
  | nil => intro G h; simp at h
  | cons c l ih =>
    intro G hmem hage
    rw [stepCells_cons]
    by_cases hc : c = X
    · subst hc
      obtain ⟨_, _, _, ⟨ds, h4⟩⟩ := stepCells_frame RAND_MAX draws l
        { Cell.step RAND_MAX G c (draws c) with
          d_populus := populusCount (Cell.step RAND_MAX G c (draws c)).d_populus
            ((Cell.step RAND_MAX G c (draws c)).cell c).d_genome }
      refine ⟨⟨c, c⟩, ?_, rfl, rfl⟩
      rw [h4]
      show _ ∈ (Cell.step RAND_MAX G c (draws c)).d_death_queue ++ ds
      rw [step_of_expired RAND_MAX G c (draws c) hage, death_queue_request_death]
      simp
    · apply ih
      · rcases List.mem_cons.mp hmem with h | h
        · exact absurd h.symm hc
        · exact h
      · show ((Cell.step RAND_MAX G c (draws c)).cell X).d_age ≤ 0
        rw [(step_frame RAND_MAX G c (draws c)).1.2.2.2 X (Ne.symm hc)]
        exact hage

theorem mem_random_shuffle_range (ds : List Nat) (n X : Nat) (h : X < n) :
    X ∈ random_shuffle ds (List.range n) :=
  (random_shuffle_perm _ ds).mem_iff.mpr (List.mem_range.mpr h)

/-! ## C10: the lifespan rule -/

/-- C10: a cell X whose remaining age is 0 (or below) at the start of a generation
still has that age when its turn comes; its step enqueues exactly one request, the
death request of X attributed to X, and leaves its age as it is, whatever its traits
and neighbours are; and after the commit of that generation X is still a cell of the
grid and is dead, for every visitation order and all draws. -/
theorem C10_lifespan (RAND_MAX : Nat) (G : CellGrid) (draws : Nat → Draws) (X : Nat)
    (hX : X < G.d_cells.length) (hage : (G.cell X).d_age ≤ 0) :
    (∀ (G' : CellGrid) (r : Draws), (G'.cell X).d_age ≤ 0 →
      (Cell.step RAND_MAX G' X r).d_death_queue = G'.d_death_queue ++ [⟨X, X⟩] ∧
      (Cell.step RAND_MAX G' X r).d_revive_queue = G'.d_revive_queue ∧
      ((Cell.step RAND_MAX G' X r).cell X).d_age = (G'.cell X).d_age) ∧
    (∀ before : List Nat, X ∉ before →
      ((CellGrid.stepCells RAND_MAX draws before { G with d_populus := [] }).cell X).d_age
        = (G.cell X).d_age) ∧
    (∀ step_cells : List Nat, X ∈ step_cells →
      (G.generation RAND_MAX step_cells draws).d_cells.length = G.d_cells.length ∧
      X < (G.generation RAND_MAX step_cells draws).d_cells.length ∧
      ((G.generation RAND_MAX step_cells draws).d_cells[X]?).map Cell.d_alive
        = some false ∧
      ((G.generation RAND_MAX step_cells draws).cell X).d_alive = false) ∧
    (∀ order : List Nat,
      (G.on_live_cells RAND_MAX order draws).d_cells.length = G.d_cells.length ∧
      X < (G.on_live_cells RAND_MAX order draws).d_cells.length ∧
      ((G.on_live_cells RAND_MAX order draws).d_cells[X]?).map Cell.d_alive
        = some false ∧
      ((G.on_live_cells RAND_MAX order draws).cell X).d_alive = false) := by
  have hlen : ∀ l : List Nat,
      (G.generation RAND_MAX l draws).d_cells.length = G.d_cells.length := by
    intro l
    unfold CellGrid.generation
    rw [process_requests_length, (stepCells_frame RAND_MAX draws l _).1]
  have hgen : ∀ step_cells : List Nat, X ∈ step_cells →
      ((G.generation RAND_MAX step_cells draws).cell X).d_alive = false := by
    intro l hl
    unfold CellGrid.generation
    obtain ⟨d, hd, hdt, _⟩ := stepCells_expired RAND_MAX draws X l { G with d_populus := [] } hl hage
    apply process_requests_dead
    · rw [(stepCells_frame RAND_MAX draws l _).1]; exact hX
    · exact ⟨d, hd, hdt⟩
  have hall : ∀ step_cells : List Nat, X ∈ step_cells →
      (G.generation RAND_MAX step_cells draws).d_cells.length = G.d_cells.length ∧
      X < (G.generation RAND_MAX step_cells draws).d_cells.length ∧
      ((G.generation RAND_MAX step_cells draws).d_cells[X]?).map Cell.d_alive
        = some false ∧
      ((G.generation RAND_MAX step_cells draws).cell X).d_alive = false := by
    intro l hl
    have hlt : X < (G.generation RAND_MAX l draws).d_cells.length := by
      rw [hlen l]; exact hX
    refine ⟨hlen l, hlt, ?_, hgen l hl⟩
    have h := hgen l hl
    rw [cell_eq_getElem _ X hlt] at h
    rw [List.getElem?_eq_getElem hlt, Option.map_some', h]
  refine ⟨?_, ?_, hall, ?_⟩
  · intro G' r h
    rw [step_of_expired RAND_MAX G' X r h]
    refine ⟨rfl, rfl, ?_⟩
    show ((Cell.shuffleNeighbours G' X r).cell X).d_age = _
    unfold Cell.shuffleNeighbours
    rw [cell_setCell]
    split <;> rfl
  · intro before hb
    rw [(stepCells_frame RAND_MAX draws before _).2.1 X hb]
    rfl
  · intro order
    exact hall _ (mem_random_shuffle_range order _ X hX)

/-- C4 at `exMate`: with all tests failing the step of the cell at 0 appends nothing. -/
theorem C4_witness :
    (Cell.step 32767 exMate 0 drawsIdle).d_revive_queue = exMate.d_revive_queue ∧
    (Cell.step 32767 exMate 0 drawsIdle).d_death_queue = exMate.d_death_queue :=
  (C4_at_most_one_request 32767 exMate 0 drawsIdle).2
    (by with_unfolding_all decide) (by with_unfolding_all decide)
    (fun h => absurd h (by with_unfolding_all decide))
    (fun _ h => absurd h (by with_unfolding_all decide))

/-- C10 at `exZero`, where every cell is alive with age 0: the cell at 4 is alive
before the generation and dead after it. -/
theorem C10_witness :
    (exZero.cell 4).d_alive = true ∧
    4 < (exZero.on_live_cells 32767 [] (fun _ => drawsBreed)).d_cells.length ∧
    ((exZero.on_live_cells 32767 [] (fun _ => drawsBreed)).cell 4).d_alive = false :=
  ⟨by with_unfolding_all decide,
    ((C10_lifespan 32767 exZero (fun _ => drawsBreed) 4 (by with_unfolding_all decide)
      (by with_unfolding_all decide)).2.2.2 []).2.1,
    ((C10_lifespan 32767 exZero (fun _ => drawsBreed) 4 (by with_unfolding_all decide)
      (by with_unfolding_all decide)).2.2.2 []).2.2.2⟩

/-! ## C3: what the search for a mate writes -/

/-- C3 fails on the code: in `exMate` the cell at 0 is alive at `(0, 0)` with genome
`gA`; its step reaches `mate = n` for the neighbour at 1, whose genome is the
complement of `gA`, and that assignment copies the neighbour into the stepping cell:
afterwards the cell at 0 equals the cell at 1, so it is dead, has another genome,
other coordinates and the neighbour list of the cell at 1, which is no rearrangement
of its own.  The request it enqueues still carries `gA`. -/
theorem C3_mate_assignment_overwrites_self :
    (exMate.cell 0).d_alive = true ∧ (exMate.cell 0).d_genome = gA ∧
    ((exMate.cell 0).d_x, (exMate.cell 0).d_y) = (0, 0) ∧
    (exMate.cell 0).d_neighbours = [2, 1, 6, 3, 8, 7, 5, 4] ∧
    (Cell.step 32767 exMate 0 drawsBreed).cell 0 = exMate.cell 1 ∧
    ((Cell.step 32767 exMate 0 drawsBreed).cell 0).d_alive = false ∧
    ((Cell.step 32767 exMate 0 drawsBreed).cell 0).d_genome = gNotA ∧
    (((Cell.step 32767 exMate 0 drawsBreed).cell 0).d_x,
      ((Cell.step 32767 exMate 0 drawsBreed).cell 0).d_y) = (0, 1) ∧
    ((Cell.step 32767 exMate 0 drawsBreed).cell 0).d_neighbours = [0, 2, 7, 4, 6, 8, 3, 5] ∧
    ¬ ((Cell.step 32767 exMate 0 drawsBreed).cell 0).d_neighbours.Perm
        (exMate.cell 0).d_neighbours ∧
    (Cell.step 32767 exMate 0 drawsBreed).d_revive_queue = [⟨2, gA, 0⟩] := by
  refine ⟨by with_unfolding_all decide, by with_unfolding_all decide,
    by with_unfolding_all decide, by with_unfolding_all decide,
    by with_unfolding_all rfl, by with_unfolding_all decide,
    by with_unfolding_all decide, by with_unfolding_all decide,
    by with_unfolding_all decide, ?_, by with_unfolding_all rfl⟩
  intro h
  have h0 : (0 : Nat) ∈ ((Cell.step 32767 exMate 0 drawsBreed).cell 0).d_neighbours := by
    with_unfolding_all decide
  have h1 : (0 : Nat) ∉ (exMate.cell 0).d_neighbours := by with_unfolding_all decide
  exact h1 (h.mem_iff.mp h0)

/-! ## The constructor of CellGrid -/

theorem bindLoop_frame {α : Type} (idx : α → Nat) (val : α → List Nat) (ps : List α) :
    ∀ G : CellGrid,
    (ps.foldl (fun G q => G.setCell (idx q) { G.cell (idx q) with d_neighbours := val q })
      G).d_cells.length = G.d_cells.length := by
  induction ps with
  | nil => intro G; rfl
  | cons a ps ih => intro G; rw [List.foldl_cons, ih, length_setCell]

theorem bindLoop_keep {α : Type} (idx : α → Nat) (val : α → List Nat) (k : Nat)
    (v : List Nat) (ps : List α) :
    ∀ G : CellGrid, (G.cell k).d_neighbours = v → (∀ q ∈ ps, idx q = k → val q = v) →
    ((ps.foldl (fun G q => G.setCell (idx q) { G.cell (idx q) with d_neighbours := val q })
      G).cell k).d_neighbours = v := by
  induction ps with
  | nil => intro G h _; exact h
  | cons a ps ih =>
    intro G h hq
    rw [List.foldl_cons]
    apply ih
    · rw [cell_setCell]
      split
      · rename_i hk
        exact hq a (List.mem_cons_self a ps) hk.1
      · exact h
    · intro q hqm; exact hq q (List.mem_cons_of_mem a hqm)

theorem bindLoop_hit {α : Type} (idx : α → Nat) (val : α → List Nat) (ps : List α) :
    ∀ G : CellGrid, ∀ p ∈ ps, (∀ q ∈ ps, idx q = idx p → val q = val p) →
    idx p < G.d_cells.length →
    ((ps.foldl (fun G q => G.setCell (idx q) { G.cell (idx q) with d_neighbours := val q })
      G).cell (idx p)).d_neighbours = val p := by
  induction ps with
  | nil => intro G p hp; simp at hp
  | cons a ps ih =>
    intro G p hp hq hlt
    rw [List.foldl_cons]
    rcases List.mem_cons.mp hp with rfl | hmem
    · apply bindLoop_keep
      · rw [cell_setCell_self _ _ _ hlt]
      · intro q hqm; exact hq q (List.mem_cons_of_mem _ hqm)
    · apply ih _ p hmem
      · intro q hqm; exact hq q (List.mem_cons_of_mem a hqm)
      · rw [length_setCell]; exact hlt

theorem nested_foldl_eq {β : Type} (f : β → Nat → Nat → β) (li lj : List Nat) (b : β) :
    li.foldl (fun b i => lj.foldl (fun b j => f b i j) b) b =
      (li.flatMap fun i => lj.map fun j => (i, j)).foldl (fun b p => f b p.1 p.2) b := by
  induction li generalizing b with
  | nil => rfl
  | cons i li ih =>
    rw [List.foldl_cons, List.flatMap_cons, List.foldl_append, ih, List.foldl_map]

theorem mem_pairs (n i j : Nat) :
    (i, j) ∈ ((List.range n).flatMap fun i => (List.range n).map fun j => (i, j)) ↔
      i < n ∧ j < n := by
  simp [List.mem_flatMap]

theorem idx_inj (n i j i' j' : Nat) (hi : i < n) (hi' : i' < n)
    (h : i + n * j = i' + n * j') : i = i' ∧ j = j' := by
  have h1 : (i + n * j) % n = i := by rw [Nat.add_mul_mod_self_left]; exact Nat.mod_eq_of_lt hi
  have h2 : (i' + n * j') % n = i' := by rw [Nat.add_mul_mod_self_left]; exact Nat.mod_eq_of_lt hi'
  have hii : i = i' := by rw [← h1, ← h2, h]
  subst hii
  have hn : 0 < n := by omega
  have : n * j = n * j' := by omega
  exact ⟨rfl, Nat.eq_of_mul_eq_mul_left hn this⟩

theorem length_flatMap_range_map {β : Type} (n m : Nat) (f : Nat → Nat → β) :
    ((List.range n).flatMap fun i => (List.range m).map (f i)).length = n * m := by
  simp [List.length_flatMap, Function.comp_def]

theorem ctor_length (junk : Int → Int → Cell) (N : Int) :
    (CellGrid.ctor junk N).d_cells.length = N.toNat * N.toNat := by
  unfold CellGrid.ctor
  simp only []
  have hn := nested_foldl_eq (fun (G : CellGrid) (i j : Nat) =>
      G.setCell ((i : Int) + N * (j : Int)).toNat
        { G.cell ((i : Int) + N * (j : Int)).toNat with
          d_neighbours := (neighbourIndices N i j).map Int.toNat })
    (List.range N.toNat) (List.range N.toNat)
  beta_reduce at hn
  rw [hn]
  rw [bindLoop_frame (fun p : Nat × Nat => ((p.1 : Int) + N * (p.2 : Int)).toNat)
    (fun p => (neighbourIndices N p.1 p.2).map Int.toNat)]
  exact length_flatMap_range_map _ _ _

theorem ctor_neighbours (junk : Int → Int → Cell) (n i j : Nat) (hi : i < n) (hj : j < n) :
    ((CellGrid.ctor junk n).cell (i + n * j)).d_neighbours =
      (neighbourIndices n i j).map Int.toNat := by
  have hidx : ∀ a b : Nat, ((a : Int) + (n : Int) * (b : Int)).toNat = a + n * b := by
    intro a b
    have : ((a : Int) + (n : Int) * (b : Int)) = ((a + n * b : Nat) : Int) := by push_cast; ring
    rw [this, Int.toNat_ofNat]
  unfold CellGrid.ctor
  simp only [Int.toNat_ofNat]
  have hn := nested_foldl_eq (fun (G : CellGrid) (i j : Nat) =>
      G.setCell ((i : Int) + (n : Int) * (j : Int)).toNat
        { G.cell ((i : Int) + (n : Int) * (j : Int)).toNat with
          d_neighbours := (neighbourIndices n i j).map Int.toNat })
    (List.range n) (List.range n)
  beta_reduce at hn
  rw [hn]
  have := bindLoop_hit (fun p : Nat × Nat => ((p.1 : Int) + (n : Int) * (p.2 : Int)).toNat)
    (fun p => (neighbourIndices n p.1 p.2).map Int.toNat)
    ((List.range n).flatMap fun i => (List.range n).map fun j => (i, j))
    { d_N := n
      d_cells := (List.range n).flatMap fun (i : Nat) =>
        (List.range n).map fun (j : Nat) => Cell.ctor (junk i j) i j
      d_populus := [], d_revive_queue := [], d_death_queue := [] }
    (i, j) ((mem_pairs n i j).mpr ⟨hi, hj⟩) ?_ ?_
  · simp only [hidx] at this
    simp only [hidx]
    exact this
  · intro q hq hqe
    obtain ⟨a, b⟩ := q
    have hab := (mem_pairs n a b).mp hq
    simp only [hidx] at hqe
    obtain ⟨rfl, rfl⟩ := idx_inj n a b i j hab.1 hi hqe
    rfl
  · simp only [hidx]
    have hlen : ((List.range n).flatMap fun (i : Nat) =>
        (List.range n).map fun (j : Nat) => Cell.ctor (junk i j) i j).length = n * n :=
      length_flatMap_range_map _ _ _
    show i + n * j < _
    rw [hlen]
    calc i + n * j < n + n * j := by omega
      _ = n * (j + 1) := by ring
      _ ≤ n * n := Nat.mul_le_mul_left n hj

/-- The neighbour list the constructor binds for loop variables `i + 1 < n`, `j + 1 < n`. -/
theorem neighbourIndices_inner (n i j : Nat) (hi : i + 1 < n) (hj : j + 1 < n) :
    (neighbourIndices n i j).map Int.toNat =
      [(if i = 0 then n - 1 else i - 1) + n * j, (i + 1) + n * j,
       i + n * (if j = 0 then n - 1 else j - 1), i + n * (j + 1),
       (if i = 0 then n - 1 else i - 1) + n * (if j = 0 then n - 1 else j - 1),
       (i + 1) + n * (if j = 0 then n - 1 else j - 1),
       (if i = 0 then n - 1 else i - 1) + n * (j + 1), (i + 1) + n * (j + 1)] := by
  have hr : ¬ ((i : Int) + 1 > (n : Int)) := by omega
  have hd : ¬ ((j : Int) + 1 > (n : Int)) := by omega
  have hl : (if (i : Int) - 1 < 0 then (i : Int) - 1 + n else (i : Int) - 1)
      = (((if i = 0 then n - 1 else i - 1 : Nat)) : Int) := by
    split_ifs <;> omega
  have hu : (if (j : Int) - 1 < 0 then (j : Int) - 1 + n else (j : Int) - 1)
      = (((if j = 0 then n - 1 else j - 1 : Nat)) : Int) := by
    split_ifs <;> omega
  have hd1 : (if (j : Int) + 1 > (n : Int) then (j : Int) + 1 - n else (j : Int) + 1)
      = ((j + 1 : Nat) : Int) := by
    rw [if_neg hd]; push_cast; rfl
  have hidx : ∀ a b : Nat, ((a : Int) + (n : Int) * (b : Int)).toNat = a + n * b := by
    intro a b; omega
  have hidx1 : ∀ a b : Nat, ((a : Int) + 1 + (n : Int) * (b : Int)).toNat = a + 1 + n * b := by
    intro a b; omega
  simp only [neighbourIndices, hr, if_false, hl, hu, hd1, List.map_cons, List.map_nil,
    hidx, hidx1]

theorem neighbourIndices_inner_pairs (n i j : Nat) (hi : i + 1 < n) (hj : j + 1 < n) :
    (neighbourIndices n i j).map Int.toNat = (moorePairs n i j).map fun p => p.1 + n * p.2 := by
  rw [neighbourIndices_inner n i j hi hj]
  rfl

theorem moorePairs_lt (n i j : Nat) (hi : i + 1 < n) (hj : j + 1 < n) :
    ∀ p ∈ moorePairs n i j, p.1 < n ∧ p.2 < n := by
  intro p hp
  simp only [moorePairs, wrapPred, List.mem_cons, List.mem_singleton, List.not_mem_nil,
    or_false] at hp
  rcases hp with h | h | h | h | h | h | h | h <;> subst h <;> simp only [] <;>
    constructor <;> first | omega | (split_ifs <;> omega)

theorem moorePairs_nodup (n i j : Nat) (hn : 3 ≤ n) :
    (moorePairs n i j).Nodup := by
  simp only [moorePairs, wrapPred, List.nodup_cons, List.mem_cons, List.mem_singleton,
    Prod.mk.injEq, List.not_mem_nil, List.nodup_nil, not_or, and_true, not_false_eq_true]
  split_ifs <;> omega

theorem near_symm (n i i' : Nat) (hi : i + 1 < n) (hi' : i' + 1 < n)
    (h : i' = wrapPred n i ∨ i' = i ∨ i' = i + 1) :
    i = wrapPred n i' ∨ i = i' ∨ i = i' + 1 := by
  unfold wrapPred at h ⊢
  split_ifs at h ⊢ <;> omega

theorem mem_moorePairs (n i j a b : Nat) (hi : i + 1 < n) (hj : j + 1 < n) :
    (a, b) ∈ moorePairs n i j ↔
      (a = wrapPred n i ∨ a = i ∨ a = i + 1) ∧ (b = wrapPred n j ∨ b = j ∨ b = j + 1) ∧
        ¬ (a = i ∧ b = j) := by
  have h1 : wrapPred n i ≠ i := by unfold wrapPred; split_ifs <;> omega
  have h2 : wrapPred n j ≠ j := by unfold wrapPred; split_ifs <;> omega
  simp only [moorePairs, List.mem_cons, List.mem_singleton, Prod.mk.injEq,
    List.not_mem_nil, or_false]
  generalize wrapPred n i = L at h1 ⊢
  generalize wrapPred n j = U at h2 ⊢
  constructor
  · rintro (⟨rfl, rfl⟩ | ⟨rfl, rfl⟩ | ⟨rfl, rfl⟩ | ⟨rfl, rfl⟩ | ⟨rfl, rfl⟩ | ⟨rfl, rfl⟩ |
      ⟨rfl, rfl⟩ | ⟨rfl, rfl⟩) <;> simp [h1, h2]
  · rintro ⟨ha | ha | ha, hb | hb | hb, hne⟩ <;> subst ha <;> subst hb <;> simp at hne ⊢

theorem moorePairs_symm (n i j i' j' : Nat) (hi : i + 1 < n) (hj : j + 1 < n)
    (hi' : i' + 1 < n) (hj' : j' + 1 < n) (h : (i', j') ∈ moorePairs n i j) :
    (i, j) ∈ moorePairs n i' j' := by
  rw [mem_moorePairs n i j i' j' hi hj] at h
  rw [mem_moorePairs n i' j' i j hi' hj']
  refine ⟨near_symm n i i' hi hi' h.1, near_symm n j j' hj hj' h.2.1, ?_⟩
  rintro ⟨rfl, rfl⟩
  exact h.2.2 ⟨rfl, rfl⟩

theorem wrap_emod (N a : Int) (hN : 0 < N) (h0 : -1 ≤ a) (h1 : a < N) :
    (if a < 0 then a + N else a) = a % N := by
  split_ifs with h
  · have h2 : 0 ≤ a + N := by omega
    have h3 : a + N < N := by omega
    rw [← Int.add_emod_self, Int.emod_eq_of_lt h2 h3]
  · have h2 : 0 ≤ a := by omega
    rw [Int.emod_eq_of_lt h2 h1]

/-- Away from the last column and the last row the constructor computes the
neighbourhood of the torus. -/
theorem neighbourIndices_eq_torus (N i j : Int) (hi0 : 0 ≤ i) (hi : i + 1 < N)
    (hj0 : 0 ≤ j) (hj : j + 1 < N) :
    neighbourIndices N i j = torusNeighbours N i j := by
  have hl := wrap_emod N (i - 1) (by omega) (by omega) (by omega)
  have hu := wrap_emod N (j - 1) (by omega) (by omega) (by omega)
  have hr : ¬ (i + 1 > N) := by omega
  have hd : ¬ (j + 1 > N) := by omega
  have hr' : (i + 1) % N = i + 1 := Int.emod_eq_of_lt (by omega) hi
  have hd' : (j + 1) % N = j + 1 := Int.emod_eq_of_lt (by omega) hj
  have hi' : i % N = i := Int.emod_eq_of_lt hi0 (by omega)
  have hj' : j % N = j := Int.emod_eq_of_lt hj0 (by omega)
  have e1 : i + -1 = i - 1 := by ring
  have e2 : j + -1 = j - 1 := by ring
  unfold neighbourIndices torusNeighbours
  simp only [List.map_cons, List.map_nil]
  rw [hl, hu, if_neg hr, if_neg hd, add_zero, add_zero, e1, e2, hr', hd', hi', hj']

theorem ctor_neighbours_inner (junk : Int → Int → Cell) (n i j : Nat)
    (hi : i + 1 < n) (hj : j + 1 < n) :
    ((CellGrid.ctor junk n).cell (i + n * j)).d_neighbours =
      (moorePairs n i j).map fun p => p.1 + n * p.2 := by
  rw [ctor_neighbours junk n i j (by omega) (by omega),
    neighbourIndices_inner_pairs n i j hi hj]

theorem idx_lt (n a b : Nat) (ha : a < n) (hb : b < n) : a + n * b < n * n :=
  calc a + n * b < n + n * b := by omega
    _ = n * (b + 1) := by ring
    _ ≤ n * n := Nat.mul_le_mul_left n hb

/-! ## C7: size of the grid, neighbour lists, symmetry -/

/-- C7, amended: for every lattice size `n > 0` the constructor produces `n * n` cells
and every cell's neighbour list has 8 entries; for `n ≥ 3` the 8 entries of the cell at
lattice position `(i, j)` with `i + 1 < n` and `j + 1 < n` are pairwise distinct cells
of the grid; and among the cells at such positions adjacency is symmetric. -/
theorem C7_grid_construction (junk : Int → Int → Cell) (n : Nat) (hn : 0 < n) :
    (CellGrid.ctor junk n).d_cells.length = n * n ∧
    (∀ k, k < n * n → ((CellGrid.ctor junk n).cell k).d_neighbours.length = 8) ∧
    (3 ≤ n → ∀ i j, i + 1 < n → j + 1 < n →
      ((CellGrid.ctor junk n).cell (i + n * j)).d_neighbours.Nodup ∧
      ∀ b ∈ ((CellGrid.ctor junk n).cell (i + n * j)).d_neighbours, b < n * n) ∧
    (∀ i j i' j', i + 1 < n → j + 1 < n → i' + 1 < n → j' + 1 < n →
      i' + n * j' ∈ ((CellGrid.ctor junk n).cell (i + n * j)).d_neighbours →
      i + n * j ∈ ((CellGrid.ctor junk n).cell (i' + n * j')).d_neighbours) := by
  refine ⟨?_, ?_, ?_, ?_⟩
  · rw [ctor_length]; simp
  · intro k hk
    have hkn : k / n < n := Nat.div_lt_of_lt_mul hk
    have hkm : k % n < n := Nat.mod_lt k hn
    have hkd : k % n + n * (k / n) = k := Nat.mod_add_div k n
    have := ctor_neighbours junk n (k % n) (k / n) hkm hkn
    rw [hkd] at this
    rw [this]
    simp [neighbourIndices]
  · intro h3 i j hi hj
    rw [ctor_neighbours_inner junk n i j hi hj]
    constructor
    · apply List.Nodup.map_on
      · intro p hp q hq hpq
        obtain ⟨hp1, _⟩ := moorePairs_lt n i j hi hj p hp
        obtain ⟨hq1, _⟩ := moorePairs_lt n i j hi hj q hq
        obtain ⟨h1, h2⟩ := idx_inj n p.1 p.2 q.1 q.2 hp1 hq1 hpq
        exact Prod.ext h1 h2
      · exact moorePairs_nodup n i j h3
    · intro b hb
      obtain ⟨p, hp, rfl⟩ := List.mem_map.mp hb
      obtain ⟨hp1, hp2⟩ := moorePairs_lt n i j hi hj p hp
      exact idx_lt n p.1 p.2 hp1 hp2
  · intro i j i' j' hi hj hi' hj' h
    rw [ctor_neighbours_inner junk n i j hi hj] at h
    rw [ctor_neighbours_inner junk n i' j' hi' hj']
    obtain ⟨p, hp, hpe⟩ := List.mem_map.mp h
    obtain ⟨hp1, _⟩ := moorePairs_lt n i j hi hj p hp
    obtain ⟨h1, h2⟩ := idx_inj n p.1 p.2 i' j' hp1 (by omega) hpe
    have hp' : (i', j') ∈ moorePairs n i j := by
      rw [← h1, ← h2]; exact hp
    exact List.mem_map.mpr ⟨(i, j), moorePairs_symm n i j i' j' hi hj hi' hj' hp', rfl⟩

/-- C7, as stated, fails: in `CellGrid(2)` the neighbour list of the cell at lattice
position `(0, 0)` is `[1, 1, 2, 2, 3, 3, 3, 3]`, whose entries are not pairwise
distinct; the tests `r > N` and `d > N` play no part in it, since `r = d = 1`. -/
theorem C7_counterexample :
    ((CellGrid.ctor (fun _ _ => default) 2).cell 0).d_neighbours = [1, 1, 2, 2, 3, 3, 3, 3] ∧
    ¬ ((CellGrid.ctor (fun _ _ => default) 2).cell 0).d_neighbours.Nodup := by
  constructor
  · decide
  · decide

/-- C7, amended, at `CellGrid(4)` and the cell at lattice position `(1, 1)`. -/
theorem C7_witness :
    ((CellGrid.ctor (fun _ _ => default) 4).cell 5).d_neighbours.Nodup :=
  ((C7_grid_construction (fun _ _ => default) 4 (by decide)).2.2.1 (by decide) 1 1
    (by decide) (by decide)).1

/-! ## C8 and C9: the wraparound at the last column and the last row -/

/-- For every lattice size the constructor computes an index past the end of
`d_cells` for the cell in the last column and the last row. -/
theorem neighbourIndices_last (N : Int) (hN : 0 < N) :
    N + N * N ∈ neighbourIndices N (N - 1) (N - 1) ∧ ¬ (N + N * N < N * N) := by
  constructor
  · have h1 : ¬ (N - 1 + 1 > N) := by omega
    simp only [neighbourIndices, h1, if_false, List.mem_cons]
    right; right; right; right; right; right; right
    left
    ring
  · intro h
    have : N * N + N < N * N + 0 := by linarith
    omega

/-- C8 fails on the code: for `N = 3`, `i = 2`, `j = 0` the test `r > N` leaves
`r = 3`, so the constructor binds the indices `[1, 3, 8, 5, 7, 9, 4, 6]`, while the
cells at `((i + di) mod 3, (j + dj) mod 3)` are `[1, 0, 8, 5, 7, 6, 4, 3]`: the cell
at 0 is missing and 9 is no cell of the grid. -/
theorem C8_wraparound_off_by_one :
    neighbourIndices 3 2 0 = [1, 3, 8, 5, 7, 9, 4, 6] ∧
    torusNeighbours 3 2 0 = [1, 0, 8, 5, 7, 6, 4, 3] ∧
    (0 : Int) ∈ torusNeighbours 3 2 0 ∧ (0 : Int) ∉ neighbourIndices 3 2 0 ∧
    (9 : Int) ∈ neighbourIndices 3 2 0 ∧
    ((CellGrid.ctor (fun _ _ => default) 3).cell 2).d_neighbours = [1, 3, 8, 5, 7, 9, 4, 6] := by
  refine ⟨by decide, by decide, by decide, by decide, by decide, by decide⟩

/-- C9 fails on the code: for `N = 3`, `i = 2`, `j = 2` the tests `r > N` and `d > N`
leave `r = d = 3`, and the indices 9, 11, 10 and 12 are not below `N * N = 9`; for
`N = 1` the indices 1 and 2 are not below 1. -/
theorem C9_index_out_of_range :
    neighbourIndices 3 2 2 = [7, 9, 5, 11, 4, 6, 10, 12] ∧
    ¬ (∀ k ∈ neighbourIndices 3 2 2, 0 ≤ k ∧ k < 3 * 3) ∧
    neighbourIndices 1 0 0 = [0, 1, 0, 1, 0, 1, 1, 2] ∧
    ¬ (∀ k ∈ neighbourIndices 1 0 0, 0 ≤ k ∧ k < 1 * 1) ∧
    (CellGrid.ctor (fun _ _ => default) 3).d_cells.length = 9 ∧
    (12 : Nat) ∈ ((CellGrid.ctor (fun _ _ => default) 3).cell 8).d_neighbours := by
  refine ⟨by decide, by decide, by decide, by decide, by decide, by decide⟩

/-! ## Generations of quiet steps -/

theorem cells_ext (A B : CellGrid) (hlen : A.d_cells.length = B.d_cells.length)
    (h : ∀ j, A.cell j = B.cell j) : A.d_cells = B.d_cells := by
  apply List.ext_getElem hlen
  intro j h1 h2
  rw [← cell_eq_getElem A j h1, ← cell_eq_getElem B j h2]
  exact h j

theorem die_die (c : Cell) : c.die.die = c.die := rfl

theorem die_default : (default : Cell).die = default := rfl

/-- The loop over `d_death_queue`, cell by cell: the targets are dead, the others
are as they were. -/
theorem deathLoop_cell (q : List DeathRequest) : ∀ (G : CellGrid) (j : Nat),
    (G.deathLoop q).cell j =
      if ∃ d ∈ q, d.target = j then (G.cell j).die else G.cell j := by
  induction q with
  | nil => intro G j; simp [CellGrid.deathLoop]
  | cons r q ih =>
    intro G j
    rw [deathLoop_cons, ih, cell_setCell]
    by_cases hr : r.target = j
    · subst hr
      have hex : ∃ d ∈ r :: q, d.target = r.target := ⟨r, List.mem_cons_self r q, rfl⟩
      rw [if_pos hex]
      by_cases hlt : r.target < G.d_cells.length
      · simp only [hlt, and_self, if_true, die_die, ite_self]
      · have hd : G.cell r.target = default :=
          cell_default_of_le G _ (Nat.le_of_not_lt hlt)
        simp only [hlt, and_false, if_false, hd, die_default, ite_self]
    · have hiff : (∃ d ∈ r :: q, d.target = j) ↔ ∃ d ∈ q, d.target = j := by
        constructor
        · rintro ⟨d, hd, hdt⟩
          rcases List.mem_cons.mp hd with rfl | hd
          · exact absurd hdt hr
          · exact ⟨d, hd, hdt⟩
        · rintro ⟨d, hd, hdt⟩
          exact ⟨d, List.mem_cons_of_mem r hd, hdt⟩
      simp only [hr, false_and, if_false, hiff]

theorem reviveLoop_cells_congr (q : List ReviveRequest) : ∀ (A B : CellGrid),
    A.d_cells = B.d_cells → (A.reviveLoop q).d_cells = (B.reviveLoop q).d_cells := by
  induction q with
  | nil => intro A B h; exact h
  | cons r q ih =>
    intro A B h
    rw [reviveLoop_cons, reviveLoop_cons]
    apply ih
    simp [CellGrid.setCell, CellGrid.cell, h]

theorem step_quiet (RAND_MAX : Nat) (G : CellGrid) (c : Nat) (r : Draws)
    (hq : Cell.quiet RAND_MAX G c r) :
    Cell.step RAND_MAX G c r =
      if Cell.dies G c then (G.setCell c (Cell.afterQuiet G c r)).request_death c c
      else G.setCell c (Cell.afterQuiet G c r) := by
  by_cases hage : (G.cell c).d_age ≤ 0
  · rw [step_of_expired RAND_MAX G c r hage]
    simp only [Cell.dies, Cell.afterQuiet, hage, decide_True, Bool.true_or, if_true]
    rfl
  · have hpos : 0 < (G.cell c).d_age := not_le.mp hage
    rw [step_of_age_pos RAND_MAX G c r hpos]
    have haq : G.setCell c (Cell.afterQuiet G c r) = Cell.aged G c r := by
      simp only [Cell.afterQuiet, hage, if_false]
      rfl
    rw [haq]
    by_cases hst : Cell.starving G c = true
    · simp only [hst, if_true, Cell.dies, Bool.or_true]
    · rcases hq with h | h | ⟨h1, h2⟩
      · exact absurd h hage
      · exact absurd h hst
      · simp only [hst, Cell.dies, hage, decide_False, Bool.or_self, Bool.false_eq_true,
          if_false, h1, h2]

theorem afterQuiet_traits (G : CellGrid) (c : Nat) (r : Draws) :
    (Cell.afterQuiet G c r).d_alive = (G.cell c).d_alive ∧
    (Cell.afterQuiet G c r).hunger = (G.cell c).hunger := by
  unfold Cell.afterQuiet
  split <;> exact ⟨rfl, rfl⟩

theorem quietRun_congr (draws : Nat → Draws) (G S : CellGrid) (l1 l2 : List Nat)
    (h : ∀ j, j ∈ l1 ↔ j ∈ l2) (hr : QuietRun draws G S l1) : QuietRun draws G S l2 := by
  obtain ⟨h1, h2, h3, h4⟩ := hr
  refine ⟨h1, ?_, h3, ?_⟩
  · intro j
    rw [h2 j]
    by_cases hj : j ∈ l1
    · rw [if_pos hj, if_pos ((h j).mp hj)]
    · rw [if_neg hj, if_neg (fun hj2 => hj ((h j).mpr hj2))]
  · intro X
    rw [h4 X, h X]

theorem quietRun_step (RAND_MAX : Nat) (draws : Nat → Draws) (G S : CellGrid)
    (done : List Nat) (c : Nat) (hr : QuietRun draws G S done) (hc : c ∉ done)
    (hlt : c < G.d_cells.length) (hq : Cell.quiet RAND_MAX G c (draws c)) :
    QuietRun draws G
      { Cell.step RAND_MAX S c (draws c) with
        d_populus := populusCount (Cell.step RAND_MAX S c (draws c)).d_populus
          ((Cell.step RAND_MAX S c (draws c)).cell c).d_genome }
      (c :: done) := by
  obtain ⟨h1, h2, h3, h4⟩ := hr
  have hSc : S.cell c = G.cell c := by rw [h2 c, if_neg hc]
  have htr : ∀ n, (S.cell n).d_alive = (G.cell n).d_alive ∧ (S.cell n).hunger = (G.cell n).hunger := by
    intro n
    rw [h2 n]
    split
    · exact afterQuiet_traits G n (draws n)
    · exact ⟨rfl, rfl⟩
  have hst : Cell.starving S c = Cell.starving G c :=
    starving_congr G S c htr (by rw [hSc])
  have hdies : Cell.dies S c = Cell.dies G c := by
    unfold Cell.dies; rw [hst, hSc]
  have haq : Cell.afterQuiet S c (draws c) = Cell.afterQuiet G c (draws c) := by
    unfold Cell.afterQuiet; rw [hSc]
  have hqS : Cell.quiet RAND_MAX S c (draws c) := by
    unfold Cell.quiet at hq ⊢
    rw [hst, hSc]; exact hq
  have hstep := step_quiet RAND_MAX S c (draws c) hqS
  rw [hdies, haq] at hstep
  have hcell : ∀ j, (Cell.step RAND_MAX S c (draws c)).cell j =
      if j ∈ c :: done then Cell.afterQuiet G j (draws j) else G.cell j := by
    intro j
    have : (Cell.step RAND_MAX S c (draws c)).cell j
        = (S.setCell c (Cell.afterQuiet G c (draws c))).cell j := by
      rw [hstep]; split <;> rfl
    rw [this, cell_setCell]
    by_cases hj : c = j
    · subst hj
      simp only [h1, hlt, and_self, if_true, List.mem_cons, true_or]
    · have hj' : ¬ j = c := fun h => hj h.symm
      simp only [hj, false_and, if_false, h2 j, List.mem_cons, hj', false_or]
  refine ⟨?_, hcell, ?_, ?_⟩
  · show (Cell.step RAND_MAX S c (draws c)).d_cells.length = _
    rw [(step_frame RAND_MAX S c (draws c)).1.1, h1]
  · show (Cell.step RAND_MAX S c (draws c)).d_revive_queue = _
    rw [hstep]; split <;> exact h3
  · intro X
    show (∃ d ∈ (Cell.step RAND_MAX S c (draws c)).d_death_queue, d.target = X) ↔ _
    by_cases hd : Cell.dies G c = true
    · have : (Cell.step RAND_MAX S c (draws c)).d_death_queue = S.d_death_queue ++ [⟨c, c⟩] := by
        rw [hstep, if_pos hd]; rfl
      rw [this]
      constructor
      · rintro ⟨d, hdm, hdt⟩
        rcases List.mem_append.mp hdm with hm | hm
        · rcases (h4 X).mp ⟨d, hm, hdt⟩ with h | h
          · exact Or.inl h
          · exact Or.inr ⟨List.mem_cons_of_mem c h.1, h.2⟩
        · rw [List.mem_singleton] at hm
          subst hm
          simp only [] at hdt
          subst hdt
          exact Or.inr ⟨List.mem_cons_self _ _, hd⟩
      · rintro (h | ⟨hm, hX⟩)
        · obtain ⟨d, hdm, hdt⟩ := (h4 X).mpr (Or.inl h)
          exact ⟨d, List.mem_append_left _ hdm, hdt⟩
        · rcases List.mem_cons.mp hm with rfl | hm
          · exact ⟨⟨X, X⟩, List.mem_append_right _ (List.mem_singleton_self _), rfl⟩
          · obtain ⟨d, hdm, hdt⟩ := (h4 X).mpr (Or.inr ⟨hm, hX⟩)
            exact ⟨d, List.mem_append_left _ hdm, hdt⟩
    · have : (Cell.step RAND_MAX S c (draws c)).d_death_queue = S.d_death_queue := by
        rw [hstep, if_neg hd]; rfl
      rw [this, h4 X]
      constructor
      · rintro (h | ⟨hm, hX⟩)
        · exact Or.inl h
        · exact Or.inr ⟨List.mem_cons_of_mem c hm, hX⟩
      · rintro (h | ⟨hm, hX⟩)
        · exact Or.inl h
        · rcases List.mem_cons.mp hm with rfl | hm
          · exact absurd hX hd
          · exact Or.inr ⟨hm, hX⟩

theorem quietRun_stepCells (RAND_MAX : Nat) (draws : Nat → Draws) (G : CellGrid)
    (l : List Nat) : ∀ (S : CellGrid) (done : List Nat), QuietRun draws G S done →
    l.Nodup → (∀ c ∈ l, c ∉ done) →
    (∀ c ∈ l, c < G.d_cells.length ∧ Cell.quiet RAND_MAX G c (draws c)) →
    QuietRun draws G (CellGrid.stepCells RAND_MAX draws l S) (l ++ done) := by
  induction l with
  | nil => intro S done hr _ _ _; exact hr
  | cons c l ih =>
    intro S done hr hnd hdis hq
    rw [stepCells_cons]
    have hc := hq c (List.mem_cons_self c l)
    have h1 := quietRun_step RAND_MAX draws G S done c hr
      (hdis c (List.mem_cons_self c l)) hc.1 hc.2
    have h2 := ih _ (c :: done) h1 (List.nodup_cons.mp hnd).2
      (by
        intro x hx hxm
        rcases List.mem_cons.mp hxm with rfl | hxm
        · exact (List.nodup_cons.mp hnd).1 hx
        · exact hdis x (List.mem_cons_of_mem c hx) hxm)
      (fun x hx => hq x (List.mem_cons_of_mem c hx))
    apply quietRun_congr draws G _ (l ++ c :: done) (c :: l ++ done) _ h2
    intro j
    simp only [List.mem_append, List.mem_cons]
    tauto

theorem quietRun_start (draws : Nat → Draws) (G : CellGrid) :
    QuietRun draws G { G with d_populus := [] } [] := by
  refine ⟨rfl, ?_, rfl, ?_⟩
  · intro j; simp only [List.not_mem_nil, if_false]; rfl
  · intro X
    simp only [List.not_mem_nil, false_and, or_false]

/-! ## C16: the constructor and the lattice size -/

theorem bindLoop_fields {α : Type} (idx : α → Nat) (val : α → List Nat) (ps : List α) :
    ∀ G : CellGrid,
    (ps.foldl (fun G q => G.setCell (idx q) { G.cell (idx q) with d_neighbours := val q })
      G).d_N = G.d_N ∧
    (ps.foldl (fun G q => G.setCell (idx q) { G.cell (idx q) with d_neighbours := val q })
      G).d_populus = G.d_populus ∧
    (ps.foldl (fun G q => G.setCell (idx q) { G.cell (idx q) with d_neighbours := val q })
      G).d_revive_queue = G.d_revive_queue ∧
    (ps.foldl (fun G q => G.setCell (idx q) { G.cell (idx q) with d_neighbours := val q })
      G).d_death_queue = G.d_death_queue := by
  induction ps with
  | nil => intro G; exact ⟨rfl, rfl, rfl, rfl⟩
  | cons a ps ih => intro G; rw [List.foldl_cons]; exact ih _

theorem ctor_fields (junk : Int → Int → Cell) (N : Int) :
    (CellGrid.ctor junk N).d_N = N ∧ (CellGrid.ctor junk N).d_populus = [] ∧
    (CellGrid.ctor junk N).d_revive_queue = [] ∧ (CellGrid.ctor junk N).d_death_queue = [] := by
  unfold CellGrid.ctor
  simp only []
  have hn := nested_foldl_eq (fun (G : CellGrid) (i j : Nat) =>
      G.setCell ((i : Int) + N * (j : Int)).toNat
        { G.cell ((i : Int) + N * (j : Int)).toNat with
          d_neighbours := (neighbourIndices N i j).map Int.toNat })
    (List.range N.toNat) (List.range N.toNat)
  beta_reduce at hn
  rw [hn]
  exact bindLoop_fields (fun p : Nat × Nat => ((p.1 : Int) + N * (p.2 : Int)).toNat)
    (fun p => (neighbourIndices N p.1 p.2).map Int.toNat) _ _

/-- C16, amended: the constructor has no guard.  For every `N ≤ 0` it returns the grid
with `d_N = N`, no cells and empty queues; for `N > 0` it returns a grid of `N * N`
cells. -/
theorem C16_constructor_accepts_every_size (junk : Int → Int → Cell) (N : Int) :
    (N ≤ 0 → CellGrid.ctor junk N =
      { d_N := N, d_cells := [], d_populus := [], d_revive_queue := [],
        d_death_queue := [] }) ∧
    (0 < N → (CellGrid.ctor junk N).d_N = N ∧
      ((CellGrid.ctor junk N).d_cells.length : Int) = N * N) := by
  constructor
  · intro h
    have h0 : N.toNat = 0 := Int.toNat_eq_zero.mpr h
    unfold CellGrid.ctor
    simp [h0]
  · intro h
    refine ⟨(ctor_fields junk N).1, ?_⟩
    rw [ctor_length]
    push_cast
    rw [Int.toNat_of_nonneg (le_of_lt h)]

/-- C16, as stated, fails: `CellGrid(0)` and `CellGrid(-3)` return a grid, the one
without cells. -/
theorem C16_counterexample :
    CellGrid.ctor (fun _ _ => default) 0 =
      { d_N := 0, d_cells := [], d_populus := [], d_revive_queue := [],
        d_death_queue := [] } ∧
    CellGrid.ctor (fun _ _ => default) (-3) =
      { d_N := -3, d_cells := [], d_populus := [], d_revive_queue := [],
        d_death_queue := [] } := by
  constructor <;> rfl

/-- C16, amended, at `N = -3` and `N = 2`. -/
theorem C16_witness :
    (CellGrid.ctor (fun _ _ => default) (-3)).d_cells = [] ∧
    ((CellGrid.ctor (fun _ _ => default) 2).d_cells.length : Int) = 2 * 2 :=
  ⟨congrArg CellGrid.d_cells
      ((C16_constructor_accepts_every_size (fun _ _ => default) (-3)).1 (by decide)),
    ((C16_constructor_accepts_every_size (fun _ _ => default) 2).2 (by decide)).2⟩

/-! ## C18: the kinship test -/

theorem agreeCount_eq_zero (a b : Nat) (ha : a < 2 ^ 32) (hb : b < 2 ^ 32) :
    agreeCount a b = 0 ↔ b = not32 a := by
  unfold agreeCount
  rw [List.countP_eq_zero]
  constructor
  · intro h
    apply Nat.eq_of_testBit_eq
    intro i
    rw [testBit_not32 a i ha]
    by_cases hi : i < 32
    · have := h i (List.mem_range.mpr hi)
      simp only [hi, decide_True, Bool.true_and]
      cases ha' : a.testBit i <;> cases hb' : b.testBit i <;> simp_all
    · have hi' : 32 ≤ i := Nat.le_of_not_lt hi
      rw [Nat.testBit_lt_two_pow
        (Nat.lt_of_lt_of_le hb (Nat.pow_le_pow_right (by norm_num) hi'))]
      simp [hi]
  · intro h i hi
    have hi' : i < 32 := List.mem_range.mp hi
    rw [h, testBit_not32 a i ha]
    simp only [hi', decide_True, Bool.true_and]
    cases a.testBit i <;> simp

theorem like_iff (c y : Cell) (k : Nat) (hk : k < 32) (hm : c.mutate = (k : ℚ) / 32) :
    c.like y = true ↔
      bitcount (not32 (c.d_genome ^^^ y.d_genome)) = 0 ∧ 0 < c.mutate := by
  unfold Cell.like
  rw [decide_eq_true_iff, hm]
  have hk' : (k : ℚ) < 32 := by exact_mod_cast hk
  constructor
  · intro h
    by_cases h0 : bitcount (not32 (c.d_genome ^^^ y.d_genome)) = 0
    · rw [h0] at h
      exact ⟨h0, by simpa using h⟩
    · have h1 : (1 : ℚ) ≤ (bitcount (not32 (c.d_genome ^^^ y.d_genome)) : ℚ) := by
        exact_mod_cast Nat.one_le_iff_ne_zero.mpr h0
      have h2 : (k : ℚ) / 32 < 1 := by
        rw [div_lt_one (by norm_num)]; exact hk'
      linarith
  · rintro ⟨h0, h1⟩
    rw [h0]
    simpa using h1

/-- C18: for a cell whose members were decoded from the 32-bit genome `a` and a cell
with the 32-bit genome `b`, `like` holds exactly when the bit agreement
`bitcount(~(a ^ b))` is 0 and `mutate > 0`, that is, exactly when `b` is the 32-bit
complement of `a` and the bits `[16, 21)` of `a` are not all zero; a cell never likes
a cell with its own genome. -/
theorem C18_kinship_test (x y : Cell) (a b : Nat) (ha : a < 2 ^ 32) (hb : b < 2 ^ 32)
    (hy : y.d_genome = b) :
    ((x.revive a).like y = true ↔
      bitcount (not32 (a ^^^ b)) = 0 ∧ 0 < (x.revive a).mutate) ∧
    ((x.revive a).like y = true ↔ b = not32 a ∧ (a >>> 16) % 32 ≠ 0) ∧
    (a = b → (x.revive a).like y = false) := by
  have hm : (x.revive a).mutate = (((a >>> 16) % 32 : Nat) : ℚ) / 32 :=
    (revive_fields x a).2.2.2.2
  have hk : (a >>> 16) % 32 < 32 := Nat.mod_lt _ (by norm_num)
  have hg : (x.revive a).d_genome = a := rfl
  have h1 := like_iff (x.revive a) y _ hk hm
  rw [hg, hy] at h1
  have hpos : 0 < (x.revive a).mutate ↔ (a >>> 16) % 32 ≠ 0 := by
    rw [hm]
    constructor
    · intro h h0
      rw [h0] at h
      simp at h
    · intro h
      have : (0 : ℚ) < (((a >>> 16) % 32 : Nat) : ℚ) := by
        exact_mod_cast Nat.pos_of_ne_zero h
      positivity
  have hcnt : bitcount (not32 (a ^^^ b)) = 0 ↔ b = not32 a := by
    rw [bitcount_eq a b ha hb]; exact agreeCount_eq_zero a b ha hb
  refine ⟨h1, ?_, ?_⟩
  · rw [h1, hcnt, hpos]
  · intro hab
    rw [Bool.eq_false_iff]
    intro hl
    have h32 := (agreeCount_eq_32 a b ha hb).mpr hab
    have h0 := (h1.mp hl).1
    rw [bitcount_eq a b ha hb] at h0
    omega

/-- C18 at `gA` and its complement. -/
theorem C18_witness :
    ((default : Cell).revive gA).like ((default : Cell).revive gNotA) = true :=
  ((C18_kinship_test default ((default : Cell).revive gNotA) gA gNotA (by decide) (by decide)
    rfl).2.1).mpr ⟨by decide, by decide⟩

/-! ## The loop that looks for a free spot -/

/-- Without a neighbour that passes the kinship test the search for a mate writes
nothing. -/
theorem mateLoop_of_no_like (c m : Nat) : ∀ (k : Nat) (G : CellGrid),
    (∀ n ∈ (G.cell c).d_neighbours, (G.cell c).like (G.cell n) = false) →
    mateLoop c m k G = G := by
  induction m with
  | zero => intro k G _; rfl
  | succ m ih =>
    intro k G h
    rw [mateLoop]
    split
    · rfl
    · rename_i n hn
      have hl := h n (List.getElem?_mem hn)
      simp only [hl, Bool.false_eq_true, if_false]
      exact ih (k + 1) G h

/-- The loop that looks for a free spot, when the first neighbour that is not alive is
`D` and no neighbour passes the kinship test: one revival request for `D` with the
genome of the cell, changed by the mutation when the test against `mutate` passes. -/
theorem reproduce_of_no_like (RAND_MAX : Nat) (G : CellGrid) (c D : Nat) (r : Draws)
    (hD : (G.cell c).d_neighbours.find? (fun n => !(G.cell n).d_alive) = some D)
    (h : ∀ n ∈ (G.cell c).d_neighbours, (G.cell c).like (G.cell n) = false) :
    Cell.reproduce RAND_MAX G c r =
      G.request_revive D
        (if roll RAND_MAX r.mutate (G.cell c).mutate = true then
          (G.cell c).d_genome ^^^ (r.bits &&& 0xffffffff)
        else (G.cell c).d_genome) c := by
  unfold Cell.reproduce
  rw [hD]
  simp only [mateLoop_of_no_like c _ 0 G h, ne_eq, not_true_eq_false, if_false]

/-- Whatever the search for a mate finds, the genome of a revival request is the
genome the cell had before the search, changed at most by the mutation: the mask
expression of line 96 is never evaluated. -/
theorem reproduce_genome (RAND_MAX : Nat) (G : CellGrid) (c : Nat) (r : Draws)
    (q : ReviveRequest)
    (hq : (Cell.reproduce RAND_MAX G c r).d_revive_queue = G.d_revive_queue ++ [q]) :
    q.genome = (G.cell c).d_genome ∨
      q.genome = (G.cell c).d_genome ^^^ (r.bits &&& 0xffffffff) := by
  unfold Cell.reproduce at hq
  split at hq
  · have := congrArg List.length hq
    simp at this
  · simp only [ne_eq, not_true_eq_false, if_false] at hq
    rw [revive_queue_request_revive, (mateLoop_frame _ _ _ _).2.1] at hq
    have hq' := List.append_cancel_left hq
    simp only [List.cons.injEq, and_true] at hq'
    rw [← hq']
    simp only []
    split
    · exact Or.inr rfl
    · exact Or.inl rfl

/-! ## C11 and C17: the mate assignment -/

/-- C11 fails on the code: in `exPair` the cell at 0 (genome `gA`) has age left, does not
starve, passes the test against `horny` and fails the test against `mutate`; the cell
at 2 is its first neighbour that is not alive and the cell at 1 is alive and passes the
kinship test.  The request it enqueues carries `gA`, not
`(gA & 0x55555555) | (m & 0xaaaaaaaa)` for the genome `m` of the cell at 1.  The two
tests have the same outcome in `float` and on the exact values. -/
theorem C11_crossover_never_applied :
    0 < (exPair.cell 0).d_age ∧ Cell.starving exPair 0 = false ∧
    roll 32767 drawsBreed.horny (exPair.cell 0).horny = true ∧
    ¬ roll 32767 drawsBreed.mutate (exPair.cell 0).mutate = true ∧
    (exPair.cell 2).d_alive = false ∧
    (exPair.cell 0).d_neighbours = [2, 1, 6, 3, 8, 7, 5, 4] ∧
    (exPair.cell 1).d_alive = true ∧ (exPair.cell 0).like (exPair.cell 1) = true ∧
    (exPair.cell 0).d_genome = gA ∧ (exPair.cell 1).d_genome = gNotA ∧
    (Cell.step 32767 exPair 0 drawsBreed).d_revive_queue = [⟨2, gA, 0⟩] ∧
    (gA &&& 0x55555555) ||| (gNotA &&& 0xaaaaaaaa) = 2863375691 ∧
    gA ≠ (gA &&& 0x55555555) ||| (gNotA &&& 0xaaaaaaaa) ∧
    (drawsBreed.horny : ℚ) < (exPair.cell 0).horny * 32767 ∧
    ¬ (drawsBreed.mutate : ℚ) < (exPair.cell 0).mutate * 32767 := by
  refine ⟨by with_unfolding_all decide, by with_unfolding_all decide,
    by with_unfolding_all decide, by with_unfolding_all decide,
    by with_unfolding_all decide, by with_unfolding_all decide,
    by with_unfolding_all decide, by with_unfolding_all decide,
    by with_unfolding_all decide, by with_unfolding_all decide,
    by with_unfolding_all rfl, by decide, by decide,
    by with_unfolding_all decide, by with_unfolding_all decide⟩

/-- C17 fails on the code: in `exPair` the cell at 0 begins its step with age 8 and
ends it with age 240, the age of the cell at 1 that `mate = n` copied into it, not
with age 7. -/
theorem C17_mate_assignment_overwrites_age :
    (exPair.cell 0).d_age = 8 ∧ (exPair.cell 1).d_age = 240 ∧
    ((Cell.step 32767 exPair 0 drawsBreed).cell 0).d_age = 240 := by
  refine ⟨by with_unfolding_all decide, by with_unfolding_all decide,
    by with_unfolding_all decide⟩

/-- The loop that looks for an opponent writes no cell. -/
theorem fight_cells (G : CellGrid) (c : Nat) : (Cell.fight G c).d_cells = G.d_cells := by
  unfold Cell.fight
  split
  · rfl
  · simp only []
    split
    · rfl
    · split <;> rfl

/-- Away from the loop that looks for a free spot a step with age left takes one off
the age of the cell. -/
theorem step_age_of_no_reproduction (RAND_MAX : Nat) (G : CellGrid) (c : Nat) (r : Draws)
    (hage : 0 < (G.cell c).d_age)
    (h : Cell.starving G c = true ∨ ¬ roll RAND_MAX r.horny (G.cell c).horny = true) :
    ((Cell.step RAND_MAX G c r).cell c).d_age = (G.cell c).d_age - 1 := by
  have hc := lt_length_of_age_pos G c hage
  have ha : ((Cell.aged G c r).cell c).d_age = (G.cell c).d_age - 1 := by
    rw [aged_cell G c r hc]
  rw [step_of_age_pos RAND_MAX G c r hage]
  by_cases hst : Cell.starving G c = true
  · simp only [hst, if_true]
    exact ha
  · rcases h with h | h
    · exact absurd h hst
    · simp only [hst, Bool.false_eq_true, if_false, h]
      split
      · have : (Cell.fight (Cell.aged G c r) c).cell c = (Cell.aged G c r).cell c := by
          unfold CellGrid.cell; rw [fight_cells]
        rw [this]; exact ha
      · exact ha

/-! ## The starvation test -/

theorem aliveCount_cons (G : CellGrid) (n : Nat) (ns : List Nat) :
    aliveCount G (n :: ns) = aliveCount G ns + if (G.cell n).d_alive then 1 else 0 := by
  unfold aliveCount
  rw [List.countP_cons]

theorem hungerSum_cons (G : CellGrid) (n : Nat) (ns : List Nat) :
    hungerSum G (n :: ns) =
      (if (G.cell n).d_alive then (G.cell n).hunger else 0) + hungerSum G ns := by
  unfold hungerSum
  by_cases h : (G.cell n).d_alive = true
  · simp [List.filter_cons, h]
  · simp [List.filter_cons, h]

theorem aliveCount_le (G : CellGrid) (ns : List Nat) : aliveCount G ns ≤ ns.length :=
  List.countP_le_length _

/-- The loop that sums the hunger, in closed form. -/
theorem hungerLoop_eq (G : CellGrid) (ns : List Nat) : ∀ (q : ℚ) (m : Nat), m < 256 →
    hungerLoop G ns (q, m) = (q + (hungerSum G ns : ℚ), (m + aliveCount G ns) % 256) := by
  induction ns with
  | nil =>
    intro q m hm
    simp [hungerLoop, hungerSum, aliveCount, Nat.mod_eq_of_lt hm]
  | cons n ns ih =>
    intro q m hm
    have hstep : hungerLoop G (n :: ns) (q, m) =
        hungerLoop G ns (if (G.cell n).d_alive then (q + ((G.cell n).hunger : ℚ), (m + 1) % 256)
          else (q, m)) := rfl
    rw [hstep, aliveCount_cons, hungerSum_cons]
    by_cases h : (G.cell n).d_alive = true
    · simp only [h, if_true]
      rw [ih _ _ (Nat.mod_lt _ (by norm_num))]
      refine Prod.ext ?_ ?_
      · simp only []; push_cast; ring
      · simp only []; omega
    · simp only [h, Bool.false_eq_true, if_false]
      rw [ih _ _ hm]
      refine Prod.ext ?_ ?_
      · simp only []; push_cast; ring
      · simp only [Nat.add_zero]

/-- The starvation test in terms of the number `k` of alive neighbours and the sum `S`
of their hunger. -/
theorem starving_iff (G : CellGrid) (c : Nat) (hlen : (G.cell c).d_neighbours.length < 255) :
    Cell.starving G c = true ↔
      (((G.cell c).hunger : ℚ) + (hungerSum G (G.cell c).d_neighbours : ℚ)) /
          (1 + (aliveCount G (G.cell c).d_neighbours : ℚ))
        > 1 + (aliveCount G (G.cell c).d_neighbours : ℚ) ∧
      (((G.cell c).hunger : ℚ) + (hungerSum G (G.cell c).d_neighbours : ℚ)) /
          (1 + (aliveCount G (G.cell c).d_neighbours : ℚ))
        > ((G.cell c).hunger : ℚ) := by
  have hk := aliveCount_le G (G.cell c).d_neighbours
  have hmod : (1 + aliveCount G (G.cell c).d_neighbours) % 256
      = 1 + aliveCount G (G.cell c).d_neighbours := Nat.mod_eq_of_lt (by omega)
  unfold Cell.starving
  simp only [hungerLoop_eq G _ _ 1 (by norm_num), hmod, decide_eq_true_eq]
  push_cast
  rfl

/-! ## C14: the starvation rule -/

/-- C14: for a cell with age left, own hunger `h`, `k` alive neighbours and hunger sum `S`
of the alive neighbours, the starvation test holds exactly when
`(h + S) / (1 + k) > 1 + k` and `(h + S) / (1 + k) > h`; when it holds the step ends
with the death request of the cell attributed to itself, when it fails the step goes
on to the tests against `horny` and `aggro`; and the test has the same value for every
rearrangement of the neighbour list. -/
theorem C14_starvation_rule (RAND_MAX : Nat) (G : CellGrid) (c : Nat) (r : Draws)
    (hage : 0 < (G.cell c).d_age) (hlen : (G.cell c).d_neighbours.length < 255) :
    (Cell.starving G c = true ↔
      (((G.cell c).hunger : ℚ) + (hungerSum G (G.cell c).d_neighbours : ℚ)) /
          (1 + (aliveCount G (G.cell c).d_neighbours : ℚ))
        > 1 + (aliveCount G (G.cell c).d_neighbours : ℚ) ∧
      (((G.cell c).hunger : ℚ) + (hungerSum G (G.cell c).d_neighbours : ℚ)) /
          (1 + (aliveCount G (G.cell c).d_neighbours : ℚ))
        > ((G.cell c).hunger : ℚ)) ∧
    (Cell.starving G c = true →
      Cell.step RAND_MAX G c r = (Cell.aged G c r).request_death c c ∧
      (Cell.step RAND_MAX G c r).d_death_queue = G.d_death_queue ++ [⟨c, c⟩] ∧
      (Cell.step RAND_MAX G c r).d_revive_queue = G.d_revive_queue ∧
      ((Cell.step RAND_MAX G c r).cell c).d_age = (G.cell c).d_age - 1) ∧
    (Cell.starving G c = false →
      Cell.step RAND_MAX G c r =
        if roll RAND_MAX r.horny (G.cell c).horny = true then
          Cell.reproduce RAND_MAX (Cell.aged G c r) c r
        else if roll RAND_MAX r.aggro (G.cell c).aggro = true then
          Cell.fight (Cell.aged G c r) c
        else Cell.aged G c r) ∧
    (∀ ns : List Nat, ns.Perm (G.cell c).d_neighbours →
      Cell.starving (G.setCell c { G.cell c with d_neighbours := ns }) c
        = Cell.starving G c) := by
  have hc := lt_length_of_age_pos G c hage
  refine ⟨starving_iff G c hlen, ?_, ?_, ?_⟩
  · intro h
    have hs : Cell.step RAND_MAX G c r = (Cell.aged G c r).request_death c c := by
      rw [step_of_age_pos RAND_MAX G c r hage, h, if_pos rfl]
    refine ⟨hs, ?_, ?_, ?_⟩
    · rw [hs]; rfl
    · rw [hs]; rfl
    · rw [hs]
      show ((Cell.aged G c r).cell c).d_age = _
      rw [aged_cell G c r hc]
  · intro h
    rw [step_of_age_pos RAND_MAX G c r hage, h]
    simp only [Bool.false_eq_true, if_false]
  · intro ns hns
    apply starving_congr
    · intro n
      rw [cell_setCell]
      split
      · rename_i h; rw [← h.1]; exact ⟨rfl, rfl⟩
      · exact ⟨rfl, rfl⟩
    · rw [cell_setCell_self G c _ hc]
      exact hns

theorem hungerSum_le (G : CellGrid) (h : Int) (ns : List Nat)
    (hn : ∀ n ∈ ns, (G.cell n).d_alive = true → (G.cell n).hunger ≤ h) :
    hungerSum G ns ≤ h * (aliveCount G ns : Int) := by
  induction ns with
  | nil => simp [hungerSum, aliveCount]
  | cons n ns ih =>
    have ih' := ih (fun m hm => hn m (List.mem_cons_of_mem n hm))
    rw [hungerSum_cons, aliveCount_cons]
    by_cases ha : (G.cell n).d_alive = true
    · have := hn n (List.mem_cons_self n ns) ha
      simp only [ha, if_true]
      push_cast
      linarith
    · simp only [ha, Bool.false_eq_true, if_false]
      push_cast
      linarith

/-! ## C20: bounds on starvation -/

/-- C20: when the hunger of the cell and of its 8 neighbours lies in `2 .. 9`, a cell
that starves has between 1 and 7 alive neighbours, one of them with a hunger above its
own; so a cell without alive neighbour, with 8 alive neighbours, or with hunger 9 does
not starve. -/
theorem C20_starvation_bounds (G : CellGrid) (c : Nat)
    (hlen : (G.cell c).d_neighbours.length = 8)
    (hh : 2 ≤ (G.cell c).hunger ∧ (G.cell c).hunger ≤ 9)
    (hn : ∀ n ∈ (G.cell c).d_neighbours, 2 ≤ (G.cell n).hunger ∧ (G.cell n).hunger ≤ 9) :
    (Cell.starving G c = true →
      1 ≤ aliveCount G (G.cell c).d_neighbours ∧ aliveCount G (G.cell c).d_neighbours ≤ 7 ∧
      ∃ n ∈ (G.cell c).d_neighbours,
        (G.cell n).d_alive = true ∧ (G.cell c).hunger < (G.cell n).hunger) ∧
    (aliveCount G (G.cell c).d_neighbours = 0 → Cell.starving G c = false) ∧
    (aliveCount G (G.cell c).d_neighbours = 8 → Cell.starving G c = false) ∧
    ((G.cell c).hunger = 9 → Cell.starving G c = false) := by
  have _ := hh
  have hk8 : aliveCount G (G.cell c).d_neighbours ≤ 8 := by
    rw [← hlen]; exact aliveCount_le G _
  have hS9 : hungerSum G (G.cell c).d_neighbours
      ≤ 9 * (aliveCount G (G.cell c).d_neighbours : Int) :=
    hungerSum_le G 9 _ (fun n hm _ => (hn n hm).2)
  have key : Cell.starving G c = true →
      1 ≤ aliveCount G (G.cell c).d_neighbours ∧ aliveCount G (G.cell c).d_neighbours ≤ 7 ∧
      ∃ n ∈ (G.cell c).d_neighbours,
        (G.cell n).d_alive = true ∧ (G.cell c).hunger < (G.cell n).hunger := by
    intro hst
    rw [starving_iff G c (by omega)] at hst
    obtain ⟨h1, h2⟩ := hst
    have hpos : (0 : ℚ) < 1 + (aliveCount G (G.cell c).d_neighbours : ℚ) := by positivity
    rw [gt_iff_lt, lt_div_iff₀ hpos] at h1 h2
    have h1' : (1 + (aliveCount G (G.cell c).d_neighbours : Int))
        * (1 + (aliveCount G (G.cell c).d_neighbours : Int))
        < (G.cell c).hunger + hungerSum G (G.cell c).d_neighbours := by exact_mod_cast h1
    have h2' : (G.cell c).hunger * (1 + (aliveCount G (G.cell c).d_neighbours : Int))
        < (G.cell c).hunger + hungerSum G (G.cell c).d_neighbours := by exact_mod_cast h2
    have hex : ∃ n ∈ (G.cell c).d_neighbours,
        (G.cell n).d_alive = true ∧ (G.cell c).hunger < (G.cell n).hunger := by
      by_contra hcon
      push_neg at hcon
      have := hungerSum_le G (G.cell c).hunger _ hcon
      linarith
    generalize aliveCount G (G.cell c).d_neighbours = k at *
    generalize hungerSum G (G.cell c).d_neighbours = S at *
    refine ⟨?_, ?_, hex⟩
    · by_contra hk
      have hk0 : k = 0 := by omega
      subst hk0
      simp at hS9 h2'
      omega
    · interval_cases k <;> simp at h1' hS9 <;> omega
  refine ⟨key, ?_, ?_, ?_⟩
  · intro h0
    rw [Bool.eq_false_iff]
    intro hst
    have := (key hst).1
    omega
  · intro h8
    rw [Bool.eq_false_iff]
    intro hst
    have := (key hst).2.1
    omega
  · intro h9
    rw [Bool.eq_false_iff]
    intro hst
    obtain ⟨n, hm, _, hlt⟩ := (key hst).2.2
    have := (hn n hm).2
    omega

/-- C14 at `exPair`: the cell at 1 has hunger 2 and one alive neighbour of hunger 9; it
starves, and its step ends with its own death request. -/
theorem C14_witness :
    Cell.step 32767 exPair 1 drawsIdle = (Cell.aged exPair 1 drawsIdle).request_death 1 1 ∧
    (Cell.step 32767 exPair 1 drawsIdle).d_death_queue = exPair.d_death_queue ++ [⟨1, 1⟩] :=
  ⟨((C14_starvation_rule 32767 exPair 1 drawsIdle (by with_unfolding_all decide)
    (by with_unfolding_all decide)).2.1 (by with_unfolding_all decide)).1,
   ((C14_starvation_rule 32767 exPair 1 drawsIdle (by with_unfolding_all decide)
    (by with_unfolding_all decide)).2.1 (by with_unfolding_all decide)).2.1⟩

/-- C20 at `exPair` and the cell at 1, which starves with one alive neighbour. -/
theorem C20_witness :
    1 ≤ aliveCount exPair (exPair.cell 1).d_neighbours ∧
    aliveCount exPair (exPair.cell 1).d_neighbours ≤ 7 :=
  ⟨((C20_starvation_bounds exPair 1 (by with_unfolding_all decide)
      (by with_unfolding_all decide) (by with_unfolding_all decide)).1
      (by with_unfolding_all decide)).1,
   ((C20_starvation_bounds exPair 1 (by with_unfolding_all decide)
      (by with_unfolding_all decide) (by with_unfolding_all decide)).1
      (by with_unfolding_all decide)).2.1⟩

/-- The loop that looks for an opponent, when the first neighbour that is alive and
fails the kinship test is `n`. -/
theorem fight_of_first (G : CellGrid) (c n : Nat)
    (hn : (G.cell c).d_neighbours.find?
      (fun n => (G.cell n).d_alive && !(G.cell c).like (G.cell n)) = some n) :
    Cell.fight G c =
      if (G.cell c).attack > (G.cell n).attack then G.request_death n c
      else if (G.cell c).attack < (G.cell n).attack then G.request_death c n
      else G := by
  have hp : (fun n => !(!(G.cell n).d_alive || (G.cell c).like (G.cell n)))
      = (fun n => (G.cell n).d_alive && !(G.cell c).like (G.cell n)) := by
    funext m
    cases (G.cell m).d_alive <;> cases (G.cell c).like (G.cell m) <;> rfl
  unfold Cell.fight
  rw [hp, hn]

/-! ## C13: the combat rule -/

/-- C13: when a step reaches the combat loop (age left, no starvation, the test against
`horny` fails, the test against `aggro` passes) and `n` is the first neighbour in scan
order that is alive and fails the kinship test, then with `attack` the remaining age
times `aggro` (for the stepping cell the age it has after ageing) the step enqueues the
death of `n` attributed to the cell when the cell's attack is higher, the death of the
cell attributed to `n` when it is lower, and nothing when they are equal; it enqueues no
revival request and writes nothing else. -/
theorem C13_combat_rule (RAND_MAX : Nat) (G : CellGrid) (c : Nat) (r : Draws) (n : Nat)
    (hage : 0 < (G.cell c).d_age) (hst : Cell.starving G c = false)
    (hh : ¬ roll RAND_MAX r.horny (G.cell c).horny = true)
    (ha : roll RAND_MAX r.aggro (G.cell c).aggro = true)
    (hn : (random_shuffle r.shuffle (G.cell c).d_neighbours).find?
      (fun n => (G.cell n).d_alive && !(G.cell c).like (G.cell n)) = some n) :
    ((Cell.aged G c r).cell c).attack = (((G.cell c).d_age - 1 : Int) : ℚ) * (G.cell c).aggro ∧
    (n ≠ c → ((Cell.aged G c r).cell n).attack = ((G.cell n).d_age : ℚ) * (G.cell n).aggro) ∧
    (Cell.step RAND_MAX G c r).d_revive_queue = G.d_revive_queue ∧
    (Cell.step RAND_MAX G c r).d_death_queue = G.d_death_queue ++
      (if ((Cell.aged G c r).cell c).attack > ((Cell.aged G c r).cell n).attack then [⟨n, c⟩]
       else if ((Cell.aged G c r).cell c).attack < ((Cell.aged G c r).cell n).attack then
         [⟨c, n⟩]
       else []) ∧
    (Cell.step RAND_MAX G c r).d_cells = (Cell.aged G c r).d_cells := by
  have hc := lt_length_of_age_pos G c hage
  have hfind : ((Cell.aged G c r).cell c).d_neighbours.find?
      (fun n => ((Cell.aged G c r).cell n).d_alive &&
        !((Cell.aged G c r).cell c).like ((Cell.aged G c r).cell n)) = some n := by
    have hp : (fun n => ((Cell.aged G c r).cell n).d_alive &&
        !((Cell.aged G c r).cell c).like ((Cell.aged G c r).cell n))
        = (fun n => (G.cell n).d_alive && !(G.cell c).like (G.cell n)) := by
      funext m
      rw [(aged_traits G c r m).1, aged_like]
    rw [hp, aged_cell G c r hc]
    exact hn
  have hstep : Cell.step RAND_MAX G c r = Cell.fight (Cell.aged G c r) c := by
    rw [step_of_age_pos RAND_MAX G c r hage, hst]
    simp only [Bool.false_eq_true, if_false, hh, ha, if_true]
  rw [hstep, fight_of_first (Cell.aged G c r) c n hfind]
  refine ⟨?_, ?_, ?_, ?_, ?_⟩
  · rw [aged_cell G c r hc]; rfl
  · intro hne
    have : (Cell.aged G c r).cell n = G.cell n := by
      unfold Cell.aged
      exact cell_setCell_ne G c n _ (Ne.symm hne)
    rw [this]; rfl
  · split
    · rfl
    · split <;> rfl
  · split
    · rfl
    · split
      · rfl
      · simp; rfl
  · split
    · rfl
    · split <;> rfl

/-- C13 at `exDuel`: the cell at 0 attacks the cell at 1. -/
theorem C13_witness :
    (Cell.step 32767 exDuel 0 drawsFight).d_revive_queue = exDuel.d_revive_queue :=
  (C13_combat_rule 32767 exDuel 0 drawsFight 1 (by with_unfolding_all decide)
    (by with_unfolding_all decide) (by with_unfolding_all decide)
    (by with_unfolding_all decide) (by with_unfolding_all decide)).2.2.1

/-! ## The map from genome to count -/

theorem populusGet_populusCount (m : List (Nat × Nat)) (k g : Nat) :
    populusGet (populusCount m k) g = populusGet m g + if k = g then 1 else 0 := by
  unfold populusCount
  split
  · rename_i p hp
    have hf : ((fun q : Nat × Nat => q.1 == g) ∘
        fun q : Nat × Nat => if (q.1 == k) = true then (q.1, q.2 + 1) else q)
        = fun q : Nat × Nat => q.1 == g := by
      funext q
      simp only [Function.comp]
      split <;> rfl
    unfold populusGet
    rw [List.find?_map, hf]
    by_cases hkg : k = g
    · subst hkg
      rw [hp]
      have hpk : (p.1 == k) = true := by
        have := List.find?_some hp
        simpa using this
      have hpk' : p.1 = k := beq_iff_eq.mp hpk
      simp [hpk']
    · cases hq : m.find? (fun q => q.1 == g) with
      | none => simp [hkg]
      | some q =>
        have hqg : (q.1 == g) = true := by
          have := List.find?_some hq
          simpa using this
        have hqk : ¬ (q.1 == k) = true := by
          intro h
          rw [beq_iff_eq] at h hqg
          exact hkg (h.symm.trans hqg)
        have hqk' : ¬ q.1 = k := fun h => hqk (beq_iff_eq.mpr h)
        simp [hkg, hqk']
  · rename_i hp
    unfold populusGet
    rw [List.find?_append]
    by_cases hkg : k = g
    · subst hkg
      rw [hp]
      simp
    · cases hq : m.find? (fun q => q.1 == g) with
      | none => simp [hkg]
      | some q => simp [hkg]

theorem populusCount_pos (m : List (Nat × Nat)) (k : Nat) (h : ∀ p ∈ m, 1 ≤ p.2) :
    ∀ p ∈ populusCount m k, 1 ≤ p.2 := by
  unfold populusCount
  split
  · intro p hp
    obtain ⟨q, hq, rfl⟩ := List.mem_map.mp hp
    have := h q hq
    split
    · simp
    · exact this
  · intro p hp
    rcases List.mem_append.mp hp with hp | hp
    · exact h p hp
    · rw [List.mem_singleton] at hp
      subst hp
      exact Nat.le_refl 1

theorem populusGet_pos_iff (m : List (Nat × Nat)) (g : Nat) (h : ∀ p ∈ m, 1 ≤ p.2) :
    0 < populusGet m g ↔ ∃ p ∈ m, p.1 = g := by
  unfold populusGet
  constructor
  · intro hpos
    cases hq : m.find? (fun q => q.1 == g) with
    | none => rw [hq] at hpos; exact absurd hpos (by simp)
    | some q =>
      have hqg : (q.1 == g) = true := by
        have := List.find?_some hq
        simpa using this
      exact ⟨q, List.mem_of_find?_eq_some hq, beq_iff_eq.mp hqg⟩
  · rintro ⟨p, hp, hpg⟩
    cases hq : m.find? (fun q => q.1 == g) with
    | none =>
      rw [List.find?_eq_none] at hq
      exact absurd (by simpa using hpg) (hq p hp)
    | some q =>
      simp only []
      exact h q (List.mem_of_find?_eq_some hq)

theorem step_populus (RAND_MAX : Nat) (G : CellGrid) (c : Nat) (r : Draws) :
    (Cell.step RAND_MAX G c r).d_populus = G.d_populus :=
  (step_frame RAND_MAX G c r).1.2.2.1

/-- The loop over `step_cells` adds one to the count of the genome each visited cell
has after its step. -/
theorem stepCells_populus (RAND_MAX : Nat) (draws : Nat → Draws) (l : List Nat) :
    ∀ S : CellGrid, l.Nodup →
    (∀ g, populusGet (CellGrid.stepCells RAND_MAX draws l S).d_populus g =
      populusGet S.d_populus g +
        l.countP (fun c => ((CellGrid.stepCells RAND_MAX draws l S).cell c).d_genome == g)) ∧
    ((∀ p ∈ S.d_populus, 1 ≤ p.2) →
      ∀ p ∈ (CellGrid.stepCells RAND_MAX draws l S).d_populus, 1 ≤ p.2) := by
  induction l with
  | nil =>
    intro S _
    exact ⟨fun g => by simp [stepCells_nil], fun h => h⟩
  | cons c l ih =>
    intro S hnd
    rw [stepCells_cons]
    obtain ⟨hc, hl⟩ := List.nodup_cons.mp hnd
    have e1 : ({ Cell.step RAND_MAX S c (draws c) with
        d_populus := populusCount (Cell.step RAND_MAX S c (draws c)).d_populus
          ((Cell.step RAND_MAX S c (draws c)).cell c).d_genome } : CellGrid).d_populus
        = populusCount S.d_populus
          (({ Cell.step RAND_MAX S c (draws c) with
            d_populus := populusCount (Cell.step RAND_MAX S c (draws c)).d_populus
              ((Cell.step RAND_MAX S c (draws c)).cell c).d_genome } : CellGrid).cell c).d_genome := by
      show populusCount (Cell.step RAND_MAX S c (draws c)).d_populus _ = _
      rw [step_populus]
      rfl
    generalize ({ Cell.step RAND_MAX S c (draws c) with
        d_populus := populusCount (Cell.step RAND_MAX S c (draws c)).d_populus
          ((Cell.step RAND_MAX S c (draws c)).cell c).d_genome } : CellGrid) = S1 at e1 ⊢
    obtain ⟨h1, h2⟩ := ih S1 hl
    have hkeep := (stepCells_frame RAND_MAX draws l S1).2.1 c hc
    constructor
    · intro g
      rw [h1 g, List.countP_cons, hkeep, e1, populusGet_populusCount]
      by_cases hg : (S1.cell c).d_genome = g
      · simp [hg]; omega
      · simp [hg]
    · intro hS
      apply h2
      rw [e1]
      exact populusCount_pos _ _ hS

theorem map_getD_range {α : Type} (l : List α) (d : α) :
    (List.range l.length).map (fun i => l.getD i d) = l := by
  apply List.ext_getElem
  · simp
  · intro i h1 h2
    simp [List.getD_eq_getElem?_getD, List.getElem?_eq_getElem h2]

theorem countP_cells (G : CellGrid) (p : Cell → Bool) :
    (List.range G.d_cells.length).countP (fun c => p (G.cell c)) = G.d_cells.countP p := by
  have h := map_getD_range G.d_cells default
  have : (fun c => p (G.cell c)) = p ∘ (fun i => G.d_cells.getD i default) := rfl
  rw [this, ← List.countP_map, h]

/-! ## C15: the population histogram -/

/-- C15, amended: after a generation that visits every cell once, the count stored for a
genome `g` equals the number of cells, dead or alive, that have the genome `g` at the
pre-commit instant (zero when `g` is absent); `g` is a key of the map exactly when some
cell has it; and counting a genome adds one to its count, which makes a genome seen for
the first time have count 1. -/
theorem C15_population_histogram (RAND_MAX : Nat) (G : CellGrid) (step_cells : List Nat)
    (draws : Nat → Draws) (hp : step_cells.Perm (List.range G.d_cells.length)) (g : Nat) :
    populusGet (G.generation RAND_MAX step_cells draws).d_populus g =
      (CellGrid.stepCells RAND_MAX draws step_cells { G with d_populus := [] }).d_cells.countP
        (fun c => c.d_genome == g) ∧
    ((∃ p ∈ (G.generation RAND_MAX step_cells draws).d_populus, p.1 = g) ↔
      0 < (CellGrid.stepCells RAND_MAX draws step_cells
        { G with d_populus := [] }).d_cells.countP (fun c => c.d_genome == g)) ∧
    (∀ (m : List (Nat × Nat)) (k : Nat),
      populusGet (populusCount m k) k = populusGet m k + 1) := by
  have hnd : step_cells.Nodup := hp.nodup_iff.mpr (List.nodup_range _)
  obtain ⟨h1, h2⟩ := stepCells_populus RAND_MAX draws step_cells { G with d_populus := [] } hnd
  have hpop : (G.generation RAND_MAX step_cells draws).d_populus
      = (CellGrid.stepCells RAND_MAX draws step_cells { G with d_populus := [] }).d_populus := by
    unfold CellGrid.generation
    rw [process_requests_eq]
  have hlen : (CellGrid.stepCells RAND_MAX draws step_cells
      { G with d_populus := [] }).d_cells.length = G.d_cells.length :=
    (stepCells_frame RAND_MAX draws step_cells _).1
  have hcount : populusGet (G.generation RAND_MAX step_cells draws).d_populus g =
      (CellGrid.stepCells RAND_MAX draws step_cells { G with d_populus := [] }).d_cells.countP
        (fun c => c.d_genome == g) := by
    rw [hpop, h1 g]
    have h0 : populusGet ({ G with d_populus := [] } : CellGrid).d_populus g = 0 := rfl
    rw [h0, Nat.zero_add, hp.countP_eq, ← hlen]
    exact countP_cells _ (fun c => c.d_genome == g)
  refine ⟨hcount, ?_, ?_⟩
  · rw [← hcount, hpop]
    exact (populusGet_pos_iff _ g (h2 (by intro p hp; simp at hp))).symm
  · intro m k
    rw [populusGet_populusCount, if_pos rfl]

/-- C15, as stated, fails: in `exDuel` no alive cell has genome 0, before or after the
steps, and the count stored for 0 after a generation is 7, the number of dead cells
with genome 0. -/
theorem C15_counterexample :
    populusGet (exDuel.generation 32767 (List.range 9) (fun _ => drawsIdle)).d_populus 0 = 7 ∧
    (CellGrid.stepCells 32767 (fun _ => drawsIdle) (List.range 9)
      { exDuel with d_populus := [] }).d_cells.countP
        (fun c => c.d_alive && c.d_genome == 0) = 0 ∧
    exDuel.d_cells.countP (fun c => c.d_alive && c.d_genome == 0) = 0 := by
  refine ⟨by with_unfolding_all decide, by with_unfolding_all decide,
    by with_unfolding_all decide⟩

/-- C15, amended, at `exZero`: nine cells with genome 0 give the map `{0: 9}`. -/
theorem C15_witness :
    (exZero.generation 32767 (List.range 9) (fun _ => drawsIdle)).d_populus = [(0, 9)] ∧
    populusGet (exZero.generation 32767 (List.range 9) (fun _ => drawsIdle)).d_populus 0 =
      (CellGrid.stepCells 32767 (fun _ => drawsIdle) (List.range 9)
        { exZero with d_populus := [] }).d_cells.countP (fun c => c.d_genome == 0) :=
  ⟨by with_unfolding_all decide,
    (C15_population_histogram 32767 exZero (List.range 9) (fun _ => drawsIdle)
      (by have h : exZero.d_cells.length = 9 := by decide
          rw [h]) 0).1⟩

/-! ## States that differ in one alive flag -/

theorem twinOf_refl (v : Cell) : Cell.TwinOf v v := rfl

theorem twinOf_fields {v w : Cell} (h : Cell.TwinOf v w) :
    w.d_x = v.d_x ∧ w.d_y = v.d_y ∧ w.d_genome = v.d_genome ∧ w.d_age = v.d_age ∧
    w.hunger = v.hunger ∧ w.horny = v.horny ∧ w.aggro = v.aggro ∧ w.mutate = v.mutate ∧
    w.d_neighbours = v.d_neighbours := by
  unfold Cell.TwinOf at h
  rw [← h]
  exact ⟨rfl, rfl, rfl, rfl, rfl, rfl, rfl, rfl, rfl⟩

theorem twin_cell (C : Nat) {A B : CellGrid} (h : CellGrid.Twin C A B) (j : Nat) :
    Cell.TwinOf (A.cell j) (B.cell j) := by
  by_cases hj : j = C
  · subst hj; exact h.2.2.2.2.2.2
  · rw [h.2.2.2.2.2.1 j hj]; exact twinOf_refl _

theorem twin_setCell (C : Nat) {A B : CellGrid} (h : CellGrid.Twin C A B) (v w : Cell)
    (hvw : Cell.TwinOf v w) : CellGrid.Twin C (A.setCell C v) (B.setCell C w) := by
  obtain ⟨h1, h2, h3, h4, h5, h6, h7⟩ := h
  refine ⟨by rw [length_setCell, length_setCell, h1], h2, h3, h4, h5, ?_, ?_⟩
  · intro j hj
    rw [cell_setCell_ne _ _ _ _ (Ne.symm hj), cell_setCell_ne _ _ _ _ (Ne.symm hj)]
    exact h6 j hj
  · rw [cell_setCell, cell_setCell, h1]
    by_cases hc : C < A.d_cells.length
    · simp only [hc, and_self, if_true]; exact hvw
    · simp only [hc, and_false, if_false]; exact h7

theorem twin_request_death (C : Nat) {A B : CellGrid} (h : CellGrid.Twin C A B) (t k : Nat) :
    CellGrid.Twin C (A.request_death t k) (B.request_death t k) := by
  obtain ⟨h1, h2, h3, h4, h5, h6, h7⟩ := h
  exact ⟨h1, h2, h3, h4, by simp only [CellGrid.request_death, h5], h6, h7⟩

theorem twin_request_revive (C : Nat) {A B : CellGrid} (h : CellGrid.Twin C A B)
    (t g m : Nat) :
    CellGrid.Twin C (A.request_revive t g m) (B.request_revive t g m) := by
  obtain ⟨h1, h2, h3, h4, h5, h6, h7⟩ := h
  exact ⟨h1, h2, h3, by simp only [CellGrid.request_revive, h4], h5, h6, h7⟩

theorem twin_like (C : Nat) {A B : CellGrid} (h : CellGrid.Twin C A B) (m n : Nat) :
    (B.cell m).like (B.cell n) = (A.cell m).like (A.cell n) :=
  like_congr (twinOf_fields (twin_cell C h m)).2.2.1
    (twinOf_fields (twin_cell C h m)).2.2.2.2.2.2.2.1
    (twinOf_fields (twin_cell C h n)).2.2.1

theorem twin_attack (C : Nat) {A B : CellGrid} (h : CellGrid.Twin C A B) (n : Nat) :
    (B.cell n).attack = (A.cell n).attack := by
  unfold Cell.attack
  rw [(twinOf_fields (twin_cell C h n)).2.2.2.1,
    (twinOf_fields (twin_cell C h n)).2.2.2.2.2.2.1]

theorem twin_mateLoop (C m : Nat) : ∀ (k : Nat) (A B : CellGrid), CellGrid.Twin C A B →
    CellGrid.Twin C (mateLoop C m k A) (mateLoop C m k B) := by
  induction m with
  | zero => intro k A B h; exact h
  | succ m ih =>
    intro k A B h
    rw [mateLoop, mateLoop, (twinOf_fields (twin_cell C h C)).2.2.2.2.2.2.2.2]
    cases hn : (A.cell C).d_neighbours[k]? with
    | none => exact h
    | some n =>
      simp only []
      rw [twin_like C h C n]
      by_cases hl : (A.cell C).like (A.cell n) = true
      · simp only [hl, if_true]
        exact ih (k + 1) _ _ (twin_setCell C h _ _ (twin_cell C h n))
      · simp only [hl]
        exact ih (k + 1) _ _ h

theorem find?_congr_on {α : Type} (p q : α → Bool) (l : List α)
    (h : ∀ x ∈ l, p x = q x) : l.find? p = l.find? q := by
  induction l with
  | nil => rfl
  | cons x l ih =>
    rw [List.find?_cons, List.find?_cons, h x (List.mem_cons_self x l),
      ih (fun y hy => h y (List.mem_cons_of_mem x hy))]

theorem hungerLoop_congr_on (G G' : CellGrid) (ns : List Nat)
    (h : ∀ n ∈ ns, (G'.cell n).d_alive = (G.cell n).d_alive ∧
      (G'.cell n).hunger = (G.cell n).hunger) :
    ∀ init, hungerLoop G' ns init = hungerLoop G ns init := by
  unfold hungerLoop
  induction ns with
  | nil => intro init; rfl
  | cons n ns ih =>
    intro init
    have hn := h n (List.mem_cons_self n ns)
    simp only [List.foldl_cons, hn.1, hn.2]
    exact ih (fun m hm => h m (List.mem_cons_of_mem n hm)) _

theorem twin_alive (C : Nat) {A B : CellGrid} (h : CellGrid.Twin C A B) (n : Nat)
    (hn : n ≠ C) : (B.cell n).d_alive = (A.cell n).d_alive := by
  rw [h.2.2.2.2.2.1 n hn]

theorem twin_starving (C : Nat) {A B : CellGrid} (h : CellGrid.Twin C A B)
    (hC : C ∉ (A.cell C).d_neighbours) : Cell.starving B C = Cell.starving A C := by
  unfold Cell.starving
  simp only []
  rw [(twinOf_fields (twin_cell C h C)).2.2.2.2.2.2.2.2,
    (twinOf_fields (twin_cell C h C)).2.2.2.2.1,
    hungerLoop_congr_on A B _ (fun n hn => by
      have hne : n ≠ C := fun e => hC (e ▸ hn)
      rw [h.2.2.2.2.2.1 n hne]
      exact ⟨rfl, rfl⟩)]

theorem twin_reproduce (RAND_MAX C : Nat) (r : Draws) {A B : CellGrid}
    (h : CellGrid.Twin C A B) (hC : C ∉ (A.cell C).d_neighbours) :
    CellGrid.Twin C (Cell.reproduce RAND_MAX A C r) (Cell.reproduce RAND_MAX B C r) := by
  have hfind : (B.cell C).d_neighbours.find? (fun n => !(B.cell n).d_alive)
      = (A.cell C).d_neighbours.find? (fun n => !(A.cell n).d_alive) := by
    rw [(twinOf_fields (twin_cell C h C)).2.2.2.2.2.2.2.2]
    apply find?_congr_on
    intro n hn
    rw [twin_alive C h n (fun e => hC (e ▸ hn))]
  unfold Cell.reproduce
  rw [hfind]
  cases (A.cell C).d_neighbours.find? (fun n => !(A.cell n).d_alive) with
  | none => exact h
  | some n =>
    simp only [ne_eq, not_true_eq_false, if_false]
    have hm := twin_mateLoop C (A.cell C).d_neighbours.length 0 A B h
    rw [(twinOf_fields (twin_cell C h C)).2.2.2.2.2.2.2.2,
      (twinOf_fields (twin_cell C h C)).2.2.1,
      (twinOf_fields (twin_cell C hm C)).2.2.2.2.2.2.2.1]
    exact twin_request_revive C hm _ _ _

theorem twin_fight (C : Nat) {A B : CellGrid} (h : CellGrid.Twin C A B)
    (hC : C ∉ (A.cell C).d_neighbours) :
    CellGrid.Twin C (Cell.fight A C) (Cell.fight B C) := by
  have hfind : (B.cell C).d_neighbours.find?
        (fun n => !(!(B.cell n).d_alive || (B.cell C).like (B.cell n)))
      = (A.cell C).d_neighbours.find?
        (fun n => !(!(A.cell n).d_alive || (A.cell C).like (A.cell n))) := by
    rw [(twinOf_fields (twin_cell C h C)).2.2.2.2.2.2.2.2]
    apply find?_congr_on
    intro n hn
    rw [twin_alive C h n (fun e => hC (e ▸ hn)), twin_like C h C n]
  unfold Cell.fight
  rw [hfind]
  cases (A.cell C).d_neighbours.find?
      (fun n => !(!(A.cell n).d_alive || (A.cell C).like (A.cell n))) with
  | none => exact h
  | some n =>
    simp only []
    rw [twin_attack C h C, twin_attack C h n]
    split
    · exact twin_request_death C h _ _
    · split
      · exact twin_request_death C h _ _
      · exact h

theorem twin_step (RAND_MAX C : Nat) (r : Draws) {A B : CellGrid}
    (h : CellGrid.Twin C A B) (hC : C ∉ (A.cell C).d_neighbours) :
    CellGrid.Twin C (Cell.step RAND_MAX A C r) (Cell.step RAND_MAX B C r) := by
  have h1 : CellGrid.Twin C (Cell.shuffleNeighbours A C r) (Cell.shuffleNeighbours B C r) := by
    unfold Cell.shuffleNeighbours
    apply twin_setCell C h
    have := twin_cell C h C
    unfold Cell.TwinOf at this ⊢
    rw [← this]
  have hm1 : C ∉ ((Cell.shuffleNeighbours A C r).cell C).d_neighbours := by
    unfold Cell.shuffleNeighbours
    rw [cell_setCell]
    split
    · exact fun hx => hC ((random_shuffle_perm _ _).mem_iff.mp hx)
    · exact hC
  unfold Cell.step
  simp only []
  generalize Cell.shuffleNeighbours A C r = A1 at h1 hm1 ⊢
  generalize Cell.shuffleNeighbours B C r = B1 at h1 ⊢
  rw [(twinOf_fields (twin_cell C h1 C)).2.2.2.1]
  split
  · exact twin_request_death C h1 _ _
  · have h2 : CellGrid.Twin C
        (A1.setCell C { A1.cell C with d_age := (A1.cell C).d_age - 1 })
        (B1.setCell C { B1.cell C with d_age := (A1.cell C).d_age - 1 }) := by
      apply twin_setCell C h1
      have := twin_cell C h1 C
      unfold Cell.TwinOf at this ⊢
      rw [← this]
    have hm2 : C ∉ ((A1.setCell C { A1.cell C with d_age := (A1.cell C).d_age - 1 }).cell
        C).d_neighbours := by
      rw [cell_setCell]
      split
      · exact hm1
      · exact hm1
    generalize A1.setCell C { A1.cell C with d_age := (A1.cell C).d_age - 1 } = A2 at h2 hm2 ⊢
    generalize B1.setCell C { B1.cell C with d_age := (A1.cell C).d_age - 1 } = B2 at h2 ⊢
    rw [twin_starving C h2 hm2, (twinOf_fields (twin_cell C h2 C)).2.2.2.2.2.1,
      (twinOf_fields (twin_cell C h2 C)).2.2.2.2.2.2.1]
    split
    · exact twin_request_death C h2 _ _
    · split
      · exact twin_reproduce RAND_MAX C r h2 hm2
      · split
        · exact twin_fight C h2 hm2
        · exact h2

theorem twin_setAlive (G : CellGrid) (C : Nat) (b : Bool) :
    CellGrid.Twin C G (G.setCell C { G.cell C with d_alive := b }) := by
  refine ⟨length_setCell _ _ _, rfl, rfl, rfl, rfl, ?_, ?_⟩
  · intro j hj
    exact cell_setCell_ne G C j _ (Ne.symm hj)
  · rw [cell_setCell]
    split
    · rfl
    · rfl

/-! ## C19: the alive flag of the stepping cell -/

/-- C19, amended: for two grid states that differ only in the alive flag of the cell at
`C`, where `C` does not occur in its own neighbour list, and the same draws, the step of
`C` enqueues the same requests and leaves `C` with the same age.  One generation counts
every cell, dead or alive, in the map.  A dead cell with age left can enqueue a revival
(`exGhostBreeder`) and a combat death (`exGhostFighter`). -/
theorem C19_step_ignores_own_alive_flag (RAND_MAX : Nat) (G : CellGrid) (C : Nat)
    (r : Draws) (b : Bool) (hC : C ∉ (G.cell C).d_neighbours) :
    (Cell.step RAND_MAX (G.setAlive C b) C r).d_revive_queue
      = (Cell.step RAND_MAX G C r).d_revive_queue ∧
    (Cell.step RAND_MAX (G.setAlive C b) C r).d_death_queue
      = (Cell.step RAND_MAX G C r).d_death_queue ∧
    ((Cell.step RAND_MAX (G.setAlive C b) C r).cell C).d_age
      = ((Cell.step RAND_MAX G C r).cell C).d_age ∧
    (∀ (step_cells : List Nat) (draws : Nat → Draws),
      step_cells.Perm (List.range G.d_cells.length) → ∀ c, c < G.d_cells.length →
      0 < populusGet (G.generation RAND_MAX step_cells draws).d_populus
        ((CellGrid.stepCells RAND_MAX draws step_cells { G with d_populus := [] }).cell
          c).d_genome) ∧
    ((exGhostBreeder.cell 0).d_alive = false ∧ 0 < (exGhostBreeder.cell 0).d_age ∧
      (Cell.step 32767 exGhostBreeder 0 drawsBreed).d_revive_queue = [⟨2, 4066, 0⟩]) ∧
    ((exGhostFighter.cell 0).d_alive = false ∧ 0 < (exGhostFighter.cell 0).d_age ∧
      (Cell.step 32767 exGhostFighter 0 drawsFight).d_death_queue = [⟨1, 0⟩]) := by
  have ht := twin_step RAND_MAX C r (twin_setAlive G C b) hC
  refine ⟨ht.2.2.2.1, ht.2.2.2.2.1, (twinOf_fields (twin_cell C ht C)).2.2.2.1, ?_, ?_, ?_⟩
  · intro l draws hp c hc
    have hnd : l.Nodup := hp.nodup_iff.mpr (List.nodup_range _)
    have hpop : (G.generation RAND_MAX l draws).d_populus
        = (CellGrid.stepCells RAND_MAX draws l { G with d_populus := [] }).d_populus := by
      unfold CellGrid.generation
      rw [process_requests_eq]
    rw [hpop, (stepCells_populus RAND_MAX draws l { G with d_populus := [] } hnd).1]
    apply Nat.lt_of_lt_of_le _ (Nat.le_add_left _ _)
    rw [List.countP_pos_iff]
    exact ⟨c, hp.mem_iff.mpr (List.mem_range.mpr hc), by simp⟩
  · exact ⟨by with_unfolding_all decide, by with_unfolding_all decide,
      by with_unfolding_all rfl⟩
  · exact ⟨by with_unfolding_all decide, by with_unfolding_all decide,
      by with_unfolding_all rfl⟩

/-- C19, as stated, fails: in `exSelf` the cell is its own neighbour.  Alive, it finds
no free spot and enqueues nothing; with only its alive flag changed it finds itself as
the free spot and enqueues its own revival. -/
theorem C19_counterexample :
    (exSelf.cell 0).d_neighbours = [0, 0, 0, 0, 0, 0, 0, 0] ∧
    (exSelf.cell 0).d_alive = true ∧
    (Cell.step 32767 exSelf 0 drawsBreed).d_revive_queue = [] ∧
    (Cell.step 32767 exSelf 0 drawsBreed).d_death_queue = [] ∧
    ((exSelf.setAlive 0 false).cell 0).d_alive = false ∧
    (Cell.step 32767 (exSelf.setAlive 0 false) 0 drawsBreed).d_revive_queue
      = [⟨0, 4066, 0⟩] := by
  refine ⟨by with_unfolding_all decide, by with_unfolding_all decide,
    by with_unfolding_all rfl, by with_unfolding_all rfl, by with_unfolding_all decide,
    by with_unfolding_all rfl⟩

/-- C19, amended, at `exTwins` and the cell at 0. -/
theorem C19_witness :
    (Cell.step 32767 (exTwins.setAlive 0 false) 0 drawsBreed).d_revive_queue
      = (Cell.step 32767 exTwins 0 drawsBreed).d_revive_queue :=
  (C19_step_ignores_own_alive_flag 32767 exTwins 0 drawsBreed false
    (by with_unfolding_all decide)).1

/-! ## C12: a lone cell clones itself -/

/-- The hunger loop over dead cells returns its start value. -/
theorem hungerLoop_of_dead (G : CellGrid) (ns : List Nat)
    (h : ∀ n ∈ ns, (G.cell n).d_alive = false) (init : ℚ × Nat) :
    hungerLoop G ns init = init := by
  unfold hungerLoop
  induction ns with
  | nil => rfl
  | cons n ns ih =>
    rw [List.foldl_cons]
    simp only [h n (List.mem_cons_self n ns), Bool.false_eq_true, if_false]
    exact ih (fun m hm => h m (List.mem_cons_of_mem n hm))

/-- A cell without alive neighbour does not starve. -/
theorem starving_of_no_alive (G : CellGrid) (c : Nat)
    (h : ∀ n ∈ (G.cell c).d_neighbours, (G.cell n).d_alive = false) :
    Cell.starving G c = false := by
  unfold Cell.starving
  simp only [hungerLoop_of_dead G _ h]
  rw [decide_eq_false_iff_not]
  rintro ⟨_, h2⟩
  simp at h2

/-- A search whose test holds for every entry returns the first entry. -/
theorem find?_of_all {α : Type} (p : α → Bool) (l : List α) (h : ∀ x ∈ l, p x = true) :
    l.find? p = l.head? := by
  cases l with
  | nil => rfl
  | cons x l => rw [List.find?_cons, h x (List.mem_cons_self x l)]; rfl

/-- The step of a cell with age left, dead neighbours only and none that passes the
kinship test, whose test against `horny` passes and whose test against `mutate` fails:
it ages and enqueues the revival of the first neighbour in scan order with its own
genome. -/
theorem step_breed (RAND_MAX : Nat) (S : CellGrid) (P D : Nat) (r : Draws)
    (hage : 0 < (S.cell P).d_age)
    (hdead : ∀ n ∈ (S.cell P).d_neighbours, (S.cell n).d_alive = false)
    (hlike : ∀ n ∈ (S.cell P).d_neighbours, (S.cell P).like (S.cell n) = false)
    (hh : roll RAND_MAX r.horny (S.cell P).horny = true)
    (hm : ¬ roll RAND_MAX r.mutate (S.cell P).mutate = true)
    (hD : (random_shuffle r.shuffle (S.cell P).d_neighbours).head? = some D) :
    Cell.step RAND_MAX S P r = (Cell.aged S P r).request_revive D (S.cell P).d_genome P := by
  have hc := lt_length_of_age_pos S P hage
  rw [step_of_age_pos RAND_MAX S P r hage, starving_of_no_alive S P hdead]
  simp only [Bool.false_eq_true, if_false, hh, if_true]
  have hfind : ((Cell.aged S P r).cell P).d_neighbours.find?
      (fun n => !((Cell.aged S P r).cell n).d_alive) = some D := by
    rw [find?_of_all]
    · rw [aged_cell S P r hc]; exact hD
    · intro n hn
      rw [mem_aged_neighbours S P r hc] at hn
      rw [(aged_traits S P r n).1, hdead n hn]; rfl
  have hno : ∀ n ∈ ((Cell.aged S P r).cell P).d_neighbours,
      ((Cell.aged S P r).cell P).like ((Cell.aged S P r).cell n) = false := by
    intro n hn
    rw [mem_aged_neighbours S P r hc] at hn
    rw [aged_like]; exact hlike n hn
  rw [reproduce_of_no_like RAND_MAX _ P D r hfind hno,
    (aged_traits S P r P).2.2.2.2.2.1, (aged_traits S P r P).2.2.1, if_neg hm]

/-- A quiet step keeps the alive flag, the genome, `mutate` and `horny`. -/
theorem afterQuiet_fields (G : CellGrid) (c : Nat) (r : Draws) :
    (Cell.afterQuiet G c r).d_alive = (G.cell c).d_alive ∧
    (Cell.afterQuiet G c r).d_genome = (G.cell c).d_genome ∧
    (Cell.afterQuiet G c r).mutate = (G.cell c).mutate ∧
    (Cell.afterQuiet G c r).horny = (G.cell c).horny := by
  unfold Cell.afterQuiet
  split <;> exact ⟨rfl, rfl, rfl, rfl⟩

/-- A run of quiet steps keeps the alive flag, the genome, `mutate` and `horny` of every
cell. -/
theorem quietRun_fields {draws : Nat → Draws} {G S : CellGrid} {done : List Nat}
    (h : QuietRun draws G S done) (n : Nat) :
    (S.cell n).d_alive = (G.cell n).d_alive ∧ (S.cell n).d_genome = (G.cell n).d_genome ∧
    (S.cell n).mutate = (G.cell n).mutate ∧ (S.cell n).horny = (G.cell n).horny := by
  rw [h.2.1 n]
  split
  · exact afterQuiet_fields G n (draws n)
  · exact ⟨rfl, rfl, rfl, rfl⟩

/-- A cell with age left and dead neighbours only does not request its own death. -/
theorem dies_of_breeder (G : CellGrid) (P : Nat) (hage : 0 < (G.cell P).d_age)
    (hdead : ∀ n ∈ (G.cell P).d_neighbours, (G.cell n).d_alive = false) :
    Cell.dies G P = false := by
  unfold Cell.dies
  rw [starving_of_no_alive G P hdead, decide_eq_false (not_le.mpr hage)]
  rfl

/-- After quiet steps of the cells in `pre`, the step of the cloning cell `P` gives the
state that quiet steps of `P :: pre` reach from the grid with the revival request
appended. -/
theorem quietRun_breed (RAND_MAX : Nat) (draws : Nat → Draws) (G S : CellGrid)
    (pre : List Nat) (P D : Nat) (hr : QuietRun draws G S pre) (hP : P ∉ pre)
    (hage : 0 < (G.cell P).d_age)
    (hdead : ∀ n ∈ (G.cell P).d_neighbours, (G.cell n).d_alive = false)
    (hlike : ∀ n ∈ (G.cell P).d_neighbours, (G.cell P).like (G.cell n) = false)
    (hh : roll RAND_MAX (draws P).horny (G.cell P).horny = true)
    (hm : ¬ roll RAND_MAX (draws P).mutate (G.cell P).mutate = true)
    (hD : (random_shuffle (draws P).shuffle (G.cell P).d_neighbours).head? = some D) :
    QuietRun draws
      { G with d_revive_queue := G.d_revive_queue ++ [⟨D, (G.cell P).d_genome, P⟩] }
      { Cell.step RAND_MAX S P (draws P) with
        d_populus := populusCount (Cell.step RAND_MAX S P (draws P)).d_populus
          ((Cell.step RAND_MAX S P (draws P)).cell P).d_genome }
      (P :: pre) := by
  obtain ⟨h1, h2, h3, h4⟩ := hr
  have hSP : S.cell P = G.cell P := by rw [h2 P, if_neg hP]
  have hlt : P < S.d_cells.length := by
    rw [h1]; exact lt_length_of_age_pos G P hage
  have hf := fun n => quietRun_fields (⟨h1, h2, h3, h4⟩ : QuietRun draws G S pre) n
  have hstep := step_breed RAND_MAX S P D (draws P) (by rw [hSP]; exact hage)
    (by rw [hSP]; intro n hn; rw [(hf n).1]; exact hdead n hn)
    (by
      rw [hSP]; intro n hn
      rw [like_congr rfl rfl (hf n).2.1]
      exact hlike n hn)
    (by rw [hSP]; exact hh) (by rw [hSP]; exact hm) (by rw [hSP]; exact hD)
  rw [hSP] at hstep
  have haged : Cell.aged S P (draws P) = S.setCell P (Cell.afterQuiet G P (draws P)) := by
    unfold Cell.aged Cell.afterQuiet
    rw [hSP, if_neg (not_le.mpr hage)]
  rw [haged] at hstep
  have hcell : ∀ j, (Cell.step RAND_MAX S P (draws P)).cell j =
      if j ∈ P :: pre then Cell.afterQuiet G j (draws j) else G.cell j := by
    intro j
    have : (Cell.step RAND_MAX S P (draws P)).cell j
        = (S.setCell P (Cell.afterQuiet G P (draws P))).cell j := by rw [hstep]; rfl
    rw [this, cell_setCell]
    by_cases hj : P = j
    · subst hj
      simp only [hlt, and_self, if_true, List.mem_cons, true_or]
    · have hj' : ¬ j = P := fun h => hj h.symm
      simp only [hj, false_and, if_false, h2 j, List.mem_cons, hj', false_or]
  refine ⟨?_, hcell, ?_, ?_⟩
  · show (Cell.step RAND_MAX S P (draws P)).d_cells.length = G.d_cells.length
    rw [(step_frame RAND_MAX S P (draws P)).1.1, h1]
  · show (Cell.step RAND_MAX S P (draws P)).d_revive_queue = _
    rw [hstep, revive_queue_request_revive]
    show S.d_revive_queue ++ _ = _
    rw [h3]
  · intro X
    show (∃ d ∈ (Cell.step RAND_MAX S P (draws P)).d_death_queue, d.target = X) ↔
      ((∃ d ∈ G.d_death_queue, d.target = X) ∨ (X ∈ P :: pre ∧ Cell.dies G X = true))
    have : (Cell.step RAND_MAX S P (draws P)).d_death_queue = S.d_death_queue := by
      rw [hstep]; rfl
    rw [this, h4 X]
    have hnd := dies_of_breeder G P hage hdead
    constructor
    · rintro (h | ⟨hmem, hX⟩)
      · exact Or.inl h
      · exact Or.inr ⟨List.mem_cons_of_mem P hmem, hX⟩
    · rintro (h | ⟨hmem, hX⟩)
      · exact Or.inl h
      · rcases List.mem_cons.mp hmem with rfl | hmem
        · rw [hnd] at hX; exact absurd hX (by decide)
        · exact Or.inr ⟨hmem, hX⟩

/-- C12, amended: in a grid with empty queues let the cell at `P` be alive with age
`a > 0` and genome `g`, with 8 neighbours that are cells of the grid, all dead and none
passing the kinship test of `P`; let the test of `P` against `horny` pass and its test
against `mutate` fail, and let the step of every other cell, dead or alive, be quiet.
After one generation the neighbour `D` that is first in the shuffled list of `P` has
genome `g` and the traits decoded from `g`; `D` is alive exactly when it did not request
its own death in the same generation (deaths are applied after revivals); every other
neighbour of `P` is still dead; the age of `P` is `a - 1`.  So when `D` did not request
its own death, exactly one neighbour of `P` is alive. -/
theorem C12_asexual_reproduction (RAND_MAX : Nat) (G : CellGrid) (draws : Nat → Draws)
    (step_cells : List Nat) (P : Nat)
    (hq0 : G.d_revive_queue = []) (hd0 : G.d_death_queue = [])
    (hp : step_cells.Perm (List.range G.d_cells.length))
    (halive : (G.cell P).d_alive = true) (hage : 0 < (G.cell P).d_age)
    (hlen : (G.cell P).d_neighbours.length = 8)
    (hvalid : ∀ n ∈ (G.cell P).d_neighbours, n < G.d_cells.length)
    (hdead : ∀ n ∈ (G.cell P).d_neighbours, (G.cell n).d_alive = false)
    (hlike : ∀ n ∈ (G.cell P).d_neighbours, (G.cell P).like (G.cell n) = false)
    (hh : roll RAND_MAX (draws P).horny (G.cell P).horny = true)
    (hm : ¬ roll RAND_MAX (draws P).mutate (G.cell P).mutate = true)
    (hquiet : ∀ c, c < G.d_cells.length → c ≠ P → Cell.quiet RAND_MAX G c (draws c)) :
    ∃ D, (random_shuffle (draws P).shuffle (G.cell P).d_neighbours).head? = some D ∧
      D ∈ (G.cell P).d_neighbours ∧
      ((G.generation RAND_MAX step_cells draws).cell D).d_genome = (G.cell P).d_genome ∧
      ((G.generation RAND_MAX step_cells draws).cell D).d_age
        = ((default : Cell).revive (G.cell P).d_genome).d_age ∧
      ((G.generation RAND_MAX step_cells draws).cell D).hunger
        = ((default : Cell).revive (G.cell P).d_genome).hunger ∧
      ((G.generation RAND_MAX step_cells draws).cell D).horny
        = ((default : Cell).revive (G.cell P).d_genome).horny ∧
      ((G.generation RAND_MAX step_cells draws).cell D).aggro
        = ((default : Cell).revive (G.cell P).d_genome).aggro ∧
      ((G.generation RAND_MAX step_cells draws).cell D).mutate
        = ((default : Cell).revive (G.cell P).d_genome).mutate ∧
      (((G.generation RAND_MAX step_cells draws).cell D).d_alive = true ↔
        Cell.dies G D = false) ∧
      (∀ n ∈ (G.cell P).d_neighbours, n ≠ D →
        ((G.generation RAND_MAX step_cells draws).cell n).d_alive = false) ∧
      ((G.generation RAND_MAX step_cells draws).cell P).d_age = (G.cell P).d_age - 1 ∧
      (Cell.dies G D = false → ∀ n ∈ (G.cell P).d_neighbours,
        (((G.generation RAND_MAX step_cells draws).cell n).d_alive = true ↔ n = D)) := by
  have hPlt : P < G.d_cells.length := lt_length_of_age_pos G P hage
  have hPmem : P ∈ step_cells := hp.mem_iff.mpr (List.mem_range.mpr hPlt)
  have hnd : step_cells.Nodup := hp.nodup_iff.mpr (List.nodup_range _)
  obtain ⟨pre, post, rfl⟩ := List.append_of_mem hPmem
  have hnd' := List.nodup_append.mp hnd
  obtain ⟨hndpre, hndPpost, hdisj⟩ := hnd'
  obtain ⟨hPpost, hndpost⟩ := List.nodup_cons.mp hndPpost
  have hPpre : P ∉ pre := fun h => hdisj h (List.mem_cons_self P post)
  have hmemlt : ∀ c, c ∈ pre ++ P :: post → c < G.d_cells.length :=
    fun c hc => List.mem_range.mp (hp.mem_iff.mp hc)
  -- the first entry of the shuffled neighbour list
  have hperm := random_shuffle_perm (G.cell P).d_neighbours (draws P).shuffle
  obtain ⟨D, hD⟩ : ∃ D, (random_shuffle (draws P).shuffle (G.cell P).d_neighbours).head?
      = some D := by
    have hl := hperm.length_eq
    rw [hlen] at hl
    cases hs : random_shuffle (draws P).shuffle (G.cell P).d_neighbours with
    | nil => rw [hs] at hl; simp at hl
    | cons x xs => exact ⟨x, rfl⟩
  have hDmem : D ∈ (G.cell P).d_neighbours :=
    hperm.mem_iff.mp (List.mem_of_mem_head? hD)
  have hDlt := hvalid D hDmem
  have hDP : D ≠ P := by
    intro e
    have := hdead D hDmem
    rw [e, halive] at this
    exact absurd this (by decide)
  -- the run up to the commit
  have run1 := quietRun_stepCells RAND_MAX draws G pre _ [] (quietRun_start draws G) hndpre
    (fun _ _ h => by simp at h)
    (fun c hc => ⟨hmemlt c (List.mem_append_left _ hc),
      hquiet c (hmemlt c (List.mem_append_left _ hc)) (fun e => hPpre (e ▸ hc))⟩)
  rw [List.append_nil] at run1
  have run2 := quietRun_breed RAND_MAX draws G _ pre P D run1 hPpre hage hdead hlike hh hm hD
  have run3 := quietRun_stepCells RAND_MAX draws
    { G with d_revive_queue := G.d_revive_queue ++ [⟨D, (G.cell P).d_genome, P⟩] }
    post _ (P :: pre) run2 hndpost
    (by
      intro c hc hcm
      rcases List.mem_cons.mp hcm with rfl | hcm
      · exact hPpost hc
      · exact hdisj hcm (List.mem_cons_of_mem P hc))
    (fun c hc => ⟨hmemlt c (List.mem_append_right _ (List.mem_cons_of_mem P hc)),
      hquiet c (hmemlt c (List.mem_append_right _ (List.mem_cons_of_mem P hc)))
        (fun e => hPpost (e ▸ hc))⟩)
  have hsplit : CellGrid.stepCells RAND_MAX draws (pre ++ P :: post) { G with d_populus := [] }
      = CellGrid.stepCells RAND_MAX draws post
        { Cell.step RAND_MAX (CellGrid.stepCells RAND_MAX draws pre { G with d_populus := [] })
            P (draws P) with
          d_populus := populusCount
            (Cell.step RAND_MAX (CellGrid.stepCells RAND_MAX draws pre { G with d_populus := [] })
              P (draws P)).d_populus
            ((Cell.step RAND_MAX
              (CellGrid.stepCells RAND_MAX draws pre { G with d_populus := [] })
              P (draws P)).cell P).d_genome } := by
    rw [stepCells_append, stepCells_cons]
  unfold CellGrid.generation
  rw [hsplit]
  generalize CellGrid.stepCells RAND_MAX draws post _ = Sfin at run3 ⊢
  obtain ⟨r1, r2, r3, r4⟩ := run3
  have hall : ∀ j, j < G.d_cells.length → j ∈ post ++ P :: pre := by
    intro j hj
    have := hp.mem_iff.mpr (List.mem_range.mpr hj)
    simp only [List.mem_append, List.mem_cons] at this ⊢
    tauto
  have hrq : Sfin.d_revive_queue = [⟨D, (G.cell P).d_genome, P⟩] := by
    rw [r3]; show G.d_revive_queue ++ _ = _; rw [hq0]; rfl
  have htarget : ∀ j, j < G.d_cells.length →
      ((∃ d ∈ Sfin.d_death_queue, d.target = j) ↔ Cell.dies G j = true) := by
    intro j hj
    rw [r4 j]
    show ((∃ d ∈ G.d_death_queue, d.target = j) ∨ (j ∈ post ++ P :: pre ∧ Cell.dies G j = true)) ↔ _
    rw [hd0]
    constructor
    · rintro (⟨d, hd, _⟩ | ⟨_, h⟩)
      · simp at hd
      · exact h
    · intro h; exact Or.inr ⟨hall j hj, h⟩
  have hScell : ∀ j, j < G.d_cells.length → Sfin.cell j = Cell.afterQuiet G j (draws j) := by
    intro j hj
    rw [r2 j, if_pos (hall j hj)]
    rfl
  have hR : ∀ j, (Sfin.process_requests).cell j =
      if ∃ d ∈ Sfin.d_death_queue, d.target = j then
        ((Sfin.setCell D ((Sfin.cell D).revive (G.cell P).d_genome)).cell j).die
      else (Sfin.setCell D ((Sfin.cell D).revive (G.cell P).d_genome)).cell j := by
    intro j
    have : (Sfin.process_requests).cell j
        = ((Sfin.reviveLoop Sfin.d_revive_queue).deathLoop Sfin.d_death_queue).cell j := by
      unfold CellGrid.cell; rw [process_requests_eq]
    rw [this, deathLoop_cell, hrq]
    rfl
  have hSlen : D < Sfin.d_cells.length := by rw [r1]; exact hDlt
  have hRD := hR D
  rw [cell_setCell_self _ _ _ hSlen] at hRD
  have hdiesP := dies_of_breeder G P hage hdead
  refine ⟨D, hD, hDmem, ?_, ?_, ?_, ?_, ?_, ?_, ?_, ?_, ?_, ?_⟩
  · rw [hRD]; split <;> rfl
  · rw [hRD]; split <;> rfl
  · rw [hRD]; split <;> rfl
  · rw [hRD]; split <;> rfl
  · rw [hRD]; split <;> rfl
  · rw [hRD]; split <;> rfl
  · rw [hRD]
    by_cases ht : ∃ d ∈ Sfin.d_death_queue, d.target = D
    · rw [if_pos ht]
      have := (htarget D hDlt).mp ht
      rw [this]
      constructor
      · intro h; exact absurd h (by simp [Cell.die])
      · intro h; exact absurd h (by decide)
    · rw [if_neg ht]
      have : Cell.dies G D = false := by
        rw [Bool.eq_false_iff]
        exact fun h => ht ((htarget D hDlt).mpr h)
      rw [this]
      exact ⟨fun _ => rfl, fun _ => rfl⟩
  · intro n hn hnD
    have hnlt := hvalid n hn
    have hcell : (Sfin.setCell D ((Sfin.cell D).revive (G.cell P).d_genome)).cell n
        = Cell.afterQuiet G n (draws n) := by
      rw [cell_setCell_ne _ _ _ _ (Ne.symm hnD), hScell n hnlt]
    rw [hR n, hcell]
    split
    · rfl
    · rw [(afterQuiet_fields G n (draws n)).1]; exact hdead n hn
  · have hcell : (Sfin.setCell D ((Sfin.cell D).revive (G.cell P).d_genome)).cell P
        = Cell.afterQuiet G P (draws P) := by
      rw [cell_setCell_ne _ _ _ _ hDP, hScell P hPlt]
    have hq : (Cell.afterQuiet G P (draws P)).d_age = (G.cell P).d_age - 1 := by
      unfold Cell.afterQuiet
      rw [if_neg (not_le.mpr hage)]
    rw [hR P, hcell]
    split
    · exact hq
    · exact hq
  · intro hnod n hn
    constructor
    · intro hal
      by_contra hne
      have hnlt := hvalid n hn
      have hcell : (Sfin.setCell D ((Sfin.cell D).revive (G.cell P).d_genome)).cell n
          = Cell.afterQuiet G n (draws n) := by
        rw [cell_setCell_ne _ _ _ _ (Ne.symm hne), hScell n hnlt]
      rw [hR n, hcell] at hal
      split at hal
      · exact absurd hal (by simp [Cell.die])
      · rw [(afterQuiet_fields G n (draws n)).1, hdead n hn] at hal
        exact absurd hal (by decide)
    · intro e
      subst e
      rw [hRD]
      have ht : ¬ ∃ d ∈ Sfin.d_death_queue, d.target = n := by
        intro h
        have := (htarget n hDlt).mp h
        rw [hnod] at this
        exact absurd this (by decide)
      rw [if_neg ht]
      rfl

/-- C12, as stated, fails: in `exLone` the cell at 4 is alive with age 16, its 8
neighbours are dead, its test against `horny` passes and its test against `mutate`
fails.  The neighbour at 3 is revived with the genome `0xfe2` and then killed by the
death it requested for itself in its own step, so after the generation no neighbour of
the cell at 4 is alive.  The two tests have the same outcome in `float` and on the exact
values. -/
theorem C12_counterexample :
    (exLone.cell 4).d_alive = true ∧ (exLone.cell 4).d_age = 16 ∧
    (exLone.cell 4).d_neighbours = [3, 5, 1, 7, 0, 2, 6, 8] ∧
    (∀ n ∈ (exLone.cell 4).d_neighbours, (exLone.cell n).d_alive = false) ∧
    roll 32767 drawsBreed.horny (exLone.cell 4).horny = true ∧
    ¬ roll 32767 drawsBreed.mutate (exLone.cell 4).mutate = true ∧
    (∀ n ∈ (exLone.cell 4).d_neighbours,
      ((exLone.generation 32767 (List.range 9) (fun _ => drawsBreed)).cell n).d_alive
        = false) ∧
    ((exLone.generation 32767 (List.range 9) (fun _ => drawsBreed)).cell 3).d_genome
      = 4066 ∧
    (drawsBreed.horny : ℚ) < (exLone.cell 4).horny * ((32767 : Nat) : ℚ) ∧
    ¬ (drawsBreed.mutate : ℚ) < (exLone.cell 4).mutate * ((32767 : Nat) : ℚ) := by
  refine ⟨by with_unfolding_all decide, by with_unfolding_all decide,
    by with_unfolding_all decide, by with_unfolding_all decide,
    by with_unfolding_all decide, by with_unfolding_all decide,
    by with_unfolding_all decide, by with_unfolding_all decide,
    by with_unfolding_all decide, by with_unfolding_all decide⟩

/-- C12, amended, at `exHeir` and the cell at 4: after the generation the neighbour at 3
is the one alive neighbour, it has the genome of the cell at 4, and the cell at 4 has
age 15. -/
theorem C12_witness :
    ((exHeir.generation 32767 (List.range 9) (fun _ => drawsBreed)).cell 3).d_genome
      = (exHeir.cell 4).d_genome ∧
    (∀ n ∈ (exHeir.cell 4).d_neighbours,
      (((exHeir.generation 32767 (List.range 9) (fun _ => drawsBreed)).cell n).d_alive
        = true ↔ n = 3)) ∧
    ((exHeir.generation 32767 (List.range 9) (fun _ => drawsBreed)).cell 4).d_age
      = (exHeir.cell 4).d_age - 1 := by
  obtain ⟨D, h1, _, h3, _, _, _, _, _, _, _, h11, h12⟩ :=
    C12_asexual_reproduction 32767 exHeir (fun _ => drawsBreed) (List.range 9) 4
      rfl rfl (List.Perm.refl _)
      (by with_unfolding_all decide) (by with_unfolding_all decide)
      (by with_unfolding_all decide) (by with_unfolding_all decide)
      (by with_unfolding_all decide) (by with_unfolding_all decide)
      (by with_unfolding_all decide) (by with_unfolding_all decide)
      (by
        intro c hc hne
        have hc9 : c < 9 := hc
        unfold Cell.quiet
        interval_cases c
        · exact Or.inl (by with_unfolding_all decide)
        · exact Or.inl (by with_unfolding_all decide)
        · exact Or.inl (by with_unfolding_all decide)
        · exact Or.inr (Or.inr ⟨by with_unfolding_all decide, by with_unfolding_all decide⟩)
        · exact absurd rfl hne
        · exact Or.inl (by with_unfolding_all decide)
        · exact Or.inl (by with_unfolding_all decide)
        · exact Or.inl (by with_unfolding_all decide)
        · exact Or.inl (by with_unfolding_all decide))
  have hD : D = 3 :=
    (Option.some.inj ((show _ = some 3 from by with_unfolding_all rfl).symm.trans h1)).symm
  subst hD
  exact ⟨h3, h12 (by with_unfolding_all decide), h11⟩

/-! ## Generations of calm steps -/

/-- The step of a cell with age left that does not starve, passes its test against
`horny`, finds the free spot `D` and has no neighbour that passes its kinship test: it
ages and enqueues the revival of `D` with its own genome, mutated when the test against
`mutate` passes. -/
theorem step_birth (RAND_MAX : Nat) (G : CellGrid) (c D : Nat) (r : Draws)
    (hage : 0 < (G.cell c).d_age) (hst : Cell.starving G c = false)
    (hh : roll RAND_MAX r.horny (G.cell c).horny = true)
    (hD : (random_shuffle r.shuffle (G.cell c).d_neighbours).find?
      (fun n => !(G.cell n).d_alive) = some D)
    (hlike : ∀ n ∈ (G.cell c).d_neighbours, (G.cell c).like (G.cell n) = false) :
    Cell.step RAND_MAX G c r =
      (Cell.aged G c r).request_revive D
        (if roll RAND_MAX r.mutate (G.cell c).mutate = true then
          (G.cell c).d_genome ^^^ (r.bits &&& 0xffffffff)
        else (G.cell c).d_genome) c := by
  have hc := lt_length_of_age_pos G c hage
  rw [step_of_age_pos RAND_MAX G c r hage, hst]
  simp only [Bool.false_eq_true, if_false, hh, if_true]
  have hfind : ((Cell.aged G c r).cell c).d_neighbours.find?
      (fun n => !((Cell.aged G c r).cell n).d_alive) = some D := by
    have hp : (fun n => !((Cell.aged G c r).cell n).d_alive)
        = (fun n => !(G.cell n).d_alive) := by
      funext n
      rw [(aged_traits G c r n).1]
    rw [hp, aged_cell G c r hc]
    exact hD
  have hno : ∀ n ∈ ((Cell.aged G c r).cell c).d_neighbours,
      ((Cell.aged G c r).cell c).like ((Cell.aged G c r).cell n) = false := by
    intro n hn
    rw [mem_aged_neighbours G c r hc] at hn
    rw [aged_like]; exact hlike n hn
  rw [reproduce_of_no_like RAND_MAX _ c D r hfind hno,
    (aged_traits G c r c).2.2.2.2.2.1, (aged_traits G c r c).2.2.1]

/-- A calm step, as a function of the state before it. -/
theorem step_calm (RAND_MAX : Nat) (G : CellGrid) (c : Nat) (r : Draws)
    (hq : Cell.calm RAND_MAX G c r) :
    Cell.step RAND_MAX G c r =
      { G.setCell c (Cell.afterQuiet G c r) with
        d_revive_queue := G.d_revive_queue ++ (Cell.birth RAND_MAX G c r).toList
        d_death_queue := G.d_death_queue ++
          (if Cell.dies G c = true then [⟨c, c⟩] else []) } := by
  by_cases hage : (G.cell c).d_age ≤ 0
  · have hd : Cell.dies G c = true := by simp [Cell.dies, hage]
    have hb : Cell.birth RAND_MAX G c r = none := by
      unfold Cell.birth; rw [if_pos hd]
    rw [step_of_expired RAND_MAX G c r hage, hb, hd]
    simp only [Cell.afterQuiet, hage, if_true, Option.toList, List.append_nil]
    rfl
  · have hpos : 0 < (G.cell c).d_age := not_le.mp hage
    have haq : G.setCell c (Cell.afterQuiet G c r) = Cell.aged G c r := by
      simp only [Cell.afterQuiet, hage, if_false]
      rfl
    rw [haq]
    by_cases hst : Cell.starving G c = true
    · have hd : Cell.dies G c = true := by simp [Cell.dies, hst]
      have hb : Cell.birth RAND_MAX G c r = none := by
        unfold Cell.birth; rw [if_pos hd]
      rw [step_of_age_pos RAND_MAX G c r hpos, hst, if_pos rfl, hb, hd]
      simp only [if_true, Option.toList, List.append_nil]
      rfl
    · have hst' : Cell.starving G c = false := by simpa using hst
      have hd : Cell.dies G c = false := by simp [Cell.dies, hage, hst']
      have hperm := random_shuffle_perm (G.cell c).d_neighbours r.shuffle
      by_cases hbr : roll RAND_MAX r.horny (G.cell c).horny = true ∧
          ∃ D, (random_shuffle r.shuffle (G.cell c).d_neighbours).find?
            (fun n => !(G.cell n).d_alive) = some D
      · obtain ⟨hh, D, hD⟩ := hbr
        have hDmem : D ∈ (G.cell c).d_neighbours :=
          hperm.mem_iff.mp (List.mem_of_find?_eq_some hD)
        have hDdead : (G.cell D).d_alive = false := by
          have := List.find?_some hD
          simpa using this
        have hlike : ∀ n ∈ (G.cell c).d_neighbours, (G.cell c).like (G.cell n) = false := by
          rcases hq with h | h | ⟨_, h | h⟩ | ⟨h, _⟩
          · exact absurd h hage
          · exact absurd h hst
          · have := h D hDmem
            rw [hDdead] at this
            exact absurd this (by decide)
          · exact h
          · exact absurd hh h
        have hb : Cell.birth RAND_MAX G c r = some ⟨D,
            if roll RAND_MAX r.mutate (G.cell c).mutate = true then
              (G.cell c).d_genome ^^^ (r.bits &&& 0xffffffff)
            else (G.cell c).d_genome, c⟩ := by
          unfold Cell.birth
          rw [if_neg (by rw [hd]; decide), if_pos hh, hD]
        rw [step_birth RAND_MAX G c D r hpos hst' hh hD hlike, hb, hd]
        simp only [Bool.false_eq_true, if_false, Option.toList, List.append_nil]
        rfl
      · have hb : Cell.birth RAND_MAX G c r = none := by
          unfold Cell.birth
          rw [if_neg (by rw [hd]; decide)]
          by_cases hh : roll RAND_MAX r.horny (G.cell c).horny = true
          · rw [if_pos hh]
            cases hf : (random_shuffle r.shuffle (G.cell c).d_neighbours).find?
                (fun n => !(G.cell n).d_alive) with
            | none => rfl
            | some D => exact absurd ⟨hh, D, hf⟩ hbr
          · rw [if_neg hh]
        have hstep : Cell.step RAND_MAX G c r = Cell.aged G c r := by
          apply step_no_branch RAND_MAX G c r hpos hst'
          · intro hh n hn
            have hf : (random_shuffle r.shuffle (G.cell c).d_neighbours).find?
                (fun n => !(G.cell n).d_alive) = none := by
              cases hf : (random_shuffle r.shuffle (G.cell c).d_neighbours).find?
                  (fun n => !(G.cell n).d_alive) with
              | none => rfl
              | some D => exact absurd ⟨hh, D, hf⟩ hbr
            rw [List.find?_eq_none] at hf
            have := hf n (hperm.mem_iff.mpr hn)
            simpa using this
          · intro hh ha
            rcases hq with h | h | ⟨h, _⟩ | ⟨_, h | h⟩
            · exact absurd h hage
            · exact absurd h hst
            · exact absurd h hh
            · exact absurd ha h
            · exact h
        rw [hstep, hb, hd]
        simp only [Bool.false_eq_true, if_false, Option.toList, List.append_nil]
        rfl

theorem births_append (RAND_MAX : Nat) (draws : Nat → Draws) (G : CellGrid)
    (l : List Nat) (c : Nat) :
    births RAND_MAX draws G (l ++ [c])
      = births RAND_MAX draws G l ++ (Cell.birth RAND_MAX G c (draws c)).toList := by
  unfold births
  rw [List.filterMap_append]
  cases h : Cell.birth RAND_MAX G c (draws c) <;> simp [List.filterMap_cons, h]

theorem calmRun_step (RAND_MAX : Nat) (draws : Nat → Draws) (G S : CellGrid)
    (done : List Nat) (c : Nat) (hr : CalmRun RAND_MAX draws G S done) (hc : c ∉ done)
    (hlt : c < G.d_cells.length) (hq : Cell.calm RAND_MAX G c (draws c)) :
    CalmRun RAND_MAX draws G
      { Cell.step RAND_MAX S c (draws c) with
        d_populus := populusCount (Cell.step RAND_MAX S c (draws c)).d_populus
          ((Cell.step RAND_MAX S c (draws c)).cell c).d_genome }
      (done ++ [c]) := by
  obtain ⟨h1, h2, h3, h4⟩ := hr
  have hSc : S.cell c = G.cell c := by rw [h2 c, if_neg hc]
  have hal : ∀ n, (S.cell n).d_alive = (G.cell n).d_alive := by
    intro n; rw [h2 n]; split
    · exact (afterQuiet_fields G n (draws n)).1
    · rfl
  have hhu : ∀ n, (S.cell n).hunger = (G.cell n).hunger := by
    intro n; rw [h2 n]; split
    · exact (afterQuiet_traits G n (draws n)).2
    · rfl
  have hge : ∀ n, (S.cell n).d_genome = (G.cell n).d_genome := by
    intro n; rw [h2 n]; split
    · exact (afterQuiet_fields G n (draws n)).2.1
    · rfl
  have hlk : ∀ n, (G.cell c).like (S.cell n) = (G.cell c).like (G.cell n) :=
    fun n => like_congr rfl rfl (hge n)
  have hst : Cell.starving S c = Cell.starving G c :=
    starving_congr G S c (fun n => ⟨hal n, hhu n⟩) (by rw [hSc])
  have hdies : Cell.dies S c = Cell.dies G c := by
    unfold Cell.dies; rw [hst, hSc]
  have haq : Cell.afterQuiet S c (draws c) = Cell.afterQuiet G c (draws c) := by
    unfold Cell.afterQuiet; rw [hSc]
  have hpred : (fun n => !(S.cell n).d_alive) = (fun n => !(G.cell n).d_alive) := by
    funext n; rw [hal n]
  have hbirth : Cell.birth RAND_MAX S c (draws c) = Cell.birth RAND_MAX G c (draws c) := by
    unfold Cell.birth; rw [hdies, hSc, hpred]
  have hqS : Cell.calm RAND_MAX S c (draws c) := by
    unfold Cell.calm at hq ⊢
    simp only [hst, hSc, hal, hlk]
    exact hq
  have hstep := step_calm RAND_MAX S c (draws c) hqS
  rw [hdies, haq, hbirth] at hstep
  have hcell : ∀ j, (Cell.step RAND_MAX S c (draws c)).cell j =
      if j ∈ done ++ [c] then Cell.afterQuiet G j (draws j) else G.cell j := by
    intro j
    have : (Cell.step RAND_MAX S c (draws c)).cell j
        = (S.setCell c (Cell.afterQuiet G c (draws c))).cell j := by
      rw [hstep]; rfl
    rw [this, cell_setCell]
    by_cases hj : c = j
    · subst hj
      simp only [h1, hlt, and_self, if_true, List.mem_append, List.mem_singleton, or_true]
    · have hj' : ¬ j = c := fun h => hj h.symm
      simp only [hj, false_and, if_false, h2 j, List.mem_append, List.mem_singleton, hj',
        or_false]
  refine ⟨?_, hcell, ?_, ?_⟩
  · show (Cell.step RAND_MAX S c (draws c)).d_cells.length = _
    rw [(step_frame RAND_MAX S c (draws c)).1.1, h1]
  · show (Cell.step RAND_MAX S c (draws c)).d_revive_queue = _
    rw [hstep, births_append, ← List.append_assoc, ← h3]
  · intro X
    show (∃ d ∈ (Cell.step RAND_MAX S c (draws c)).d_death_queue, d.target = X) ↔ _
    have hdq : (Cell.step RAND_MAX S c (draws c)).d_death_queue
        = S.d_death_queue ++ (if Cell.dies G c = true then [⟨c, c⟩] else []) := by
      rw [hstep]
    rw [hdq]
    by_cases hd : Cell.dies G c = true
    · rw [if_pos hd]
      constructor
      · rintro ⟨d, hdm, hdt⟩
        rcases List.mem_append.mp hdm with hm | hm
        · rcases (h4 X).mp ⟨d, hm, hdt⟩ with h | h
          · exact Or.inl h
          · exact Or.inr ⟨List.mem_append_left _ h.1, h.2⟩
        · rw [List.mem_singleton] at hm
          subst hm
          simp only [] at hdt
          subst hdt
          exact Or.inr ⟨List.mem_append_right _ (List.mem_singleton_self _), hd⟩
      · rintro (h | ⟨hm, hX⟩)
        · obtain ⟨d, hdm, hdt⟩ := (h4 X).mpr (Or.inl h)
          exact ⟨d, List.mem_append_left _ hdm, hdt⟩
        · rcases List.mem_append.mp hm with hm | hm
          · obtain ⟨d, hdm, hdt⟩ := (h4 X).mpr (Or.inr ⟨hm, hX⟩)
            exact ⟨d, List.mem_append_left _ hdm, hdt⟩
          · rw [List.mem_singleton] at hm
            subst hm
            exact ⟨⟨X, X⟩, List.mem_append_right _ (List.mem_singleton_self _), rfl⟩
    · rw [if_neg hd, List.append_nil, h4 X]
      constructor
      · rintro (h | ⟨hm, hX⟩)
        · exact Or.inl h
        · exact Or.inr ⟨List.mem_append_left _ hm, hX⟩
      · rintro (h | ⟨hm, hX⟩)
        · exact Or.inl h
        · rcases List.mem_append.mp hm with hm | hm
          · exact Or.inr ⟨hm, hX⟩
          · rw [List.mem_singleton] at hm
            subst hm
            exact absurd hX hd

theorem calmRun_stepCells (RAND_MAX : Nat) (draws : Nat → Draws) (G : CellGrid)
    (l : List Nat) : ∀ (S : CellGrid) (done : List Nat), CalmRun RAND_MAX draws G S done →
    l.Nodup → (∀ c ∈ l, c ∉ done) →
    (∀ c ∈ l, c < G.d_cells.length ∧ Cell.calm RAND_MAX G c (draws c)) →
    CalmRun RAND_MAX draws G (CellGrid.stepCells RAND_MAX draws l S) (done ++ l) := by
  induction l with
  | nil => intro S done hr _ _ _; rw [List.append_nil]; exact hr
  | cons c l ih =>
    intro S done hr hnd hdis hq
    rw [stepCells_cons]
    have hc := hq c (List.mem_cons_self c l)
    have h1 := calmRun_step RAND_MAX draws G S done c hr
      (hdis c (List.mem_cons_self c l)) hc.1 hc.2
    have h2 := ih _ (done ++ [c]) h1 (List.nodup_cons.mp hnd).2
      (by
        intro x hx hxm
        rcases List.mem_append.mp hxm with hxm | hxm
        · exact hdis x (List.mem_cons_of_mem c hx) hxm
        · rw [List.mem_singleton] at hxm
          subst hxm
          exact (List.nodup_cons.mp hnd).1 hx)
      (fun x hx => hq x (List.mem_cons_of_mem c hx))
    rw [List.append_assoc] at h2
    exact h2

theorem calmRun_start (RAND_MAX : Nat) (draws : Nat → Draws) (G : CellGrid) :
    CalmRun RAND_MAX draws G { G with d_populus := [] } [] := by
  refine ⟨rfl, ?_, ?_, ?_⟩
  · intro j; simp only [List.not_mem_nil, if_false]; rfl
  · show G.d_revive_queue = G.d_revive_queue ++ births RAND_MAX draws G []
    simp [births]
  · intro X
    simp only [List.not_mem_nil, false_and, or_false]

/-- The loop over `d_revive_queue` gives the same grid for two arrangements of a queue
in which no two requests have the same target. -/
theorem reviveLoop_perm (q1 q2 : List ReviveRequest) (hp : q1.Perm q2)
    (hnd : (q1.map (fun q => q.target)).Nodup) (A : CellGrid) :
    A.reviveLoop q1 = A.reviveLoop q2 := by
  unfold CellGrid.reviveLoop
  apply List.Perm.foldl_eq' hp
  intro x hx y hy z
  by_cases hxy : x = y
  · rw [hxy]
  · have ht : x.target ≠ y.target := fun h => hxy (List.inj_on_of_nodup_map hnd hx hy h)
    simp only [cell_setCell_ne _ _ _ _ ht, cell_setCell_ne _ _ _ _ (Ne.symm ht)]
    simp only [CellGrid.setCell]
    rw [List.set_comm _ _ _ ht]

theorem reviveLoop_append (q1 q2 : List ReviveRequest) (A : CellGrid) :
    A.reviveLoop (q1 ++ q2) = (A.reviveLoop q1).reviveLoop q2 := by
  unfold CellGrid.reviveLoop
  rw [List.foldl_append]

/-- The cells after `process_requests` depend on the cells after the loop over
`d_revive_queue` and on the set of targets of the death queue only. -/
theorem process_requests_cells_of (A B : CellGrid)
    (h1 : (A.reviveLoop A.d_revive_queue).d_cells = (B.reviveLoop B.d_revive_queue).d_cells)
    (hd : ∀ j, (∃ d ∈ A.d_death_queue, d.target = j) ↔ (∃ d ∈ B.d_death_queue, d.target = j)) :
    A.process_requests.d_cells = B.process_requests.d_cells := by
  rw [process_requests_eq, process_requests_eq]
  simp only []
  apply cells_ext
  · rw [(deathLoop_frame _ _).1, (deathLoop_frame _ _).1, h1]
  · intro j
    rw [deathLoop_cell, deathLoop_cell]
    have h2 : (A.reviveLoop A.d_revive_queue).cell j = (B.reviveLoop B.d_revive_queue).cell j := by
      unfold CellGrid.cell; rw [h1]
    rw [h2]
    by_cases hx : ∃ d ∈ A.d_death_queue, d.target = j
    · rw [if_pos hx, if_pos ((hd j).mp hx)]
    · rw [if_neg hx, if_neg (fun h => hx ((hd j).mpr h))]

/-! ## C2: simultaneity -/

/-- C2, amended: for every prior grid state, every assignment of draws to the cells
and every two visitation orders of the cells, the cells after the commit are
identical, provided every step of the generation is calm (no cell with a free spot has a
neighbour that passes its kinship test, and no step finds an opponent) and no two cells
request the revival of the same cell. -/
theorem C2_simultaneity_of_calm_generation (RAND_MAX : Nat) (G : CellGrid)
    (draws : Nat → Draws) (order1 order2 : List Nat)
    (h1 : order1.Perm (List.range G.d_cells.length))
    (h2 : order2.Perm (List.range G.d_cells.length))
    (hq : ∀ c, c < G.d_cells.length → Cell.calm RAND_MAX G c (draws c))
    (hfree : ((births RAND_MAX draws G (List.range G.d_cells.length)).map
      (fun q => q.target)).Nodup) :
    (G.generation RAND_MAX order1 draws).d_cells =
      (G.generation RAND_MAX order2 draws).d_cells := by
  have run : ∀ l : List Nat, l.Perm (List.range G.d_cells.length) →
      CalmRun RAND_MAX draws G
        (CellGrid.stepCells RAND_MAX draws l { G with d_populus := [] }) l := by
    intro l hl
    have := calmRun_stepCells RAND_MAX draws G l _ [] (calmRun_start RAND_MAX draws G)
      (hl.nodup_iff.mpr (List.nodup_range _)) (fun _ _ h => by simp at h)
      (fun c hc => by
        have hlt : c < G.d_cells.length := List.mem_range.mp (hl.mem_iff.mp hc)
        exact ⟨hlt, hq c hlt⟩)
    simpa using this
  obtain ⟨a1, b1, c1, d1⟩ := run order1 h1
  obtain ⟨a2, b2, c2, d2⟩ := run order2 h2
  have hmem : ∀ j, j ∈ order1 ↔ j ∈ order2 := fun j => (h1.trans h2.symm).mem_iff
  have hcells : (CellGrid.stepCells RAND_MAX draws order1 { G with d_populus := [] }).d_cells
      = (CellGrid.stepCells RAND_MAX draws order2 { G with d_populus := [] }).d_cells := by
    apply cells_ext
    · rw [a1, a2]
    · intro j
      rw [b1 j, b2 j]
      by_cases hj : j ∈ order1
      · rw [if_pos hj, if_pos ((hmem j).mp hj)]
      · rw [if_neg hj, if_neg (fun h => hj ((hmem j).mpr h))]
  have hb : (births RAND_MAX draws G order1).Perm (births RAND_MAX draws G order2) :=
    List.Perm.filterMap _ (h1.trans h2.symm)
  have hnd : ((births RAND_MAX draws G order1).map (fun q => q.target)).Nodup :=
    (((List.Perm.filterMap _ h1).map _).nodup_iff).mpr hfree
  unfold CellGrid.generation
  apply process_requests_cells_of
  · rw [c1, c2, reviveLoop_append, reviveLoop_append,
      reviveLoop_perm _ _ hb hnd]
    apply reviveLoop_cells_congr
    apply reviveLoop_cells_congr
    exact hcells
  · intro j
    rw [d1 j, d2 j, hmem j]

/-- C2, as stated, fails.  In `exDuel` the cell at 0 attacks the cell at 1; visited
first it meets an opponent that has not aged yet and loses, visited after it the two
are even and nobody dies.  In `exTwins` the cells at 0 and 1 both place a clone on the
cell at 2 and the request queued last decides its genome.  The two visitation orders
are each other's reverse and the draws of every cell are the same. -/
theorem C2_counterexample :
    ((exDuel.generation 32767 (List.range 9) drawsDuel).cell 0).d_alive = false ∧
    ((exDuel.generation 32767 (List.range 9).reverse drawsDuel).cell 0).d_alive = true ∧
    ((exTwins.generation 32767 (List.range 9) (fun _ => drawsBreed)).cell 2).d_genome = 4067 ∧
    ((exTwins.generation 32767 (List.range 9).reverse (fun _ => drawsBreed)).cell 2).d_genome
      = 4066 := by
  refine ⟨by with_unfolding_all decide, by with_unfolding_all decide,
    by with_unfolding_all decide, by with_unfolding_all decide⟩

/-- C2, amended, at `exHeir`, where the cell at 4 places a clone on the cell at 3 and no
other cell acts: the order `0, ..., 8` and its reverse give the same cells. -/
theorem C2_witness :
    births 32767 (fun _ => drawsBreed) exHeir (List.range 9) = [⟨3, 4066, 4⟩] ∧
    (exHeir.generation 32767 (List.range 9) (fun _ => drawsBreed)).d_cells =
      (exHeir.generation 32767 (List.range 9).reverse (fun _ => drawsBreed)).d_cells :=
  ⟨by with_unfolding_all rfl,
   C2_simultaneity_of_calm_generation 32767 exHeir (fun _ => drawsBreed) (List.range 9)
    (List.range 9).reverse
    (by have h : exHeir.d_cells.length = 9 := by decide
        rw [h])
    (by have h : exHeir.d_cells.length = 9 := by decide
        rw [h]; exact List.reverse_perm _)
    (by
      have h : exHeir.d_cells.length = 9 := by decide
      rw [h]
      intro c hc
      unfold Cell.calm
      interval_cases c
      · exact Or.inl (by with_unfolding_all decide)
      · exact Or.inl (by with_unfolding_all decide)
      · exact Or.inl (by with_unfolding_all decide)
      · exact Or.inr (Or.inr (Or.inr ⟨by with_unfolding_all decide,
          Or.inl (by with_unfolding_all decide)⟩))
      · exact Or.inr (Or.inr (Or.inl ⟨by with_unfolding_all decide,
          Or.inr (by with_unfolding_all decide)⟩))
      · exact Or.inl (by with_unfolding_all decide)
      · exact Or.inl (by with_unfolding_all decide)
      · exact Or.inl (by with_unfolding_all decide)
      · exact Or.inl (by with_unfolding_all decide))
    (by
      have h : exHeir.d_cells.length = 9 := by decide
      rw [h]
      with_unfolding_all decide)⟩

/-! ## The tests against `rand()` -/

theorem toFloat_zero : toFloat 0 = 0 := rfl

theorem toFloat_nonneg (x : ℚ) : 0 ≤ toFloat x := by
  unfold toFloat
  simp only []
  split
  · exact le_refl 0
  · split
    · exact Nat.cast_nonneg _
    · exact div_nonneg (Nat.cast_nonneg _) (Nat.cast_nonneg _)

/-- A test against a trait that is zero fails for every draw. -/
theorem roll_zero (RAND_MAX draw : Nat) : roll RAND_MAX draw 0 = false := by
  unfold roll
  rw [zero_mul, toFloat_zero, decide_eq_false_iff_not, not_lt]
  exact toFloat_nonneg _

/-- The conversions to `float` round: `2 ^ 31 - 1` becomes `2 ^ 31` and
`15 * 2 ^ 26 - 1` becomes `15 * 2 ^ 26`.  So for `RAND_MAX = 2147483647` and the trait
`15 / 32` the draw `15 * 2 ^ 26 - 1` fails the test although it is below the exact
product, and the draw `15 * 2 ^ 26 - 65` passes it; for `RAND_MAX = 32767` the same
trait gives the exact product `15 * 32767 / 32`. -/
theorem roll_rounds :
    toFloat ((2147483647 : Nat) : ℚ) = ((2147483648 : Nat) : ℚ) ∧
    toFloat ((1006632959 : Nat) : ℚ) = ((1006632960 : Nat) : ℚ) ∧
    ((1006632959 : Nat) : ℚ) < (15 / 32 : ℚ) * ((2147483647 : Nat) : ℚ) ∧
    roll 2147483647 1006632959 (15 / 32) = false ∧
    roll 2147483647 1006632895 (15 / 32) = true ∧
    toFloat ((15 / 32 : ℚ) * toFloat ((32767 : Nat) : ℚ)) = (15 / 32 : ℚ) * ((32767 : Nat) : ℚ) := by
  refine ⟨by with_unfolding_all rfl, by with_unfolding_all rfl,
    by with_unfolding_all decide, by with_unfolding_all decide,
    by with_unfolding_all decide, by with_unfolding_all rfl⟩

/-- At `exHeir` with `RAND_MAX = 2147483647` and the draws `drawsEdge` the test of the
cell at 4 against `horny` fails in `float`, and its step enqueues nothing. -/
theorem step_edge_draw :
    (drawsEdge.horny : ℚ) < (exHeir.cell 4).horny * ((2147483647 : Nat) : ℚ) ∧
    roll 2147483647 drawsEdge.horny (exHeir.cell 4).horny = false ∧
    (Cell.step 2147483647 exHeir 4 drawsEdge).d_revive_queue = [] ∧
    (Cell.step 2147483647 exHeir 4 drawsEdge).d_death_queue = [] := by
  refine ⟨by with_unfolding_all decide, by with_unfolding_all decide,
    by with_unfolding_all rfl, by with_unfolding_all rfl⟩

/-- For `RAND_MAX = 2147483647` a draw of `15 * 2 ^ 26 - 1` is below the exact product
`15 / 32 * RAND_MAX` and fails the `float` test.  In `exDuel` the cell at 0 then does not
reach the combat loop and enqueues nothing; in `exCrowd` the cell at 4 then does not reach
the reproduction loop, passes the test against `aggro`, and enqueues the death of the
cell at 3. -/
theorem step_edge_combat :
    (drawsEdgeAggro.aggro : ℚ) < (exDuel.cell 0).aggro * ((2147483647 : Nat) : ℚ) ∧
    roll 2147483647 drawsEdgeAggro.aggro (exDuel.cell 0).aggro = false ∧
    (Cell.step 2147483647 exDuel 0 drawsEdgeAggro).d_death_queue = [] ∧
    (Cell.step 2147483647 exDuel 0 drawsEdgeAggro).d_revive_queue = [] ∧
    (drawsEdgeBoth.horny : ℚ) < (exCrowd.cell 4).horny * ((2147483647 : Nat) : ℚ) ∧
    roll 2147483647 drawsEdgeBoth.horny (exCrowd.cell 4).horny = false ∧
    roll 2147483647 drawsEdgeBoth.aggro (exCrowd.cell 4).aggro = true ∧
    (Cell.step 2147483647 exCrowd 4 drawsEdgeBoth).d_death_queue = [⟨3, 4⟩] ∧
    (Cell.step 2147483647 exCrowd 4 drawsEdgeBoth).d_revive_queue = [] := by
  refine ⟨by with_unfolding_all decide, by with_unfolding_all decide,
    by with_unfolding_all rfl, by with_unfolding_all rfl,
    by with_unfolding_all decide, by with_unfolding_all decide,
    by with_unfolding_all decide,
    by with_unfolding_all rfl, by with_unfolding_all rfl⟩

end Gevo
